import Mathlib

/-!
QuantPDE: the HJBQVI module

A shallow embedding of `QuantPDE/src/Modules/HJBQVI/HJBQVI.hpp`, with the
linear solvers of `QuantPDE/src/Bindings/Eigen.hpp`, the operators of
`QuantPDE/src/Modules/Operators/BlackScholes.hpp` and the integer powers of
`QuantPDE/src/Core/Metafunctions.hpp`.

Conventions of the embedding:

* `Real` (a C++ `double`) is an exact rational `ℚ`: no rounding is modelled.
  The infinities and not-a-number appear only where the conventions below and
  those of the method `solve` say so.
* `-std::numeric_limits<Real>::infinity()` is `⊥ : WithBot ℚ`.
* An entry of a control vector is an `Option ℚ`; `none` is `std::nan("")`.
* An `Axis` is its list of ticks, a `RectilinearGrid` the list of its axes.
  A grid vector is indexed by the row number of the node, with the first
  axis running fastest, as in the row loops of the source.
* A sparse `Matrix` is the list of its stored entries in insertion order.
-/

namespace QuantPDE

/-- An axis: its ticks, in order. -/
abbrev Axis := List ℚ

/-- A rectilinear grid: one axis per dimension. -/
abbrev RectilinearGrid := List Axis

/-- Tick `x[i]` of an axis. -/
def Axis.tick (x : Axis) (i : Nat) : ℚ := x.getD i 0

/-- Axis `grid[d]`. -/
def RectilinearGrid.axis (g : RectilinearGrid) (d : Nat) : Axis := g.getD d []

/-- Number of nodes of a grid: `grid.size()`. -/
def RectilinearGrid.size (g : RectilinearGrid) : Nat := (g.map List.length).prod

/-- Space between ticks: `offsets[0] = 1`,
`offsets[d] = offsets[d-1] * grid[d-1].size()`. -/
def offsets (g : RectilinearGrid) : Nat → Nat
  | 0 => 1
  | d + 1 => offsets g d * (g.axis d).length

/-- Multi-index of a row: `i[d] = (row / offsets[d]) % grid[d].size()`. -/
def index (g : RectilinearGrid) (row d : Nat) : Nat :=
  (row / offsets g d) % (g.axis d).length

/-- Coordinates of the node of a row: `args[1+d] = grid[d][i[d]]`. -/
def coordinates (g : RectilinearGrid) (row : Nat) : List ℚ :=
  (List.range g.length).map (fun d => (g.axis d).tick (index g row d))

/-- Nodes of a grid in iteration order (`for(auto node : grid)`). -/
def RectilinearGrid.nodes (g : RectilinearGrid) : List (List ℚ) :=
  (List.range g.size).map (coordinates g)

/-- An axis is strictly increasing. -/
def Axis.StrictlyIncreasing (x : Axis) : Prop := List.Pairwise (fun a b => a < b) x

instance (x : Axis) : Decidable x.StrictlyIncreasing := by
  unfold Axis.StrictlyIncreasing
  infer_instance

/-- Every axis of the grid is strictly increasing. -/
def RectilinearGrid.StrictlyIncreasing (g : RectilinearGrid) : Prop :=
  ∀ x ∈ g, Axis.StrictlyIncreasing x

instance (g : RectilinearGrid) : Decidable g.StrictlyIncreasing := by
  unfold RectilinearGrid.StrictlyIncreasing
  infer_instance

namespace HJBQVIControlMethod

def SEMI_LAGRANGIAN : Nat := 1
def EXPLICIT_IMPULSE : Nat := 1 <<< 1
def EXPLICIT_CONTROL : Nat := SEMI_LAGRANGIAN ||| EXPLICIT_IMPULSE
def PENALTY_METHOD : Nat := 1 <<< 2
def DIRECT_CONTROL : Nat := 1 <<< 3
def ITERATED_OPTIMAL_STOPPING : Nat := DIRECT_CONTROL ||| (1 <<< 4)

end HJBQVIControlMethod

/-- One stored entry of a sparse matrix: `A.insert(row, col) = val`. -/
structure Entry where
  row : Int
  col : Int
  val : ℚ
deriving DecidableEq

/-- A sparse matrix: its stored entries. -/
abbrev Matrix := List Entry

/-- The coefficient functions and the settings of an `HJBQVI` problem that the
discretization and the explicit event read.  A coefficient function takes the
time, the spatial coordinates and (where controlled) the control coordinates;
the array functions take the dimension first.  The two control dimensions are
the template parameters of the class; the spatial dimension is the number of
axes of the spatial grid. -/
structure HJBQVIData where
  discount : ℚ → List ℚ → ℚ
  volatility : Nat → ℚ → List ℚ → ℚ
  controlled_drift : Nat → ℚ → List ℚ → List ℚ → ℚ
  controlled_continuous_flow : ℚ → List ℚ → List ℚ → ℚ
  transition : Nat → ℚ → List ℚ → List ℚ → ℚ
  impulse_flow : ℚ → List ℚ → List ℚ → ℚ
  StochasticControlDimension : Nat
  ImpulseControlDimension : Nat
  handling : Nat
  drop_semi_lagrangian_off_grid : Bool

namespace HJBQVIData

def penalty_method (h : HJBQVIData) : Bool :=
  (h.handling &&& HJBQVIControlMethod.PENALTY_METHOD) != 0

def direct_control (h : HJBQVIData) : Bool :=
  (h.handling &&& HJBQVIControlMethod.DIRECT_CONTROL) != 0

def fully_implicit (h : HJBQVIData) : Bool :=
  (h.handling &&& HJBQVIControlMethod.PENALTY_METHOD) != 0
    || (h.handling &&& HJBQVIControlMethod.DIRECT_CONTROL) != 0

def semi_lagrangian (h : HJBQVIData) : Bool :=
  (h.handling &&& HJBQVIControlMethod.SEMI_LAGRANGIAN) != 0

def explicit_impulse (h : HJBQVIData) : Bool :=
  (h.handling &&& HJBQVIControlMethod.EXPLICIT_IMPULSE) != 0

def explicit_control (h : HJBQVIData) : Bool :=
  (h.handling &&& HJBQVIControlMethod.EXPLICIT_CONTROL) != 0

end HJBQVIData

/-- A boundary routine.  It receives the problem, the refined grid, the
dimension `d`, the evaluation arguments (time, coordinates, control), the
multi-index `i`, the offsets and the row; it returns the diagonal contribution
together with the entries (column, value) it inserts into that row. -/
abbrev boundary_routine :=
  HJBQVIData → RectilinearGrid → Nat → ℚ → List ℚ → List ℚ → (Nat → Nat) → (Nat → Nat)
    → Nat → ℚ × List (Int × ℚ)

/-- An `HJBQVI` problem: the data above and the boundary routines
(`nullptr` is `none`). -/
structure HJBQVI extends HJBQVIData where
  lboundary : Nat → Option boundary_routine
  rboundary : Nat → Option boundary_routine

/-- Drift used by the discretization: `mu = 0`, and
`mu += controlled_drift[d](args)` unless the handling is semi-Lagrangian. -/
def drift (h : HJBQVIData) (d : Nat) (time : ℚ) (x q : List ℚ) : ℚ :=
  0 + (if !h.semi_lagrangian then h.controlled_drift d time x q else 0)

/-- `HJBQVILinearBoundary`: returns `-mu / args[1+d]`, inserts nothing. -/
def HJBQVILinearBoundary : boundary_routine :=
  fun h _g d time x q _i _offsets _row =>
    let mu := drift h d time x q
    (- mu / x.getD d 0, [])

/-- `HJBQVIZeroDiffusionRightBoundary`: with `dxb = x[i[d]] - x[i[d]-1]` and
`alpha = -mu / dxb`, inserts `-alpha` at column `row - offsets[d]` and returns
`alpha`. -/
def HJBQVIZeroDiffusionRightBoundary : boundary_routine :=
  fun h g d time x q i offs row =>
    let ax := g.axis d
    let dxb := ax.tick (i d) - ax.tick (i d - 1)
    let mu := drift h d time x q
    let alpha := - mu / dxb
    (alpha, [((row : Int) - (offs d : Int), -alpha)])

namespace ControlledOperator

/-- The diffusion term `alpha_common = vv / dxb / dxc`, `vv = v * v`. -/
def alpha_common (v dxb dxc : ℚ) : ℚ := v * v / dxb / dxc

/-- The diffusion term `beta_common = vv / dxf / dxc`, `vv = v * v`. -/
def beta_common (v dxf dxc : ℚ) : ℚ := v * v / dxf / dxc

/-- Central pair: `(alpha_common - mu / dxc, beta_common + mu / dxc)`. -/
def central (v mu dxb dxc dxf : ℚ) : ℚ × ℚ :=
  (alpha_common v dxb dxc - mu / dxc, beta_common v dxf dxc + mu / dxc)

/-- Forward pair: `(alpha_common, beta_common + mu / dxf)`. -/
def forward (v mu dxb dxc dxf : ℚ) : ℚ × ℚ :=
  (alpha_common v dxb dxc, beta_common v dxf dxc + mu / dxf)

/-- Backward pair: `(alpha_common - mu / dxb, beta_common)`. -/
def backward (v mu dxb dxc dxf : ℚ) : ℚ × ℚ :=
  (alpha_common v dxb dxc - mu / dxb, beta_common v dxf dxc)

/-- The pair `(alpha, beta)` of an interior node in `ControlledOperator::A`:
the central pair, replaced by the forward pair if `alpha < 0`, else by the
backward pair if `beta < 0`. -/
def stencil (v mu dxb dxc dxf : ℚ) : ℚ × ℚ :=
  let alpha := alpha_common v dxb dxc - mu / dxc
  let beta := beta_common v dxf dxc + mu / dxc
  if alpha < 0 then
    (alpha_common v dxb dxc, beta_common v dxf dxc + mu / dxf)
  else if beta < 0 then
    (alpha_common v dxb dxc - mu / dxb, beta_common v dxf dxc)
  else
    (alpha, beta)

end ControlledOperator

/-- The controlled operator: the problem, the refined spatial grid and the
current control of the policy iteration, `control d row` being
`this->control(d)(row)`. -/
structure ControlledOperator where
  hjbqvi : HJBQVI
  refined_spatial_grid : RectilinearGrid
  control : Nat → Nat → ℚ

namespace ControlledOperator

/-- The control arguments of a row: `q[d](row)` for every control dimension,
`q[d]` being zero under semi-Lagrangian handling and `control(d)` otherwise. -/
def q (op : ControlledOperator) (row : Nat) : List ℚ :=
  (List.range op.hjbqvi.StochasticControlDimension).map
    (fun d => if op.hjbqvi.semi_lagrangian then 0 else op.control d row)

/-- The pair `(alpha, beta)` that `A` computes for a row in a dimension in which
the node is interior, from the spacings `dxb`, `dxc`, `dxf` of the axis, the
volatility `v` and the drift `mu`. -/
def coefficients (op : ControlledOperator) (time : ℚ) (row d : Nat) : ℚ × ℚ :=
  let g := op.refined_spatial_grid
  let i := index g row
  let x := coordinates g row
  let ax := g.axis d
  let dxb := ax.tick (i d) - ax.tick (i d - 1)
  let dxc := ax.tick (i d + 1) - ax.tick (i d - 1)
  let dxf := ax.tick (i d + 1) - ax.tick (i d)
  let v := op.hjbqvi.volatility d time x
  let mu := drift op.hjbqvi.toHJBQVIData d time x (op.q row)
  stencil v mu dxb dxc dxf

/-- One pass of the loop over the dimensions in `A` for a row: the amount added
to `total` and the entries (column, value) inserted into the row. -/
def A_dim (op : ControlledOperator) (time : ℚ) (row d : Nat) : ℚ × List (Int × ℚ) :=
  let g := op.refined_spatial_grid
  let i := index g row
  let x := coordinates g row
  if i d = 0 then
    -- Left boundary
    match op.hjbqvi.lboundary d with
    | some routine =>
        routine op.hjbqvi.toHJBQVIData g d time x (op.q row) i (offsets g) row
    | none => (0, [])
  else if i d = (g.axis d).length - 1 then
    -- Right boundary
    match op.hjbqvi.rboundary d with
    | some routine =>
        routine op.hjbqvi.toHJBQVIData g d time x (op.q row) i (offsets g) row
    | none => (0, [])
  else
    let ab := op.coefficients time row d
    (ab.1 + ab.2,
      [((row : Int) - (offsets g d : Int), -ab.1), ((row : Int) + (offsets g d : Int), -ab.2)])

/-- The loop over the dimensions in `A` for a row: the final `total` and the
entries inserted so far, from `total = 0` and no entry. -/
def A_dims (op : ControlledOperator) (time : ℚ) (row : Nat) : ℚ × List (Int × ℚ) :=
  (List.range op.refined_spatial_grid.length).foldl
    (fun acc d => (acc.1 + (op.A_dim time row d).1, acc.2 ++ (op.A_dim time row d).2))
    (0, [])

/-- The entries of one row of `A`: the entries of the loop over the dimensions,
then the diagonal `A.insert(row, row) = total + rho`. -/
def A_row (op : ControlledOperator) (time : ℚ) (row : Nat) : Matrix :=
  let r := op.A_dims time row
  let rho := op.hjbqvi.discount time (coordinates op.refined_spatial_grid row)
  (r.2.map (fun e => (⟨(row : Int), e.1, e.2⟩ : Entry))) ++ [⟨(row : Int), (row : Int), r.1 + rho⟩]

/-- The matrix `A(time)`: the rows in order. -/
def A (op : ControlledOperator) (time : ℚ) : Matrix :=
  (List.range op.refined_spatial_grid.size).flatMap (op.A_row time)

end ControlledOperator

/-- The diagonal entry of a row of a matrix (zero if none is stored). -/
def Matrix.diagonal (m : Matrix) (row : Nat) : ℚ :=
  ((m.filter (fun e => e.row = (row : Int) ∧ e.col = (row : Int))).map Entry.val).sum

/-- The sum of the absolute values of the off-diagonal entries of a row. -/
def Matrix.offDiagonalMagnitude (m : Matrix) (row : Nat) : ℚ :=
  ((m.filter (fun e => e.row = (row : Int) ∧ e.col ≠ (row : Int))).map (fun e => |e.val|)).sum

/-- The node of a row is interior in every spatial dimension. -/
def interiorRow (g : RectilinearGrid) (row : Nat) : Prop :=
  ∀ d, d < g.length → index g row d ≠ 0 ∧ index g row d ≠ (g.axis d).length - 1

instance (g : RectilinearGrid) (row : Nat) : Decidable (interiorRow g row) := by
  unfold interiorRow
  infer_instance

/-- The control vectors of one kind: `cv d row` is entry `row` of the vector of
control dimension `d`. -/
abbrev ControlVectors := Nat → Nat → Option ℚ

/-- The assignment `control_vector[d](row) = args[1+Dimension+d]` for every
`d < dim`, `args` being the control arguments. -/
def recordControl (dim row : Nat) (args : List ℚ) (cv : ControlVectors) : ControlVectors :=
  fun d r => if r = row ∧ d < dim then some (args.getD d 0) else cv d r

/-- The control arguments of a candidate node: `args[1+Dimension+d] = node[d]`
for every `d < dim`. -/
def controlArgs (dim : Nat) (node : List ℚ) : List ℚ :=
  (List.range dim).map (fun d => node.getD d 0)

/-- The loop `// Find optimal control` of `_doEvent` over the nodes of a control
grid, for one row.  The control arguments are the first `dim` coordinates of
the node; `value` is the `new_value` of a candidate, or `none` when the
candidate is skipped; a candidate with `new_value` above the best value so far
replaces it and is recorded in the control vectors. -/
def findOptimalControl (dim row : Nat) (value : List ℚ → Option ℚ)
    (nodes : List (List ℚ)) (init : WithBot ℚ × ControlVectors) : WithBot ℚ × ControlVectors :=
  nodes.foldl
    (fun acc node =>
      let args := controlArgs dim node
      match value args with
      | none => acc
      | some new_value =>
          if (new_value : WithBot ℚ) > acc.1 then
            ((new_value : WithBot ℚ), recordControl dim row args acc.2)
          else acc)
    init

/-- An explicit event.  `interpolate grid vector x` is
`PiecewiseLinear<Dimension>(grid, vector).interpolate(x)`, which is not part of
this module. -/
structure ExplicitEvent where
  hjbqvi : HJBQVI
  refined_spatial_grid : RectilinearGrid
  refined_stochastic_control_grid : RectilinearGrid
  refined_impulse_control_grid : RectilinearGrid
  time : ℚ
  dt : ℚ
  interpolate : RectilinearGrid → List ℚ → List ℚ → ℚ

/-- What an event leaves behind: the mask and the two families of control
vectors. -/
structure EventState where
  mask : List Bool
  stochastic_control_vector : ControlVectors
  impulse_control_vector : ControlVectors

namespace ExplicitEvent

/-- Foot point of a stochastic-control candidate:
`new_state[d] = args[1+d] + m * dt`, `m = controlled_drift[d](args)`. -/
def foot (ev : ExplicitEvent) (x args : List ℚ) (d : Nat) : ℚ :=
  x.getD d 0 + ev.hjbqvi.controlled_drift d ev.time x args * ev.dt

/-- The flag `skip` of a stochastic-control candidate. -/
def skip (ev : ExplicitEvent) (x args : List ℚ) : Bool :=
  (List.range ev.refined_spatial_grid.length).any (fun d =>
    let axis := ev.refined_spatial_grid.axis d
    ev.hjbqvi.drop_semi_lagrangian_off_grid
      && (decide (ev.foot x args d < axis.tick 0)
          || decide (ev.foot x args d > axis.tick (axis.length - 1))))

/-- Value of a stochastic-control candidate, `none` when it is skipped:
`u.interpolate(new_state) + flow * dt`. -/
def semiLagrangianValue (ev : ExplicitEvent) (vector x args : List ℚ) : Option ℚ :=
  if ev.skip x args then none
  else
    let new_state := (List.range ev.refined_spatial_grid.length).map (ev.foot x args)
    let flow := ev.hjbqvi.controlled_continuous_flow ev.time x args
    some (ev.interpolate ev.refined_spatial_grid vector new_state + flow * ev.dt)

/-- Value of an impulse-control candidate: `u.interpolate(new_state) + flow`,
`new_state[d] = transition[d](args)`, `flow = impulse_flow(args)`. -/
def impulseValue (ev : ExplicitEvent) (vector x args : List ℚ) : Option ℚ :=
  let new_state :=
    (List.range ev.refined_spatial_grid.length).map (fun d => ev.hjbqvi.transition d ev.time x args)
  let flow := ev.hjbqvi.impulse_flow ev.time x args
  some (ev.interpolate ev.refined_spatial_grid vector new_state + flow)

/-- The continuation value `a` of a row and the stochastic control vectors
after the row. -/
def continuation (ev : ExplicitEvent) (vector : List ℚ) (row : Nat)
    (cv : ControlVectors) : WithBot ℚ × ControlVectors :=
  let x := coordinates ev.refined_spatial_grid row
  if ev.hjbqvi.semi_lagrangian then
    findOptimalControl ev.hjbqvi.StochasticControlDimension row
      (ev.semiLagrangianValue vector x) ev.refined_stochastic_control_grid.nodes (⊥, cv)
  else
    (((vector.getD row 0 : ℚ) : WithBot ℚ), cv)

/-- The best impulse value `b` of a row and the impulse control vectors after
the row. -/
def impulse (ev : ExplicitEvent) (vector : List ℚ) (row : Nat)
    (cv : ControlVectors) : WithBot ℚ × ControlVectors :=
  let x := coordinates ev.refined_spatial_grid row
  if ev.hjbqvi.explicit_impulse then
    findOptimalControl ev.hjbqvi.ImpulseControlDimension row
      (ev.impulseValue vector x) ev.refined_impulse_control_grid.nodes (⊥, cv)
  else
    (⊥, cv)

/-- The continuation value `a` of a row; it does not depend on the control
vectors found. -/
def a (ev : ExplicitEvent) (vector : List ℚ) (row : Nat) : WithBot ℚ :=
  (ev.continuation vector row (fun _ _ => none)).1

/-- The best impulse value `b` of a row; it does not depend on the control
vectors found. -/
def b (ev : ExplicitEvent) (vector : List ℚ) (row : Nat) : WithBot ℚ :=
  (ev.impulse vector row (fun _ _ => none)).1

/-- One pass of the row loop of `_doEvent`. -/
def rowStep (ev : ExplicitEvent) (vector : List ℚ)
    (acc : List (WithBot ℚ) × EventState) (row : Nat) : List (WithBot ℚ) × EventState :=
  let a := ev.continuation vector row acc.2.stochastic_control_vector
  let b := ev.impulse vector row acc.2.impulse_control_vector
  if a.1 ≥ b.1 then
    (acc.1 ++ [a.1], ⟨acc.2.mask ++ [false], a.2, b.2⟩)
  else
    (acc.1 ++ [b.1], ⟨acc.2.mask ++ [true], a.2, b.2⟩)

/-- The event `_doEvent(vector)`: the returned vector `best`, one entry per row
in row order, and the state left behind, from the state found.  The mask is
cleared first. -/
def _doEvent (ev : ExplicitEvent) (vector : List ℚ) (st : EventState) :
    List (WithBot ℚ) × EventState :=
  (List.range ev.refined_spatial_grid.size).foldl (ev.rowStep vector)
    ([], ⟨[], st.stochastic_control_vector, st.impulse_control_vector⟩)

end ExplicitEvent

/-! ### The search loop without the control vectors

The loop `findOptimalControl` writes the control of the best candidate so far
into the control vectors.  The same loop that only remembers the control
arguments last recorded is used to reason about it. -/

/-- The search loop keeping the best value and the control arguments last
recorded (`none`: nothing recorded). -/
def scanOptimalControl (dim : Nat) (value : List ℚ → Option ℚ)
    (nodes : List (List ℚ)) (init : WithBot ℚ × Option (List ℚ)) : WithBot ℚ × Option (List ℚ) :=
  nodes.foldl
    (fun acc node =>
      match value (controlArgs dim node) with
      | none => acc
      | some new_value =>
          if (new_value : WithBot ℚ) > acc.1 then
            ((new_value : WithBot ℚ), some (controlArgs dim node))
          else acc)
    init

/-- Writing the control arguments last recorded, if any, into the control
vectors at a row. -/
def applyRecord (dim row : Nat) (rec : Option (List ℚ)) (cv : ControlVectors) : ControlVectors :=
  match rec with
  | none => cv
  | some args => recordControl dim row args cv

namespace ExplicitEvent

/-- The stochastic control arguments recorded for a row by `_doEvent`, if
any. -/
def stochasticRecord (ev : ExplicitEvent) (vector : List ℚ) (row : Nat) : Option (List ℚ) :=
  if ev.hjbqvi.semi_lagrangian then
    (scanOptimalControl ev.hjbqvi.StochasticControlDimension
      (ev.semiLagrangianValue vector (coordinates ev.refined_spatial_grid row))
      ev.refined_stochastic_control_grid.nodes (⊥, none)).2
  else none

/-- The impulse control arguments recorded for a row by `_doEvent`, if any. -/
def impulseRecord (ev : ExplicitEvent) (vector : List ℚ) (row : Nat) : Option (List ℚ) :=
  if ev.hjbqvi.explicit_impulse then
    (scanOptimalControl ev.hjbqvi.ImpulseControlDimension
      (ev.impulseValue vector (coordinates ev.refined_spatial_grid row))
      ev.refined_impulse_control_grid.nodes (⊥, none)).2
  else none

end ExplicitEvent


/-! ### The control vectors of the result of `solve` -/

/-- The assignments `control_vector[d](i) = std::nan("")` for every `d < dim`. -/
def setNaN (dim i : Nat) (cv : ControlVectors) : ControlVectors :=
  fun d r => if r = i ∧ d < dim then none else cv d r

/-- The loop `// Apply mask` of `solve`: at a node whose mask is true the
stochastic control entries become not-a-number, at any other node the impulse
control entries do.  The pair is (stochastic, impulse). -/
def applyMask (h : HJBQVIData) (size : Nat) (mask : List Bool)
    (cv : ControlVectors × ControlVectors) : ControlVectors × ControlVectors :=
  (List.range size).foldl
    (fun acc i =>
      if mask.getD i false then
        (setNaN h.StochasticControlDimension i acc.1, acc.2)
      else
        (acc.1, setNaN h.ImpulseControlDimension i acc.2))
    cv

/-- The mask that `solve` applies: the one left by the explicit events, replaced
by `penalty.constraintMask()` when the impulse is implicit. -/
def solveMask (h : HJBQVIData) (events : EventState) (constraintMask : List Bool) : List Bool :=
  if !h.explicit_impulse then constraintMask else events.mask

/-- The control vectors before the mask is applied: those left by the explicit
events, the stochastic ones replaced by `controlled_operator.control(d)` when
the stochastic control is implicit, the impulse ones by `impulse.control(d)`
when the impulse is implicit. -/
def solveControls (h : HJBQVIData) (events : EventState)
    (controlled_operator_control impulse_control : ControlVectors) :
    ControlVectors × ControlVectors :=
  (if !h.semi_lagrangian then controlled_operator_control else events.stochastic_control_vector,
   if !h.explicit_impulse then impulse_control else events.impulse_control_vector)

/-- The control vectors (stochastic, impulse) of the `Result` of `solve`, on a
refined spatial grid of `size` nodes: `events` is what the explicit events
left behind; `controlled_operator_control`, `impulse_control` and
`constraintMask` are what the implicit schemes, which are not part of this
module, report. -/
def resultControls (h : HJBQVIData) (size : Nat) (events : EventState)
    (controlled_operator_control impulse_control : ControlVectors) (constraintMask : List Bool) :
    ControlVectors × ControlVectors :=
  applyMask h size (solveMask h events constraintMask)
    (solveControls h events controlled_operator_control impulse_control)

/-- All entries of the control vectors at a node are not-a-number. -/
def allNaN (dim : Nat) (cv : ControlVectors) (i : Nat) : Prop :=
  ∀ d, d < dim → cv d i = none

instance (dim : Nat) (cv : ControlVectors) (i : Nat) : Decidable (allNaN dim cv i) := by
  unfold allNaN
  infer_instance


/-- An example problem: unit volatility, a constant controlled drift `mu`, zero
discount and flows, the identity transition, the given handling, no left
boundary routine and the given right boundary routine. -/
def exampleProblem (mu : ℚ) (handling : Nat) (rb : Option boundary_routine) : HJBQVI :=
  { discount := fun _ _ => 0
    volatility := fun _ _ _ => 1
    controlled_drift := fun _ _ _ _ => mu
    controlled_continuous_flow := fun _ _ _ => 0
    transition := fun d _ x _ => x.getD d 0
    impulse_flow := fun _ _ _ => 0
    StochasticControlDimension := 1
    ImpulseControlDimension := 1
    handling := handling
    drop_semi_lagrangian_off_grid := false
    lboundary := fun _ => none
    rboundary := fun _ => rb }

/-- An example operator on the one-dimensional grid with ticks `0, 1, 2, 4`,
under the penalty method. -/
def exampleOperator (mu : ℚ) (rb : Option boundary_routine) : ControlledOperator :=
  { hjbqvi := exampleProblem mu HJBQVIControlMethod.PENALTY_METHOD rb
    refined_spatial_grid := [[0, 1, 2, 4]]
    control := fun _ _ => 0 }

/-- An example operator on the two-dimensional grid with ticks `0, 1, 3` and
`0, 2, 3`, under the penalty method, without boundary routines. -/
def exampleOperator2 (mu : ℚ) : ControlledOperator :=
  { hjbqvi := exampleProblem mu HJBQVIControlMethod.PENALTY_METHOD none
    refined_spatial_grid := [[0, 1, 3], [0, 2, 3]]
    control := fun _ _ => 0 }


/-- Linear interpolation on a one-dimensional grid of two ticks, the
piecewise-linear interpolant of the examples. -/
def linearInterpolate (g : RectilinearGrid) (vector x : List ℚ) : ℚ :=
  vector.getD 0 0
    + (vector.getD 1 0 - vector.getD 0 0) * (x.getD 0 0 - (g.axis 0).tick 0)
        / ((g.axis 0).tick 1 - (g.axis 0).tick 0)

/-- An example explicit event under explicit (semi-Lagrangian and explicit
impulse) handling on the spatial grid `0, 1`: the drift and the continuous flow
equal the stochastic control, taken from `0, 1`; an impulse moves the state to
the impulse control, taken from `0, 1`, at the flow `c`; off-grid candidates
are dropped; `time = 0`, `dt = 1`. -/
def exampleEvent (c : ℚ) : ExplicitEvent :=
  { hjbqvi :=
      { discount := fun _ _ => 0
        volatility := fun _ _ _ => 1
        controlled_drift := fun _ _ _ q => q.getD 0 0
        controlled_continuous_flow := fun _ _ q => q.getD 0 0
        transition := fun _ _ _ z => z.getD 0 0
        impulse_flow := fun _ _ _ => c
        StochasticControlDimension := 1
        ImpulseControlDimension := 1
        handling := HJBQVIControlMethod.EXPLICIT_CONTROL
        drop_semi_lagrangian_off_grid := true
        lboundary := fun _ => none
        rboundary := fun _ => none }
    refined_spatial_grid := [[0, 1]]
    refined_stochastic_control_grid := [[0, 1]]
    refined_impulse_control_grid := [[0, 1]]
    time := 0
    dt := 1
    interpolate := linearInterpolate }

/-- A state in which no control entry is a number and the mask is stale. -/
def exampleState : EventState :=
  { mask := [true]
    stochastic_control_vector := fun _ _ => none
    impulse_control_vector := fun _ _ => none }

/-! ### The source vector of the discretization -/

/-- The vector `b(time)` of `ControlledOperator`: one entry per row, the
controlled continuous flow at the node and its control, or zero under
semi-Lagrangian handling. -/
def ControlledOperator.b (op : ControlledOperator) (time : ℚ) : List ℚ :=
  (List.range op.refined_spatial_grid.size).map (fun row =>
    let controlled :=
      op.hjbqvi.controlled_continuous_flow time (coordinates op.refined_spatial_grid row)
        (op.q row)
    if op.hjbqvi.semi_lagrangian then 0 else controlled)

/-! ### The linear solvers of `Bindings/Eigen.hpp`

The Eigen classes `SparseLU` and `BiCGSTAB` are not part of the repository;
what the bindings use of them is a parameter.  A failed `assert` ends the
program: the call has no result. -/

/-- What the bindings use of Eigen.  `sparseLU_solve A b` is `solver.solve(b)`
after `analyzePattern(A)` and `factorize(A)`; `bicgstab_solveWithGuess A b guess`
is `solver.solveWithGuess(b, guess)` after `compute(A)`, together with
`solver.iterations()`; the `info` functions tell whether
`solver.info() == Eigen::Success` afterwards. -/
structure Eigen where
  sparseLU_info : Matrix → Bool
  sparseLU_solve : Matrix → List ℚ → List ℚ
  bicgstab_compute_info : Matrix → Bool
  bicgstab_solveWithGuess : Matrix → List ℚ → List ℚ → List ℚ × Nat
  bicgstab_solve_info : Matrix → List ℚ → List ℚ → Bool

/-- The members of a `LinearSolver`: the matrix and the iteration counts. -/
structure LinearSolver where
  A : Matrix
  its : List Nat

namespace LinearSolver

/-- The constructor `LinearSolver()`: an empty matrix, no iteration count. -/
def new : LinearSolver := { A := [], its := [] }

/-- The accessor `iterations()`. -/
def iterations (s : LinearSolver) : List Nat := s.its

end LinearSolver

/-- A call made to a linear solver: `initialize(A)` or `solve(b, guess)`. -/
inductive SolverCall where
  | init (A : Matrix)
  | solve (b guess : List ℚ)

/-- The number of `solve` calls among the calls. -/
def SolverCall.solves (calls : List SolverCall) : Nat :=
  (calls.filter (fun c => match c with
    | SolverCall.solve _ _ => true
    | SolverCall.init _ => false)).length

namespace SparseLUSolver

/-- The method `initialize(A)` of `SparseLUSolver` (the name is reserved here). -/
def init (E : Eigen) (s : LinearSolver) (A : Matrix) : Option LinearSolver :=
  if E.sparseLU_info A then some { s with A := A } else none

/-- The method `solve(b, guess)` of `SparseLUSolver`: `solver.solve(b)`. -/
def solve (E : Eigen) (s : LinearSolver) (b _guess : List ℚ) : List ℚ × LinearSolver :=
  (E.sparseLU_solve s.A b, s)

/-- A sequence of calls on a `SparseLUSolver`: the solver afterwards and the
results of the `solve` calls. -/
def run (E : Eigen) : List SolverCall → LinearSolver → Option (LinearSolver × List (List ℚ))
  | [], s => some (s, [])
  | SolverCall.init A :: rest, s =>
      match init E s A with
      | none => none
      | some s1 => run E rest s1
  | SolverCall.solve b guess :: rest, s =>
      match run E rest (solve E s b guess).2 with
      | none => none
      | some (s2, rs) => some (s2, (solve E s b guess).1 :: rs)

end SparseLUSolver

namespace BiCGSTABSolver

/-- The method `initialize(A)` of `BiCGSTABSolver` (Eigen path). -/
def init (E : Eigen) (s : LinearSolver) (A : Matrix) : Option LinearSolver :=
  if E.bicgstab_compute_info A then some { s with A := A } else none

/-- The method `solve(b, guess)` of `BiCGSTABSolver` (Eigen path):
`solver.solveWithGuess(b, guess)`, then `its.push_back(solver.iterations())`. -/
def solve (E : Eigen) (s : LinearSolver) (b guess : List ℚ) : Option (List ℚ × LinearSolver) :=
  let v := (E.bicgstab_solveWithGuess s.A b guess).1
  if E.bicgstab_solve_info s.A b guess then
    some (v, { s with its := s.its ++ [(E.bicgstab_solveWithGuess s.A b guess).2] })
  else none

/-- A sequence of calls on a `BiCGSTABSolver`: the solver afterwards and the
results of the `solve` calls. -/
def run (E : Eigen) : List SolverCall → LinearSolver → Option (LinearSolver × List (List ℚ))
  | [], s => some (s, [])
  | SolverCall.init A :: rest, s =>
      match init E s A with
      | none => none
      | some s1 => run E rest s1
  | SolverCall.solve b guess :: rest, s =>
      match solve E s b guess with
      | none => none
      | some (v, s1) =>
          match run E rest s1 with
          | none => none
          | some (s2, rs) => some (s2, v :: rs)

end BiCGSTABSolver

/-- An example Eigen: every factorization succeeds, the direct solve returns
the right-hand side, the iterative solve returns the sum of the right-hand side
and the guess after as many iterations as the guess has entries. -/
def exampleEigen : Eigen :=
  { sparseLU_info := fun _ => true
    sparseLU_solve := fun _ b => b
    bicgstab_compute_info := fun _ => true
    bicgstab_solveWithGuess := fun _ b guess => (List.zipWith (fun x y => x + y) b guess, guess.length)
    bicgstab_solve_info := fun _ _ _ => true }

/-! ### Construction of a problem

More conventions of the embedding:

* The expiry is a `WithTop ℚ`; `std::numeric_limits<Real>::infinity()` is `⊤`.
* A `throw` of the constructor is an `Except.error` with the thrown text.
* The macro `QUANT_PDE_MODULES_HJBQVI_ITERATED_OPTIMAL_STOPPING` and the
  constant `QuantPDE::tolerance` are parameters. -/

namespace HJBQVISolver

def BICGSTAB : Nat := 1
def SPARSE_LU : Nat := 1 <<< 1

end HJBQVISolver

/-- The predicate `iterated_optimal_stopping()`. -/
def HJBQVIData.iterated_optimal_stopping (h : HJBQVIData) : Bool :=
  h.handling == HJBQVIControlMethod.ITERATED_OPTIMAL_STOPPING

/-- An `HJBQVI` object with all its members: those above and the ones that the
constructor checks and `solve` reads. -/
structure HJBQVIProblem extends HJBQVI where
  timesteps : Int
  spatial_grid : RectilinearGrid
  stochastic_control_grid : RectilinearGrid
  impulse_control_grid : RectilinearGrid
  expiry : WithTop ℚ
  exit_function : WithTop ℚ → List ℚ → ℚ
  solver : Nat
  refine_stochastic_control_grid : Bool
  refine_impulse_control_grid : Bool
  time_independent_coefficients : Bool
  target_timestep_relative_error : ℚ
  scaling_factor : ℚ
  iteration_tolerance : ℚ

namespace HJBQVIProblem

/-- The predicate `bicgstab()`. -/
def bicgstab (p : HJBQVIProblem) : Bool := (p.solver &&& HJBQVISolver.BICGSTAB) != 0

/-- The predicate `sparse_lu()`. -/
def sparse_lu (p : HJBQVIProblem) : Bool := (p.solver &&& HJBQVISolver.SPARSE_LU) != 0

/-- The body of the constructor: the checks, in order, each with the text it
throws.  `ios` tells whether the macro
`QUANT_PDE_MODULES_HJBQVI_ITERATED_OPTIMAL_STOPPING` is defined. -/
def validate (ios : Bool) (p : HJBQVIProblem) : Except String Unit :=
  let finite_horizon := decide (p.expiry < ⊤)
  let variable_timesteps := decide (p.target_timestep_relative_error > 0)
  if p.expiry ≤ 0 then
    Except.error "error: expiry must be positive"
  else if !finite_horizon && !p.fully_implicit then
    Except.error "error: only an implicit method can be used for infinite-horizon problems"
  else if finite_horizon && decide (p.timesteps ≤ 0) then
    Except.error "error: number of timesteps must be positive"
  else if variable_timesteps && (!finite_horizon || !p.fully_implicit) then
    Except.error
      "error: variable timestepping can only be used on finite horizon problems with fully implicit discretizations"
  else if ios then
    if p.iterated_optimal_stopping && (variable_timesteps || !finite_horizon) then
      Except.error
        "error: iterated optimal stopping does not yet support variable timesteps or infinite horizon problems"
    else Except.ok ()
  else
    if p.iterated_optimal_stopping then
      Except.error "error: not compiled with iterated optimal stopping support"
    else Except.ok ()

end HJBQVIProblem

/-- The arguments of the constructor, with the two control dimensions of the
template. -/
structure ConstructorArguments where
  StochasticControlDimension : Nat
  ImpulseControlDimension : Nat
  timesteps : Int
  spatial_axes : List Axis
  stochastic_control_axes : List Axis
  impulse_control_axes : List Axis
  expiry : WithTop ℚ
  discount : ℚ → List ℚ → ℚ
  volatility : Nat → ℚ → List ℚ → ℚ
  controlled_drift : Nat → ℚ → List ℚ → List ℚ → ℚ
  controlled_continuous_flow : ℚ → List ℚ → List ℚ → ℚ
  transition : Nat → ℚ → List ℚ → List ℚ → ℚ
  impulse_flow : ℚ → List ℚ → List ℚ → ℚ
  exit_function : WithTop ℚ → List ℚ → ℚ

namespace HJBQVIProblem

/-- The member initializers of the constructor. -/
def initial (tolerance : ℚ) (args : ConstructorArguments) : HJBQVIProblem :=
  { timesteps := args.timesteps
    spatial_grid := args.spatial_axes
    stochastic_control_grid := args.stochastic_control_axes
    impulse_control_grid := args.impulse_control_axes
    expiry := args.expiry
    discount := args.discount
    volatility := args.volatility
    controlled_drift := args.controlled_drift
    controlled_continuous_flow := args.controlled_continuous_flow
    transition := args.transition
    impulse_flow := args.impulse_flow
    exit_function := args.exit_function
    StochasticControlDimension := args.StochasticControlDimension
    ImpulseControlDimension := args.ImpulseControlDimension
    handling := HJBQVIControlMethod.PENALTY_METHOD
    solver := HJBQVISolver.BICGSTAB
    refine_stochastic_control_grid := true
    refine_impulse_control_grid := true
    time_independent_coefficients := false
    drop_semi_lagrangian_off_grid := false
    target_timestep_relative_error := -1
    scaling_factor := 1 / 100
    iteration_tolerance := tolerance
    lboundary := fun _ => none
    rboundary := fun _ => none }

/-- The constructor `HJBQVI(...)`: the object, or the text thrown. -/
def construct (ios : Bool) (tolerance : ℚ) (args : ConstructorArguments) :
    Except String HJBQVIProblem :=
  match validate ios (initial tolerance args) with
  | Except.error e => Except.error e
  | Except.ok _ => Except.ok (initial tolerance args)

end HJBQVIProblem

/-- A call of one of the setters of an `HJBQVI` object. -/
inductive Setter where
  | left_boundary (index : Nat) (routine : boundary_routine)
  | right_boundary (index : Nat) (routine : boundary_routine)
  | usePenalizedScheme
  | useDirectControlScheme
  | useSemiLagrangianScheme
  | disableStochasticControlRefinement
  | disableImpulseControlRefinement
  | coefficientsAreTimeIndependent
  | ignoreExtrapolatoryControls
  | useBiCGSTABSolver
  | useSparseLUSolver

/-- The effect of a setter on the object. -/
def Setter.apply (s : Setter) (p : HJBQVIProblem) : HJBQVIProblem :=
  match s with
  | Setter.left_boundary index routine =>
      { p with lboundary := fun d => if d = index then some routine else p.lboundary d }
  | Setter.right_boundary index routine =>
      { p with rboundary := fun d => if d = index then some routine else p.rboundary d }
  | Setter.usePenalizedScheme => { p with handling := HJBQVIControlMethod.PENALTY_METHOD }
  | Setter.useDirectControlScheme => { p with handling := HJBQVIControlMethod.DIRECT_CONTROL }
  | Setter.useSemiLagrangianScheme => { p with handling := HJBQVIControlMethod.EXPLICIT_CONTROL }
  | Setter.disableStochasticControlRefinement => { p with refine_stochastic_control_grid := false }
  | Setter.disableImpulseControlRefinement => { p with refine_impulse_control_grid := false }
  | Setter.coefficientsAreTimeIndependent => { p with time_independent_coefficients := true }
  | Setter.ignoreExtrapolatoryControls => { p with drop_semi_lagrangian_off_grid := true }
  | Setter.useBiCGSTABSolver => { p with solver := HJBQVISolver.BICGSTAB }
  | Setter.useSparseLUSolver => { p with solver := HJBQVISolver.SPARSE_LU }

/-- The object after a sequence of setter calls. -/
def Setter.applyAll (setters : List Setter) (p : HJBQVIProblem) : HJBQVIProblem :=
  setters.foldl (fun q s => s.apply q) p

/-- The objects that exist: constructed without a throw, then changed by
setter calls. -/
inductive Reachable (ios : Bool) (tolerance : ℚ) : HJBQVIProblem → Prop where
  | construct (args : ConstructorArguments) (p : HJBQVIProblem)
      (h : HJBQVIProblem.construct ios tolerance args = Except.ok p) : Reachable ios tolerance p
  | setter (s : Setter) (p : HJBQVIProblem) (h : Reachable ios tolerance p) :
      Reachable ios tolerance (s.apply p)

/-- Example constructor arguments: one dimension of each kind, the spatial grid
`0, 1`, both control grids `0, 1`, the coefficients of `exampleEvent 0`. -/
def exampleArguments (timesteps : Int) (expiry : WithTop ℚ) : ConstructorArguments :=
  { StochasticControlDimension := 1
    ImpulseControlDimension := 1
    timesteps := timesteps
    spatial_axes := [[0, 1]]
    stochastic_control_axes := [[0, 1]]
    impulse_control_axes := [[0, 1]]
    expiry := expiry
    discount := fun _ _ => 0
    volatility := fun _ _ _ => 1
    controlled_drift := fun _ _ _ q => q.getD 0 0
    controlled_continuous_flow := fun _ _ q => q.getD 0 0
    transition := fun _ _ _ z => z.getD 0 0
    impulse_flow := fun _ _ _ => 0
    exit_function := fun _ x => x.getD 0 0 }

/-! ### The method `solve`

More conventions of the embedding:

* A `Real` computed by `solve` for the `Result` is an `ExtendedReal`: a
  rational, an infinity or not-a-number, with the IEEE rules for division and
  multiplication at zero and at the infinities (and exact results otherwise).
* An `int` has 32 bits; a signed overflow and the use of a null or
  uninitialized pointer are undefined behaviour: the call has no result.
* The build is the shipped one, without
  `QUANT_PDE_MODULES_HJBQVI_ITERATED_OPTIMAL_STOPPING`.
* The parts of the library that `solve` calls but that are not in this module
  (grid refinement, interpolation, the iteration that steps and solves) are
  the fields of a `Library`; what may differ from one call to the next (the
  clock, the content of newly allocated vectors) is a `SolveRun`. -/

/-- A computed `Real`: not-a-number, an infinity or a rational. -/
inductive ExtendedReal where
  | nan
  | negInf
  | posInf
  | finite (q : ℚ)
deriving DecidableEq

namespace ExtendedReal

/-- The expiry as a computed `Real`. -/
def ofExpiry (e : WithTop ℚ) : ExtendedReal :=
  match (e : Option ℚ) with
  | none => posInf
  | some q => finite q

/-- An `int` converted to `Real`. -/
def ofInt (z : Int) : ExtendedReal := finite (z : ℚ)

/-- Division of `Real`s; a zero divisor is the positive zero. -/
def div : ExtendedReal → ExtendedReal → ExtendedReal
  | nan, _ => nan
  | _, nan => nan
  | finite a, finite b =>
      if b = 0 then (if a = 0 then nan else if 0 < a then posInf else negInf)
      else finite (a / b)
  | finite _, posInf => finite 0
  | finite _, negInf => finite 0
  | posInf, finite b => if 0 ≤ b then posInf else negInf
  | negInf, finite b => if 0 ≤ b then negInf else posInf
  | posInf, posInf => nan
  | posInf, negInf => nan
  | negInf, posInf => nan
  | negInf, negInf => nan

/-- Multiplication of `Real`s. -/
def mul : ExtendedReal → ExtendedReal → ExtendedReal
  | nan, _ => nan
  | _, nan => nan
  | finite a, finite b => finite (a * b)
  | finite a, posInf => if a = 0 then nan else if 0 < a then posInf else negInf
  | finite a, negInf => if a = 0 then nan else if 0 < a then negInf else posInf
  | posInf, finite b => if b = 0 then nan else if 0 < b then posInf else negInf
  | negInf, finite b => if b = 0 then nan else if 0 < b then negInf else posInf
  | posInf, posInf => posInf
  | posInf, negInf => negInf
  | negInf, posInf => negInf
  | negInf, negInf => posInf

/-- The mean `std::accumulate(its.begin(), its.end(), 0.) / its.size()`. -/
def mean (its : List Nat) : ExtendedReal :=
  div (finite ((its.sum : Nat) : ℚ)) (finite ((its.length : Nat) : ℚ))

end ExtendedReal

/-- The undefined behaviours that `solve` can run into. -/
inductive Undefined where
  | signed_overflow
  | null_stepper
  | uninitialized_solver
deriving DecidableEq

instance {α : Type} [DecidableEq α] : DecidableEq (Except Undefined α) := fun x y =>
  match x, y with
  | Except.error u, Except.error v =>
      if h : u = v then isTrue (by rw [h]) else isFalse (fun h' => h (Except.error.inj h'))
  | Except.ok a, Except.ok b =>
      if h : a = b then isTrue (by rw [h]) else isFalse (fun h' => h (Except.ok.inj h'))
  | Except.error _, Except.ok _ => isFalse (fun h' => Except.noConfusion h')
  | Except.ok _, Except.error _ => isFalse (fun h' => Except.noConfusion h')

/-- The largest `int`. -/
def INT_MAX : Int := 2147483647

/-- The smallest `int`. -/
def INT_MIN : Int := -2147483648

/-- The value is an `int`. -/
def fitsInt (z : Int) : Bool := decide (INT_MIN ≤ z ∧ z ≤ INT_MAX)

/-- The loop `for(int i = 0; i < refinement; ++i) { timesteps *= 2; target /= 2; }`
run `n` times on the pair (timesteps, target). -/
def refineParameters : Nat → Int × ℚ → Except Undefined (Int × ℚ)
  | 0, s => Except.ok s
  | n + 1, s =>
      if fitsInt (s.1 * 2) then refineParameters n (s.1 * 2, s.2 / 2)
      else Except.error Undefined.signed_overflow

/-- The stepper that `solve` creates. -/
inductive Stepper where
  | ReverseVariableStepper (start : ℚ) (finish : WithTop ℚ) (dt : ExtendedReal) (target : ℚ)
  | ReverseConstantStepper (start : ℚ) (finish : WithTop ℚ) (dt : ExtendedReal)
deriving DecidableEq

/-- The linear solver that `solve` creates. -/
inductive SolverKind where
  | BiCGSTABSolver
  | SparseLUSolver
deriving DecidableEq

/-- What `solve` has set up when it starts solving: the refined grids and
parameters, the stepper (`none`: the null pointer), whether the inner iteration
of the stepper is set, which system is discretized and which node is the root,
the explicit events added to the stepper as pairs (time, dt), and the linear
solver (`none`: the pointer is uninitialized). -/
structure SolveSetup where
  finite_horizon : Bool
  variable_timesteps : Bool
  refined_spatial_grid : RectilinearGrid
  refined_stochastic_control_grid : RectilinearGrid
  refined_impulse_control_grid : RectilinearGrid
  timesteps : Int
  target : ℚ
  dt : ExtendedReal
  scaling_factor_dt : ExtendedReal
  stepper : Option Stepper
  inner_iteration : Bool
  discretize_controlled_operator : Bool
  direct : Bool
  root_is_penalty : Bool
  events : List (ExtendedReal × ExtendedReal)
  solver : Option SolverKind

/-- What the iteration that `solve` runs (`iteration->solve(...)`) reports: the
solution, the calls `doEvent(vector)` it made on explicit events, in order,
the iteration counts of the tolerance iteration and of the linear solver, and
the controls and the mask of the implicit schemes. -/
structure Iterated where
  solution_vector : List ℚ
  applications : List (ExplicitEvent × List ℚ)
  tolerance_iterations : List Nat
  solver_iterations : List Nat
  controlled_operator_control : ControlVectors
  impulse_control : ControlVectors
  constraintMask : List Bool

/-- The parts of the library that `solve` uses and that are not in this
module. -/
structure Library where
  refined : RectilinearGrid → Int → RectilinearGrid
  interpolate : RectilinearGrid → List ℚ → List ℚ → ℚ
  iterate : HJBQVIProblem → SolveSetup → Iterated

/-- What can differ between two calls of `solve`: the two readings of the
clock and the content of the control vectors as allocated (they are not
initialized). -/
structure SolveRun where
  start : ℚ
  finish : ℚ
  stochastic_control_vector : ControlVectors
  impulse_control_vector : ControlVectors

/-- The structure `Result`.  Entry `d` of a control vector field is the vector
of control dimension `d`, with one entry per node of the refined spatial
grid. -/
structure Result where
  spatial_grid : RectilinearGrid
  stochastic_control_grid : RectilinearGrid
  impulse_control_grid : RectilinearGrid
  solution_vector : List ℚ
  stochastic_control_vector : List (List (Option ℚ))
  impulse_control_vector : List (List (Option ℚ))
  timesteps : Int
  scaling_factor : ExtendedReal
  iteration_tolerance : ExtendedReal
  mean_inner_iterations : ExtendedReal
  mean_solver_iterations : ExtendedReal
  execution_time_seconds : ℚ
deriving DecidableEq

/-- The vectors of `dim` control dimensions on `size` nodes. -/
def ControlVectors.toVectors (cv : ControlVectors) (dim size : Nat) : List (List (Option ℚ)) :=
  (List.range dim).map (fun d => (List.range size).map (fun i => cv d i))

namespace HJBQVIProblem

/-- The explicit event `ExplicitEvent(*this, refined grids, ..., time, dt, mask)`
that `solve` builds. -/
def explicitEvent (p : HJBQVIProblem) (lib : Library) (setup : SolveSetup) (time dt : ℚ) :
    ExplicitEvent :=
  { hjbqvi := p.toHJBQVI
    refined_spatial_grid := setup.refined_spatial_grid
    refined_stochastic_control_grid := setup.refined_stochastic_control_grid
    refined_impulse_control_grid := setup.refined_impulse_control_grid
    time := time
    dt := dt
    interpolate := lib.interpolate }

/-- The explicit events that `solve` adds to the stepper, as pairs (time, dt):
none under fully implicit handling, otherwise one at `e * dt` for every
`0 ≤ e < timesteps`; adding one to a null stepper is undefined. -/
def addEvents (p : HJBQVIProblem) (timesteps : Int) (dt : ExtendedReal)
    (stepper : Option Stepper) : Except Undefined (List (ExtendedReal × ExtendedReal)) :=
  if !p.fully_implicit then
    if timesteps ≤ 0 then Except.ok []
    else
      match stepper with
      | none => Except.error Undefined.null_stepper
      | some _ =>
          Except.ok ((List.range timesteps.toNat).map (fun (e : Nat) =>
            (ExtendedReal.mul (ExtendedReal.ofInt (e : Int)) dt, dt)))
  else Except.ok []

/-- The part of `solve` before the solution is computed. -/
def solveSetup (p : HJBQVIProblem) (lib : Library) (refinement : Int) :
    Except Undefined SolveSetup :=
  let finite_horizon := decide (p.expiry < ⊤)
  let variable_timesteps := decide (p.target_timestep_relative_error > 0)
  match refineParameters refinement.toNat (p.timesteps, p.target_timestep_relative_error) with
  | Except.error u => Except.error u
  | Except.ok (timesteps, target) =>
      let dt := ExtendedReal.div (ExtendedReal.ofExpiry p.expiry) (ExtendedReal.ofInt timesteps)
      let scaling_factor_dt := ExtendedReal.mul (ExtendedReal.finite p.scaling_factor) dt
      let stepper : Option Stepper :=
        if finite_horizon then
          if variable_timesteps then
            some (Stepper.ReverseVariableStepper 0 p.expiry
              (ExtendedReal.div (ExtendedReal.ofExpiry p.expiry) (ExtendedReal.ofInt timesteps))
              target)
          else
            some (Stepper.ReverseConstantStepper 0 p.expiry
              (ExtendedReal.div (ExtendedReal.ofExpiry p.expiry) (ExtendedReal.ofInt timesteps)))
        else none
      match p.addEvents timesteps dt stepper with
      | Except.error u => Except.error u
      | Except.ok events =>
          Except.ok
            { finite_horizon := finite_horizon
              variable_timesteps := variable_timesteps
              refined_spatial_grid := lib.refined p.spatial_grid refinement
              refined_stochastic_control_grid :=
                lib.refined p.stochastic_control_grid
                  (if p.refine_stochastic_control_grid then refinement else 0)
              refined_impulse_control_grid :=
                lib.refined p.impulse_control_grid
                  (if p.refine_impulse_control_grid then refinement else 0)
              timesteps := timesteps
              target := target
              dt := dt
              scaling_factor_dt := scaling_factor_dt
              stepper := stepper
              inner_iteration := finite_horizon && !p.explicit_control
              discretize_controlled_operator := p.semi_lagrangian
              direct := p.iterated_optimal_stopping || p.direct_control
              root_is_penalty := !p.explicit_impulse
              events := events
              solver :=
                if p.bicgstab then some SolverKind.BiCGSTABSolver
                else if p.sparse_lu then some SolverKind.SparseLUSolver
                else none }

/-- The control vectors and the mask after the iteration: the events applied,
in order, to the vectors as allocated and the empty mask. -/
def eventState (run : SolveRun) (applications : List (ExplicitEvent × List ℚ)) : EventState :=
  applications.foldl (fun st a => (a.1._doEvent a.2 st).2)
    { mask := []
      stochastic_control_vector := run.stochastic_control_vector
      impulse_control_vector := run.impulse_control_vector }

/-- The end of `solve`, from the timing on: the `Result` assembled from the
set-up, what the iteration reported and the run. -/
def result (p : HJBQVIProblem) (setup : SolveSetup) (it : Iterated) (run : SolveRun) : Result :=
  let seconds := run.finish - run.start
  let cv :=
    resultControls p.toHJBQVIData setup.refined_spatial_grid.size
      (eventState run it.applications) it.controlled_operator_control it.impulse_control
      it.constraintMask
  let mean_inner_iterations :=
    if !p.explicit_control then ExtendedReal.mean it.tolerance_iterations
    else ExtendedReal.nan
  let mean_solver_iterations := ExtendedReal.mean it.solver_iterations
  let scaling_factor_dt :=
    if p.explicit_control then ExtendedReal.nan else setup.scaling_factor_dt
  let iteration_tolerance :=
    if p.explicit_control then ExtendedReal.nan
    else ExtendedReal.finite p.iteration_tolerance
  { spatial_grid := setup.refined_spatial_grid
    stochastic_control_grid := setup.refined_stochastic_control_grid
    impulse_control_grid := setup.refined_impulse_control_grid
    solution_vector := it.solution_vector
    stochastic_control_vector :=
      cv.1.toVectors p.StochasticControlDimension setup.refined_spatial_grid.size
    impulse_control_vector :=
      cv.2.toVectors p.ImpulseControlDimension setup.refined_spatial_grid.size
    timesteps := if setup.finite_horizon then setup.timesteps else 0
    scaling_factor := scaling_factor_dt
    iteration_tolerance := iteration_tolerance
    mean_inner_iterations := mean_inner_iterations
    mean_solver_iterations := mean_solver_iterations
    execution_time_seconds := seconds }

/-- The method `solve(refinement)`: the set-up, the iteration (which uses the
linear solver), the `Result`. -/
def solve (p : HJBQVIProblem) (lib : Library) (refinement : Int) (run : SolveRun) :
    Except Undefined Result :=
  match p.solveSetup lib refinement with
  | Except.error u => Except.error u
  | Except.ok setup =>
      match setup.solver with
      | none => Except.error Undefined.uninitialized_solver
      | some _ => Except.ok (p.result setup (lib.iterate p setup) run)

end HJBQVIProblem

/-! ### An example library -/

/-- A new tick between each pair of ticks of an axis. -/
def refineAxis : Axis → Axis
  | [] => []
  | [x] => [x]
  | x :: y :: rest => x :: (x + y) / 2 :: refineAxis (y :: rest)

/-- An example of grid refinement: a new tick between each pair, once per
level. -/
def exampleRefined (g : RectilinearGrid) (refinement : Int) : RectilinearGrid :=
  g.map (fun x => (refineAxis^[refinement.toNat]) x)

/-- An example of an explicit time stepping, for the example library: from the
payoff at expiry, the events are applied from the latest to the earliest, each
to the vector returned by the one before (`-infinity` read as zero); nothing
is solved in between.  It reports the calls made and the last vector. -/
def exampleStepping (p : HJBQVIProblem) (interpolate : RectilinearGrid → List ℚ → List ℚ → ℚ)
    (setup : SolveSetup) : List (ExplicitEvent × List ℚ) × List ℚ :=
  setup.events.reverse.foldl
    (fun acc td =>
      match td with
      | (ExtendedReal.finite time, ExtendedReal.finite dt) =>
          let ev : ExplicitEvent :=
            { hjbqvi := p.toHJBQVI
              refined_spatial_grid := setup.refined_spatial_grid
              refined_stochastic_control_grid := setup.refined_stochastic_control_grid
              refined_impulse_control_grid := setup.refined_impulse_control_grid
              time := time
              dt := dt
              interpolate := interpolate }
          let best :=
            (ev._doEvent acc.2
              { mask := [], stochastic_control_vector := fun _ _ => none,
                impulse_control_vector := fun _ _ => none }).1
          (acc.1 ++ [(ev, acc.2)], best.map (fun v => v.unbot' 0))
      | _ => acc)
    ([], (List.range setup.refined_spatial_grid.size).map
      (fun row => p.exit_function p.expiry (coordinates setup.refined_spatial_grid row)))

/-- An example library: the refinement above, linear interpolation, the
explicit stepping above; the implicit schemes report the control 0 everywhere
and the mask false everywhere, one inner and three solver iterations per
step. -/
def exampleLibrary : Library :=
  { refined := exampleRefined
    interpolate := linearInterpolate
    iterate := fun p setup =>
      { solution_vector := (exampleStepping p linearInterpolate setup).2
        applications := (exampleStepping p linearInterpolate setup).1
        tolerance_iterations := List.replicate setup.timesteps.toNat 1
        solver_iterations := List.replicate setup.timesteps.toNat 3
        controlled_operator_control := fun _ _ => some 0
        impulse_control := fun _ _ => some 0
        constraintMask := List.replicate setup.refined_spatial_grid.size false } }

/-- An example run: the clock reads 10 and 12, the allocated vectors hold `c`
everywhere. -/
def exampleRun (c : Option ℚ) : SolveRun :=
  { start := 10
    finish := 12
    stochastic_control_vector := fun _ _ => c
    impulse_control_vector := fun _ _ => c }

/-! ### Iterated optimal stopping

The loop of `solve` that is compiled under
`QUANT_PDE_MODULES_HJBQVI_ITERATED_OPTIMAL_STOPPING`.  The linear system of a
timestep and its solution are not part of this module: `solveStep` is the
vector `solver->solve(tmp->b(t_implicit), *previous)` of timestep `n` in the
outer iteration number `k` (the first has number 0, and uses the
discretization instead of the root), given the previous iterand and the slice
`u_this[n-1]` pushed to the history of the stepper. -/

/-- What the loop uses: the refined number of timesteps, the tolerance, the
payoff on the refined grid, the solution of a timestep and `relativeError`. -/
structure IteratedOptimalStopping where
  timesteps : Nat
  iteration_tolerance : ℚ
  payoff : List ℚ
  solveStep : Nat → Nat → List ℚ → List ℚ → List ℚ
  relativeError : List ℚ → List ℚ → ℚ

/-- The variables of the loop: the two arrays of slices, `first`, and the count
`tolerance_iteration.its.back()`. -/
structure IOSState where
  u_this : Nat → List ℚ
  u_last : Nat → List ℚ
  first : Bool
  its : Nat

namespace IteratedOptimalStopping

/-- The variables before the loop: two arrays of empty vectors, `first = true`
and the count 0. -/
def initial : IOSState :=
  { u_this := fun _ => [], u_last := fun _ => [], first := true, its := 0 }

/-- One pass of the timestep loop: the array `u_this` and `converged` after
timestep `n`. -/
def timestep (S : IteratedOptimalStopping) (k : Nat) (first : Bool) (u_last : Nat → List ℚ)
    (acc : (Nat → List ℚ) × Bool) (n : Nat) : (Nat → List ℚ) × Bool :=
  let previous := if first then acc.1 (n - 1) else u_last n
  let u_n := S.solveStep k n previous (acc.1 (n - 1))
  let u_this := Function.update acc.1 n u_n
  let converged :=
    if !first && acc.2 then
      (if S.relativeError u_n (u_last n) > S.iteration_tolerance then false else acc.2)
    else acc.2
  (u_this, converged)

/-- The timestep loop up to timestep `m`, from the payoff in slice 0 and
`converged = true`. -/
def timestepLoop (S : IteratedOptimalStopping) (st : IOSState) (m : Nat) :
    (Nat → List ℚ) × Bool :=
  ((List.range m).map (fun i => i + 1)).foldl (S.timestep st.its st.first st.u_last)
    (Function.update st.u_this 0 S.payoff, true)

/-- One outer iteration (the body of the `do ... while`): the value of
`converged` that the loop condition tests, and the variables afterwards, the
two arrays swapped. -/
def sweep (S : IteratedOptimalStopping) (st : IOSState) : Bool × IOSState :=
  let r := S.timestepLoop st S.timesteps
  let converged := if st.first then false else r.2
  (converged, { u_this := st.u_last, u_last := r.1, first := false, its := st.its + 1 })

/-- The loop `do ... while(!converged)`, for at most `fuel` outer iterations:
the variables when it ends, `none` if it has not ended by then. -/
def loop (S : IteratedOptimalStopping) : Nat → IOSState → Option IOSState
  | 0, _ => none
  | fuel + 1, st => if (S.sweep st).1 then some (S.sweep st).2 else loop S fuel (S.sweep st).2

/-- The variables after `j` outer iterations. -/
def after (S : IteratedOptimalStopping) (st : IOSState) : Nat → IOSState
  | 0 => st
  | j + 1 => (S.sweep (after S st j)).2

end IteratedOptimalStopping

/-- An example: two timesteps on one node; the payoff is 1, a timestep halves
the previous iterand and adds the slice before; the relative error is the
distance of the entries. -/
def exampleStopping (tolerance : ℚ) : IteratedOptimalStopping :=
  { timesteps := 2
    iteration_tolerance := tolerance
    payoff := [1]
    solveStep := fun _ _ previous explicit => [previous.getD 0 0 / 2 + explicit.getD 0 0]
    relativeError := fun a b => |a.getD 0 0 - b.getD 0 0| }

/-- A `Result` with the execution time put to zero: what is left to compare
between two calls of `solve`. -/
def Result.withoutTime (r : Result) : Result :=
  { r with execution_time_seconds := 0 }

/-- Another example run: the clock reads 3 and 100, the allocated vectors hold
the row number in the stochastic and 99 in the impulse control vectors. -/
def exampleRun2 : SolveRun :=
  { start := 3
    finish := 100
    stochastic_control_vector := fun _ i => some (i : ℚ)
    impulse_control_vector := fun _ _ => some 99 }

/-- The example operator on the grid with ticks `0, 1, 2, 4` under explicit
(semi-Lagrangian) handling, without boundary routines. -/
def exampleOperatorSL (mu : ℚ) : ControlledOperator :=
  { hjbqvi := exampleProblem mu HJBQVIControlMethod.EXPLICIT_CONTROL none
    refined_spatial_grid := [[0, 1, 2, 4]]
    control := fun _ _ => 0 }

/-- The operator with another controlled drift and another control, all else
the same. -/
def ControlledOperator.withDrift (op : ControlledOperator)
    (controlled_drift : Nat → ℚ → List ℚ → List ℚ → ℚ) (control : Nat → Nat → ℚ) :
    ControlledOperator :=
  { hjbqvi := { op.hjbqvi with controlled_drift := controlled_drift }
    refined_spatial_grid := op.refined_spatial_grid
    control := control }

/-- The example library with a `SparseLUSolver`: the counts that the iteration
reports are those of the solver after an `initialize` and a `solve`. -/
def exampleLibraryLU : Library :=
  { refined := exampleLibrary.refined
    interpolate := exampleLibrary.interpolate
    iterate := fun p setup =>
      { solution_vector := (exampleLibrary.iterate p setup).solution_vector
        applications := (exampleLibrary.iterate p setup).applications
        tolerance_iterations := (exampleLibrary.iterate p setup).tolerance_iterations
        solver_iterations :=
          match SparseLUSolver.run exampleEigen
              [SolverCall.init [], SolverCall.solve [1] [0]] LinearSolver.new with
          | some (s, _) => s.iterations
          | none => []
        controlled_operator_control := (exampleLibrary.iterate p setup).controlled_operator_control
        impulse_control := (exampleLibrary.iterate p setup).impulse_control
        constraintMask := (exampleLibrary.iterate p setup).constraintMask } }

/-! ### Integer powers as constant expressions

`src/QuantPDE/src/Core/Metafunctions.hpp`.  A `std::intmax_t` has 64 bits.  A
signed overflow in the initializer of a `constexpr` member is not a constant
expression: the member has no value (`none`). -/

/-- The largest `std::intmax_t`. -/
def INTMAX_MAX : Int := 9223372036854775807

/-- The smallest `std::intmax_t`. -/
def INTMAX_MIN : Int := -9223372036854775808

/-- The value is a `std::intmax_t`. -/
def fitsIntmax (z : Int) : Bool := decide (INTMAX_MIN ≤ z ∧ z ≤ INTMAX_MAX)

/-- The member `IntegerPower<Base, Exponent>::value`: 1 for the exponent 0;
otherwise, with `temporary` the value of `IntegerPower<Base, Exponent/2>`,
`temporary * temporary * (Exponent % 2 == 1 ? Base : 1)`, the products taken
from left to right.  The division and the remainder are those of C++ (rounding
toward zero). -/
def IntegerPower.value (Base Exponent : Int) : Option Int :=
  if Exponent = 0 then some 1
  else
    match IntegerPower.value Base (Exponent.tdiv 2) with
    | none => none
    | some temporary =>
        if fitsIntmax (temporary * temporary)
            && fitsIntmax (temporary * temporary * (if Exponent.tmod 2 = 1 then Base else 1))
        then some (temporary * temporary * (if Exponent.tmod 2 = 1 then Base else 1))
        else none
termination_by Exponent.natAbs
decreasing_by
  rename_i h
  have h1 : (Exponent.tdiv 2).natAbs = Exponent.natAbs / 2 := by
    rw [Int.natAbs_tdiv]
    rfl
  rw [h1]
  have : 0 < Exponent.natAbs := Int.natAbs_pos.mpr h
  omega

/-! ### The Black-Scholes operators

`src/QuantPDE/src/Modules/Operators/BlackScholes.hpp`.  An `Index` is an `int`
(the boundary routines of the HJBQVI module receive `int` arrays as `Index`
arrays). -/

namespace BlackScholesJumpDiffusion

/-- The loop `while(N < n) { N *= 2; }` of `initializeGrid`, for at most `fuel`
passes: the final `N`, or the overflow of the `int`; `none` if the loop has
not ended after `fuel` passes. -/
def doubling (n : Int) : Nat → Int → Option (Except Undefined Int)
  | 0, N => if N < n then none else some (Except.ok N)
  | fuel + 1, N =>
      if N < n then
        if fitsInt (N * 2) then doubling n fuel (N * 2)
        else some (Except.error Undefined.signed_overflow)
      else some (Except.ok N)

/-- The number `N` of points in the frequency domain that `initializeGrid`
sets for `n` spatial nodes: `N = 2`, then the loop. -/
def frequencyPoints (n : Int) (fuel : Nat) : Option (Except Undefined Int) :=
  doubling n fuel 2

end BlackScholesJumpDiffusion

/-- The operator `BlackScholes<Dimension, SIndex>`: the grid, the index of the
axis of the risky asset, the coefficient functions (interest, volatility,
dividends, mean arrival time) of the time and the node, and `kappa t`, the
member `kappa` after `(this->*_computeKappa)(t)`. -/
structure BlackScholes where
  G : RectilinearGrid
  SIndex : Nat
  r : ℚ → List ℚ → ℚ
  v : ℚ → List ℚ → ℚ
  q : ℚ → List ℚ → ℚ
  l : ℚ → List ℚ → ℚ
  kappa : ℚ → ℚ

namespace BlackScholes

/-- The diffusion term `alpha_common = v_i * v_i * S[i] * S[i] / dSb / dSc`. -/
def alpha_common (v_i S_i dSb dSc : ℚ) : ℚ := v_i * v_i * S_i * S_i / dSb / dSc

/-- The diffusion term `beta_common = v_i * v_i * S[i] * S[i] / dSf / dSc`. -/
def beta_common (v_i S_i dSf dSc : ℚ) : ℚ := v_i * v_i * S_i * S_i / dSf / dSc

/-- The pair `(alpha_i, beta_i)` of an interior node in `BlackScholes::A`: the
central pair, replaced by the forward pair if `alpha_i < 0`, else by the
backward pair if `beta_i < 0`. -/
def stencil (r_i v_i q_i l_i kappa S_i dSb dSc dSf : ℚ) : ℚ × ℚ :=
  let alpha_i := alpha_common v_i S_i dSb dSc - (r_i - q_i - l_i * kappa) * S_i / dSc
  let beta_i := beta_common v_i S_i dSf dSc + (r_i - q_i - l_i * kappa) * S_i / dSc
  if alpha_i < 0 then
    (alpha_common v_i S_i dSb dSc,
      beta_common v_i S_i dSf dSc + (r_i - q_i - l_i * kappa) * S_i / dSf)
  else if beta_i < 0 then
    (alpha_common v_i S_i dSb dSc - (r_i - q_i - l_i * kappa) * S_i / dSb,
      beta_common v_i S_i dSf dSc)
  else
    (alpha_i, beta_i)

/-- The space between the ticks of the asset: `offset = 1`, then
`offset *= G[d].size()` for every `d < SIndex`. -/
def offset (bs : BlackScholes) : Nat := offsets bs.G bs.SIndex

/-- The index of the tick of the asset at a node:
`i = (idx / offset) % G[SIndex].size()`. -/
def assetIndex (bs : BlackScholes) (idx : Nat) : Nat :=
  (idx / bs.offset) % (bs.G.axis bs.SIndex).length

/-- The pair `(alpha_i, beta_i)` that `A` computes at an interior node, the
coefficient vectors being the images of the coefficient functions on the
grid. -/
def coefficients (bs : BlackScholes) (t : ℚ) (idx : Nat) : ℚ × ℚ :=
  let S := bs.G.axis bs.SIndex
  let i := bs.assetIndex idx
  let x := coordinates bs.G idx
  stencil (bs.r t x) (bs.v t x) (bs.q t x) (bs.l t x) (bs.kappa t) (S.tick i)
    (S.tick i - S.tick (i - 1)) (S.tick (i + 1) - S.tick (i - 1)) (S.tick (i + 1) - S.tick i)

/-- The entries that `A` inserts for the node `idx`, in insertion order. -/
def A_row (bs : BlackScholes) (t : ℚ) (idx : Nat) : Matrix :=
  let n := (bs.G.axis bs.SIndex).length
  let i := bs.assetIndex idx
  let x := coordinates bs.G idx
  if i = 0 then
    -- Left boundary
    [⟨(idx : Int), (idx : Int), bs.r t x⟩]
  else if i = n - 1 then
    -- Right boundary
    [⟨(idx : Int), (idx : Int), bs.q t x⟩]
  else
    -- Interior point
    let ab := bs.coefficients t idx
    [⟨(idx : Int), (idx : Int) - (bs.offset : Int), -ab.1⟩,
     ⟨(idx : Int), (idx : Int), ab.1 + ab.2 + bs.r t x + bs.l t x⟩,
     ⟨(idx : Int), (idx : Int) + (bs.offset : Int), -ab.2⟩]

/-- The matrix `A(t)`: the nodes in order. -/
def A (bs : BlackScholes) (t : ℚ) : Matrix :=
  (List.range bs.G.size).flatMap (bs.A_row t)

/-- The entries stored in a row of a matrix. -/
def rowEntries (m : Matrix) (idx : Nat) : Matrix :=
  m.filter (fun e => decide (e.row = (idx : Int)))

end BlackScholes

/-- An example Black-Scholes operator on one axis: interest `4/100`, volatility
`2/10`, no dividends, no jumps. -/
def exampleBlackScholes (S : Axis) : BlackScholes :=
  { G := [S]
    SIndex := 0
    r := fun _ _ => 4 / 100
    v := fun _ _ => 2 / 10
    q := fun _ _ => 0
    l := fun _ _ => 0
    kappa := fun _ => 0 }

/-- The controlled operator of the HJBQVI module for the same equation, on the
same grid: the volatility `v * S`, the drift `(r - q - l * kappa) * S` and the
discount `r + l`, `S` being the coordinate of the asset; under the penalty
method, without controls and without boundary routines. -/
def BlackScholes.asControlledOperator (bs : BlackScholes) : ControlledOperator :=
  { hjbqvi :=
      { discount := fun t x => bs.r t x + bs.l t x
        volatility := fun _ t x => bs.v t x * x.getD bs.SIndex 0
        controlled_drift := fun _ t x _ =>
          (bs.r t x - bs.q t x - bs.l t x * bs.kappa t) * x.getD bs.SIndex 0
        controlled_continuous_flow := fun _ _ _ => 0
        transition := fun d _ x _ => x.getD d 0
        impulse_flow := fun _ _ _ => 0
        StochasticControlDimension := 0
        ImpulseControlDimension := 0
        handling := HJBQVIControlMethod.PENALTY_METHOD
        drop_semi_lagrangian_off_grid := false
        lboundary := fun _ => none
        rboundary := fun _ => none }
    refined_spatial_grid := bs.G
    control := fun _ _ => 0 }

/-! ### The convergence study `HJBQVI_main`

The output stream is the list of the rows printed; the headers and the number
format are left out.  The loop `while(1)` is run for at most `fuel` passes.
Every call of `solve` has its own run. -/

/-- Subtraction of `Real`s. -/
def ExtendedReal.sub : ExtendedReal → ExtendedReal → ExtendedReal
  | ExtendedReal.nan, _ => ExtendedReal.nan
  | _, ExtendedReal.nan => ExtendedReal.nan
  | ExtendedReal.finite a, ExtendedReal.finite b => ExtendedReal.finite (a - b)
  | ExtendedReal.finite _, ExtendedReal.posInf => ExtendedReal.negInf
  | ExtendedReal.finite _, ExtendedReal.negInf => ExtendedReal.posInf
  | ExtendedReal.posInf, ExtendedReal.finite _ => ExtendedReal.posInf
  | ExtendedReal.negInf, ExtendedReal.finite _ => ExtendedReal.negInf
  | ExtendedReal.posInf, ExtendedReal.posInf => ExtendedReal.nan
  | ExtendedReal.posInf, ExtendedReal.negInf => ExtendedReal.posInf
  | ExtendedReal.negInf, ExtendedReal.posInf => ExtendedReal.negInf
  | ExtendedReal.negInf, ExtendedReal.negInf => ExtendedReal.nan

/-- A row of the table of the refinement levels. -/
structure TableRow where
  spatial_nodes : Nat
  stochastic_control_nodes : Nat
  impulse_control_nodes : Nat
  timesteps : Int
  scaling_factor : ExtendedReal
  iteration_tolerance : ExtendedReal
  mean_inner_iterations : ExtendedReal
  mean_solver_iterations : ExtendedReal
  value : ExtendedReal
  change : ExtendedReal
  ratio : ExtendedReal
  execution_time_seconds : ℚ
deriving DecidableEq

/-- A row of the table of the nodes, printed when `verbose` is set: the
coordinates, the solution and the controls of a node. -/
structure NodeRow where
  node : List ℚ
  solution : ℚ
  stochastic_control : List (Option ℚ)
  impulse_control : List (Option ℚ)
deriving DecidableEq

/-- The variables of the loop of `HJBQVI_main`, with the rows printed so far
and the refinement levels at which `solve` was called so far. -/
structure MainState where
  refinement : Int
  previousValue : ExtendedReal
  previousChange : ExtendedReal
  rows : List TableRow
  calls : List Int

/-- What `HJBQVI_main` leaves when it returns: the result returned, the rows
printed, the table of the nodes, and the levels at which `solve` was called. -/
structure MainReturn where
  result : Result
  rows : List TableRow
  nodes : List NodeRow
  calls : List Int

namespace HJBQVI_main

/-- The row printed for a result: the value of the solution at the test point,
`change = value - previousValue` and `ratio = previousChange / change`. -/
def row (lib : Library) (test_point : List ℚ) (result : Result)
    (previousValue previousChange : ExtendedReal) : TableRow :=
  let value :=
    ExtendedReal.finite (lib.interpolate result.spatial_grid result.solution_vector test_point)
  let change := ExtendedReal.sub value previousValue
  let ratio := ExtendedReal.div previousChange change
  { spatial_nodes := result.spatial_grid.size
    stochastic_control_nodes := result.stochastic_control_grid.size
    impulse_control_nodes := result.impulse_control_grid.size
    timesteps := result.timesteps
    scaling_factor := result.scaling_factor
    iteration_tolerance := result.iteration_tolerance
    mean_inner_iterations := result.mean_inner_iterations
    mean_solver_iterations := result.mean_solver_iterations
    value := value
    change := change
    ratio := ratio
    execution_time_seconds := result.execution_time_seconds }

/-- The table of the nodes of a result. -/
def nodeRows (result : Result) : List NodeRow :=
  (List.range result.spatial_grid.size).map (fun k =>
    { node := coordinates result.spatial_grid k
      solution := result.solution_vector.getD k 0
      stochastic_control := result.stochastic_control_vector.map (fun v => v.getD k none)
      impulse_control := result.impulse_control_vector.map (fun v => v.getD k none) })

/-- The loop `while(1)` of `HJBQVI_main`: a pass calls `solve(refinement)`,
prints the row, and tests `refinement++ == max_refinement`; the increment of an
`int` that is `INT_MAX` is undefined.  `none`: the loop has not ended after
`fuel` passes. -/
def loop (p : HJBQVIProblem) (lib : Library) (test_point : List ℚ) (max_refinement : Int)
    (verbose : Bool) (runs : Nat → SolveRun) :
    Nat → MainState → Option (Except Undefined MainReturn)
  | 0, _ => none
  | fuel + 1, st =>
      match p.solve lib st.refinement (runs st.calls.length) with
      | Except.error u => some (Except.error u)
      | Except.ok result =>
          let printed := row lib test_point result st.previousValue st.previousChange
          if st.refinement = INT_MAX then some (Except.error Undefined.signed_overflow)
          else if st.refinement = max_refinement then
            some (Except.ok
              { result := result
                rows := st.rows ++ [printed]
                nodes := if verbose then nodeRows result else []
                calls := st.calls ++ [st.refinement] })
          else
            loop p lib test_point max_refinement verbose runs fuel
              { refinement := st.refinement + 1
                previousValue := printed.value
                previousChange := printed.change
                rows := st.rows ++ [printed]
                calls := st.calls ++ [st.refinement] }

/-- The function `HJBQVI_main(hjbqvi, test_point, max_refinement,
min_refinement, out, verbose)`: the loop from `refinement = min_refinement`
and the two previous values not-a-number. -/
def run (p : HJBQVIProblem) (lib : Library) (test_point : List ℚ)
    (max_refinement min_refinement : Int) (verbose : Bool) (runs : Nat → SolveRun)
    (fuel : Nat) : Option (Except Undefined MainReturn) :=
  loop p lib test_point max_refinement verbose runs fuel
    { refinement := min_refinement
      previousValue := ExtendedReal.nan
      previousChange := ExtendedReal.nan
      rows := []
      calls := [] }

/-- The rows of the table for the results of consecutive levels: each row is
the row of its result, the value and the change of the row before being the
previous ones. -/
def table (lib : Library) (test_point : List ℚ) :
    ExtendedReal → ExtendedReal → List Result → List TableRow
  | _, _, [] => []
  | previousValue, previousChange, result :: rest =>
      row lib test_point result previousValue previousChange
        :: table lib test_point (row lib test_point result previousValue previousChange).value
            (row lib test_point result previousValue previousChange).change rest

end HJBQVI_main

/-! # Theorems -/


/-! ## The stencil of the discretization -/

theorem alpha_common_nonneg (v dxb dxc : ℚ) (hb : 0 < dxb) (hc : 0 < dxc) :
    0 ≤ ControlledOperator.alpha_common v dxb dxc := by
  unfold ControlledOperator.alpha_common
  have : 0 ≤ v * v := mul_self_nonneg v
  positivity

theorem beta_common_nonneg (v dxf dxc : ℚ) (hf : 0 < dxf) (hc : 0 < dxc) :
    0 ≤ ControlledOperator.beta_common v dxf dxc := by
  unfold ControlledOperator.beta_common
  have : 0 ≤ v * v := mul_self_nonneg v
  positivity

/-- Both coefficients of the stencil are non-negative on positive spacings. -/
theorem stencil_nonneg (v mu dxb dxc dxf : ℚ) (hb : 0 < dxb) (hc : 0 < dxc) (hf : 0 < dxf) :
    0 ≤ (ControlledOperator.stencil v mu dxb dxc dxf).1
      ∧ 0 ≤ (ControlledOperator.stencil v mu dxb dxc dxf).2 := by
  have ha := alpha_common_nonneg v dxb dxc hb hc
  have hbt := beta_common_nonneg v dxf dxc hf hc
  unfold ControlledOperator.stencil
  simp only
  split_ifs with h1 h2
  · -- forward: the central alpha is negative, so the drift is positive
    have hmu : 0 < mu / dxc := by linarith
    have hmu0 : 0 < mu := by
      by_contra hneg
      have : mu / dxc ≤ 0 := div_nonpos_of_nonpos_of_nonneg (not_lt.mp hneg) hc.le
      linarith
    have : 0 ≤ mu / dxf := (div_pos hmu0 hf).le
    exact ⟨ha, by linarith⟩
  · -- backward: the central beta is negative, so the drift is negative
    have hmu : mu / dxc < 0 := by linarith
    have hmu0 : mu < 0 := by
      by_contra hneg
      have : 0 ≤ mu / dxc := div_nonneg (not_lt.mp hneg) hc.le
      linarith
    have : mu / dxb ≤ 0 := div_nonpos_of_nonpos_of_nonneg hmu0.le hb.le
    exact ⟨by linarith, hbt⟩
  · exact ⟨not_lt.mp h1, not_lt.mp h2⟩

/-- C1: for every volatility, every drift and all positive spacings `dxb`,
`dxf` with `dxc = dxb + dxf`, the coefficients after the upwind repair satisfy
`alpha ≥ 0` and `beta ≥ 0`. -/
theorem C1_stencil_monotone (v mu dxb dxc dxf : ℚ) (hb : 0 < dxb) (hf : 0 < dxf)
    (hc : dxc = dxb + dxf) :
    0 ≤ (ControlledOperator.stencil v mu dxb dxc dxf).1
      ∧ 0 ≤ (ControlledOperator.stencil v mu dxb dxc dxf).2 :=
  stencil_nonneg v mu dxb dxc dxf hb (by rw [hc]; linarith) hf

/-- Instance of C1 with a drift large enough to force the forward pair. -/
theorem C1_stencil_monotone_witness :
    (0:ℚ) < 1 ∧ (0:ℚ) < 2 ∧ (3:ℚ) = 1 + 2
      ∧ 0 ≤ (ControlledOperator.stencil 1 5 1 3 2).1
      ∧ 0 ≤ (ControlledOperator.stencil 1 5 1 3 2).2 :=
  ⟨by norm_num, by norm_num, by norm_num,
    C1_stencil_monotone 1 5 1 3 2 (by norm_num) (by norm_num) (by norm_num)⟩

theorem tick_lt_tick (x : Axis) (hx : x.StrictlyIncreasing) (j k : Nat) (hjk : j < k)
    (hk : k < x.length) : x.tick j < x.tick k := by
  unfold Axis.tick
  rw [List.getD_eq_getElem x 0 hk, List.getD_eq_getElem x 0 (lt_trans hjk hk)]
  exact (List.pairwise_iff_getElem.mp hx) j k (lt_trans hjk hk) hk hjk

theorem axis_mem (g : RectilinearGrid) (d : Nat) (hd : d < g.length) : g.axis d ∈ g := by
  unfold RectilinearGrid.axis
  rw [List.getD_eq_getElem g [] hd]
  exact List.getElem_mem hd

theorem axis_length_pos (g : RectilinearGrid) (hg : 0 < g.size) (d : Nat) (hd : d < g.length) :
    0 < (g.axis d).length := by
  unfold RectilinearGrid.size at hg
  by_contra h
  have h0 : (g.axis d).length = 0 := by omega
  have : (0 : Nat) ∈ g.map List.length := by
    rw [← h0]
    exact List.mem_map_of_mem _ (axis_mem g d hd)
  have := List.prod_eq_zero this
  omega

theorem offsets_pos (g : RectilinearGrid) (hg : 0 < g.size) (d : Nat) (hd : d ≤ g.length) :
    0 < offsets g d := by
  induction d with
  | zero => simp [offsets]
  | succ n ih =>
    simp only [offsets]
    exact Nat.mul_pos (ih (by omega)) (axis_length_pos g hg n (by omega))

theorem index_lt (g : RectilinearGrid) (hg : 0 < g.size) (row d : Nat) (hd : d < g.length) :
    index g row d < (g.axis d).length :=
  Nat.mod_lt _ (axis_length_pos g hg d hd)

/-- The rows of a matrix assembled row by row: the entries of row `row` are
those of the row's own pass. -/
theorem filter_flatMap_row (f : Nat → Matrix) (p : Entry → Bool) (n row : Nat) (hrow : row < n)
    (hf : ∀ r, ∀ e ∈ f r, e.row = (r : Int)) :
    ((List.range n).flatMap f).filter (fun e => decide (e.row = (row : Int)) && p e)
      = (f row).filter p := by
  induction n with
  | zero => omega
  | succ n ih =>
    rw [List.range_succ, List.flatMap_append, List.filter_append]
    have hother : ∀ r, r ≠ row →
        (f r).filter (fun e => decide (e.row = (row : Int)) && p e) = [] := by
      intro r hr
      rw [List.filter_eq_nil_iff]
      intro e he
      have := hf r e he
      have hne : e.row ≠ (row : Int) := by
        rw [this]
        exact_mod_cast hr
      simp [hne]
    have hsame : (f row).filter (fun e => decide (e.row = (row : Int)) && p e)
        = (f row).filter p := by
      apply List.filter_congr
      intro e he
      simp [hf row e he]
    by_cases h : row = n
    · subst h
      have hprev : ((List.range row).flatMap f).filter
          (fun e => decide (e.row = (row : Int)) && p e) = [] := by
        rw [List.filter_eq_nil_iff]
        intro e he
        rcases List.mem_flatMap.mp he with ⟨r, hr, her⟩
        have hlt : r < row := List.mem_range.mp hr
        have hne : e.row ≠ (row : Int) := by
          rw [hf r e her]
          exact_mod_cast (Nat.ne_of_lt hlt)
        simp [hne]
      rw [hprev]
      simp only [List.flatMap_cons, List.flatMap_nil, List.append_nil, List.nil_append]
      exact hsame
    · rw [ih (by omega)]
      simp only [List.flatMap_cons, List.flatMap_nil, List.append_nil]
      rw [hother n (fun h' => h h'.symm)]
      simp

namespace ControlledOperator

theorem A_row_row (op : ControlledOperator) (time : ℚ) (r : Nat) :
    ∀ e ∈ op.A_row time r, e.row = (r : Int) := by
  intro e he
  unfold A_row at he
  simp only [List.mem_append, List.mem_map, List.mem_singleton] at he
  rcases he with ⟨x, _, hx⟩ | hx
  · rw [← hx]
  · rw [hx]

/-- The pass of an interior dimension. -/
theorem A_dim_interior (op : ControlledOperator) (time : ℚ) (row d : Nat)
    (h0 : index op.refined_spatial_grid row d ≠ 0)
    (h1 : index op.refined_spatial_grid row d ≠ (op.refined_spatial_grid.axis d).length - 1) :
    op.A_dim time row d =
      ((op.coefficients time row d).1 + (op.coefficients time row d).2,
       [((row : Int) - (offsets op.refined_spatial_grid d : Int), -(op.coefficients time row d).1),
        ((row : Int) + (offsets op.refined_spatial_grid d : Int), -(op.coefficients time row d).2)]) := by
  unfold A_dim
  simp only [if_neg h0, if_neg h1]

/-- The spacings of an interior node of a strictly increasing axis are positive,
so its coefficients are non-negative. -/
theorem coefficients_nonneg (op : ControlledOperator) (time : ℚ) (row d : Nat)
    (hinc : op.refined_spatial_grid.StrictlyIncreasing)
    (hrow : row < op.refined_spatial_grid.size) (hd : d < op.refined_spatial_grid.length)
    (h0 : index op.refined_spatial_grid row d ≠ 0)
    (h1 : index op.refined_spatial_grid row d ≠ (op.refined_spatial_grid.axis d).length - 1) :
    0 ≤ (op.coefficients time row d).1 ∧ 0 ≤ (op.coefficients time row d).2 := by
  have hlt := index_lt op.refined_spatial_grid (by omega) row d hd
  have hx := hinc _ (axis_mem op.refined_spatial_grid d hd)
  have hb := tick_lt_tick _ hx (index op.refined_spatial_grid row d - 1)
    (index op.refined_spatial_grid row d) (by omega) hlt
  have hf := tick_lt_tick _ hx (index op.refined_spatial_grid row d)
    (index op.refined_spatial_grid row d + 1) (by omega) (by omega)
  unfold coefficients
  exact stencil_nonneg _ _ _ _ _ (by linarith) (by linarith) (by linarith)

/-- The loop over the dimensions, as a sum and a concatenation. -/
theorem A_dims_eq (op : ControlledOperator) (time : ℚ) (row : Nat) :
    op.A_dims time row =
      (((List.range op.refined_spatial_grid.length).map (fun d => (op.A_dim time row d).1)).sum,
       (List.range op.refined_spatial_grid.length).flatMap (fun d => (op.A_dim time row d).2)) := by
  unfold A_dims
  generalize List.range op.refined_spatial_grid.length = l
  have key : ∀ (l : List Nat) (acc : ℚ × List (Int × ℚ)),
      l.foldl (fun acc d => (acc.1 + (op.A_dim time row d).1, acc.2 ++ (op.A_dim time row d).2)) acc
        = (acc.1 + (l.map (fun d => (op.A_dim time row d).1)).sum,
           acc.2 ++ l.flatMap (fun d => (op.A_dim time row d).2)) := by
    intro l
    induction l with
    | nil => intro acc; simp
    | cons a t ih =>
      intro acc
      simp only [List.foldl_cons, ih, List.map_cons, List.sum_cons, List.flatMap_cons,
        List.append_assoc, add_assoc]
  simpa using key l (0, [])

end ControlledOperator


namespace ControlledOperator

/-- Over dimensions in which the node is interior, the total of the loop is the
sum of the magnitudes of the inserted entries, none of which is on the
diagonal. -/
theorem A_dims_interior_sum (op : ControlledOperator) (time : ℚ) (row : Nat)
    (hinc : op.refined_spatial_grid.StrictlyIncreasing)
    (hrow : row < op.refined_spatial_grid.size)
    (hint : interiorRow op.refined_spatial_grid row) (l : List Nat)
    (hl : ∀ d ∈ l, d < op.refined_spatial_grid.length) :
    (l.map (fun d => (op.A_dim time row d).1)).sum
        = ((l.flatMap (fun d => (op.A_dim time row d).2)).map (fun e => |e.2|)).sum
      ∧ ∀ e ∈ l.flatMap (fun d => (op.A_dim time row d).2), e.1 ≠ (row : Int) := by
  induction l with
  | nil => simp
  | cons a t ih =>
    have ha : a < op.refined_spatial_grid.length := hl a (List.mem_cons_self a t)
    have iht := ih (fun d hd => hl d (List.mem_cons_of_mem a hd))
    have hi := hint a ha
    have hdim := A_dim_interior op time row a hi.1 hi.2
    have hnn := coefficients_nonneg op time row a hinc hrow ha hi.1 hi.2
    have hoff := offsets_pos op.refined_spatial_grid (by omega) a (by omega)
    constructor
    · simp only [List.map_cons, List.sum_cons, List.flatMap_cons, List.map_append,
        List.sum_append, iht.1]
      rw [hdim]
      simp only [List.map_cons, List.map_nil, List.sum_cons, List.sum_nil, abs_neg,
        abs_of_nonneg hnn.1, abs_of_nonneg hnn.2, add_zero]
    · intro e he
      simp only [List.flatMap_cons, List.mem_append] at he
      rcases he with he | he
      · rw [hdim] at he
        simp only [List.mem_cons, List.mem_singleton, List.not_mem_nil, or_false] at he
        rcases he with he | he
        · rw [he]
          simp only
          omega
        · rw [he]
          simp only
          omega
      · exact iht.2 e he

end ControlledOperator

/-- C2: at a node where the discount is zero, in a row that is interior in
every spatial dimension of a strictly increasing grid, the diagonal entry of
`A` equals the sum of the absolute values of the off-diagonal entries of the
row. -/
theorem C2_interior_row_diagonal (op : ControlledOperator) (time : ℚ) (row : Nat)
    (hinc : op.refined_spatial_grid.StrictlyIncreasing)
    (hrow : row < op.refined_spatial_grid.size)
    (hint : interiorRow op.refined_spatial_grid row)
    (hrho : op.hjbqvi.discount time (coordinates op.refined_spatial_grid row) = 0) :
    (op.A time).diagonal row = (op.A time).offDiagonalMagnitude row := by
  have hsum := ControlledOperator.A_dims_interior_sum op time row hinc hrow hint
    (List.range op.refined_spatial_grid.length) (fun d hd => List.mem_range.mp hd)
  have hrows := ControlledOperator.A_row_row op time
  have hd : (op.A time).filter (fun e => decide (e.row = (row : Int) ∧ e.col = (row : Int)))
      = (op.A_row time row).filter (fun e => decide (e.col = (row : Int))) := by
    rw [← filter_flatMap_row (op.A_row time) (fun e => decide (e.col = (row : Int)))
      op.refined_spatial_grid.size row hrow hrows]
    unfold ControlledOperator.A
    apply List.filter_congr
    intro e _
    simp
  have ho : (op.A time).filter (fun e => decide (e.row = (row : Int) ∧ e.col ≠ (row : Int)))
      = (op.A_row time row).filter (fun e => decide (e.col ≠ (row : Int))) := by
    rw [← filter_flatMap_row (op.A_row time) (fun e => decide (e.col ≠ (row : Int)))
      op.refined_spatial_grid.size row hrow hrows]
    unfold ControlledOperator.A
    apply List.filter_congr
    intro e _
    simp
  unfold Matrix.diagonal Matrix.offDiagonalMagnitude
  rw [hd, ho]
  unfold ControlledOperator.A_row
  rw [ControlledOperator.A_dims_eq]
  simp only [List.filter_append, List.map_append, List.sum_append]
  have h1 : (List.map (fun e => (⟨(row : Int), e.1, e.2⟩ : Entry))
      ((List.range op.refined_spatial_grid.length).flatMap
        (fun d => (op.A_dim time row d).2))).filter (fun e => decide (e.col = (row : Int))) = [] := by
    rw [List.filter_eq_nil_iff]
    intro e he
    rcases List.mem_map.mp he with ⟨x, hx, hxe⟩
    have := hsum.2 x hx
    rw [← hxe]
    simpa using this
  have h2 : (List.map (fun e => (⟨(row : Int), e.1, e.2⟩ : Entry))
      ((List.range op.refined_spatial_grid.length).flatMap
        (fun d => (op.A_dim time row d).2))).filter (fun e => decide (e.col ≠ (row : Int)))
      = List.map (fun e => (⟨(row : Int), e.1, e.2⟩ : Entry))
      ((List.range op.refined_spatial_grid.length).flatMap
        (fun d => (op.A_dim time row d).2)) := by
    rw [List.filter_eq_self]
    intro e he
    rcases List.mem_map.mp he with ⟨x, hx, hxe⟩
    have := hsum.2 x hx
    rw [← hxe]
    simpa using this
  rw [h1, h2]
  simp only [List.filter_cons, List.filter_nil, decide_True, ne_eq, not_true_eq_false,
    decide_False, if_true, List.map_cons, List.map_nil, List.sum_cons, List.sum_nil,
    List.nil_append, List.map_map, hrho, add_zero, hsum.1]
  simp [Function.comp_def]


/-- Entries inserted by one pass of the loop over the dimensions are `≤ 0` when
the boundary routines are the shipped ones and the drift is `≤ 0` at the nodes
handled by `HJBQVIZeroDiffusionRightBoundary`. -/
theorem ControlledOperator.A_dim_entries_nonpos (op : ControlledOperator) (time : ℚ)
    (row d : Nat)
    (hinc : op.refined_spatial_grid.StrictlyIncreasing)
    (hrow : row < op.refined_spatial_grid.size) (hd : d < op.refined_spatial_grid.length)
    (hl : op.hjbqvi.lboundary d = none ∨ op.hjbqvi.lboundary d = some HJBQVILinearBoundary)
    (hr : op.hjbqvi.rboundary d = none ∨ op.hjbqvi.rboundary d = some HJBQVILinearBoundary
      ∨ op.hjbqvi.rboundary d = some HJBQVIZeroDiffusionRightBoundary)
    (hmu : op.hjbqvi.rboundary d = some HJBQVIZeroDiffusionRightBoundary →
      index op.refined_spatial_grid row d ≠ 0 →
      index op.refined_spatial_grid row d = (op.refined_spatial_grid.axis d).length - 1 →
      drift op.hjbqvi.toHJBQVIData d time (coordinates op.refined_spatial_grid row) (op.q row) ≤ 0) :
    ∀ e ∈ (op.A_dim time row d).2, e.2 ≤ 0 := by
  intro e he
  by_cases h0 : index op.refined_spatial_grid row d = 0
  · unfold ControlledOperator.A_dim at he
    simp only [if_pos h0] at he
    rcases hl with h | h
    · rw [h] at he; simp at he
    · rw [h] at he; simp [HJBQVILinearBoundary] at he
  · by_cases h1 : index op.refined_spatial_grid row d = (op.refined_spatial_grid.axis d).length - 1
    · unfold ControlledOperator.A_dim at he
      simp only [if_neg h0, if_pos h1] at he
      rcases hr with h | h | h
      · rw [h] at he; simp at he
      · rw [h] at he; simp [HJBQVILinearBoundary] at he
      · have hm := hmu h h0 h1
        rw [h] at he
        simp only [HJBQVIZeroDiffusionRightBoundary, List.mem_singleton] at he
        have hlt := index_lt op.refined_spatial_grid (by omega) row d hd
        have hx := hinc _ (axis_mem op.refined_spatial_grid d hd)
        have hb := tick_lt_tick _ hx (index op.refined_spatial_grid row d - 1)
          (index op.refined_spatial_grid row d) (by omega) hlt
        rw [he]
        simp only [neg_div, neg_neg]
        exact div_nonpos_of_nonpos_of_nonneg hm (by linarith)
    · rw [ControlledOperator.A_dim_interior op time row d h0 h1] at he
      have hnn := ControlledOperator.coefficients_nonneg op time row d hinc hrow hd h0 h1
      simp only [List.mem_cons, List.mem_singleton, List.not_mem_nil, or_false] at he
      rcases he with he | he
      · rw [he]; simp only; linarith [hnn.1]
      · rw [he]; simp only; linarith [hnn.2]

/-- C5, amended: on a grid with strictly increasing axes, with every boundary
routine absent or one of the shipped ones, every off-diagonal entry of `A` is
`≤ 0` provided the drift is `≤ 0` at every right-boundary node handled by
`HJBQVIZeroDiffusionRightBoundary`; interior rows and rows of
`HJBQVILinearBoundary` need no condition on the drift. -/
theorem C5_off_diagonal_nonpos (op : ControlledOperator) (time : ℚ)
    (hinc : op.refined_spatial_grid.StrictlyIncreasing)
    (hl : ∀ d, op.hjbqvi.lboundary d = none ∨ op.hjbqvi.lboundary d = some HJBQVILinearBoundary)
    (hr : ∀ d, op.hjbqvi.rboundary d = none ∨ op.hjbqvi.rboundary d = some HJBQVILinearBoundary
      ∨ op.hjbqvi.rboundary d = some HJBQVIZeroDiffusionRightBoundary)
    (hmu : ∀ row d, row < op.refined_spatial_grid.size → d < op.refined_spatial_grid.length →
      op.hjbqvi.rboundary d = some HJBQVIZeroDiffusionRightBoundary →
      index op.refined_spatial_grid row d ≠ 0 →
      index op.refined_spatial_grid row d = (op.refined_spatial_grid.axis d).length - 1 →
      drift op.hjbqvi.toHJBQVIData d time (coordinates op.refined_spatial_grid row) (op.q row) ≤ 0) :
    ∀ e ∈ op.A time, e.col ≠ e.row → e.val ≤ 0 := by
  intro e he hne
  unfold ControlledOperator.A at he
  rcases List.mem_flatMap.mp he with ⟨row, hrow, her⟩
  have hrow' : row < op.refined_spatial_grid.size := List.mem_range.mp hrow
  unfold ControlledOperator.A_row at her
  rw [ControlledOperator.A_dims_eq] at her
  simp only [List.mem_append, List.mem_map, List.mem_singleton] at her
  rcases her with ⟨x, hx, hxe⟩ | hdiag
  · rcases List.mem_flatMap.mp hx with ⟨d, hd, hxd⟩
    have hd' : d < op.refined_spatial_grid.length := List.mem_range.mp hd
    have := ControlledOperator.A_dim_entries_nonpos op time row d hinc hrow' hd' (hl d) (hr d)
      (hmu row d hrow' hd') x hxd
    rw [← hxe]
    exact this
  · rw [hdiag] at hne
    exact absurd rfl hne


theorem exampleGrid_increasing : RectilinearGrid.StrictlyIncreasing [[0, 1, 2, 4]] := by
  intro x hx
  simp only [List.mem_singleton] at hx
  subst hx
  unfold Axis.StrictlyIncreasing
  simp only [List.pairwise_cons, List.mem_cons, List.mem_singleton, List.not_mem_nil]
  norm_num

theorem exampleGrid2_increasing : RectilinearGrid.StrictlyIncreasing [[0, 1, 3], [0, 2, 3]] := by
  intro x hx
  simp only [List.mem_cons, List.mem_singleton, List.not_mem_nil, or_false] at hx
  rcases hx with hx | hx <;> subst hx <;> unfold Axis.StrictlyIncreasing <;>
    simp only [List.pairwise_cons, List.mem_cons, List.mem_singleton, List.not_mem_nil] <;>
    norm_num

/-- Instance of C2: row 4 of the two-dimensional example, with drift 5, is
interior in both dimensions; its diagonal and its off-diagonal magnitude
agree. -/
theorem C2_interior_row_diagonal_witness :
    (exampleOperator2 5).refined_spatial_grid.StrictlyIncreasing
      ∧ 4 < (exampleOperator2 5).refined_spatial_grid.size
      ∧ interiorRow (exampleOperator2 5).refined_spatial_grid 4
      ∧ ((exampleOperator2 5).A 0).diagonal 4 = ((exampleOperator2 5).A 0).offDiagonalMagnitude 4 := by
  have hint : interiorRow (exampleOperator2 5).refined_spatial_grid 4 := by
    intro d hd
    have hd' : d < 2 := hd
    interval_cases d <;> decide
  exact ⟨exampleGrid2_increasing, by decide, hint,
    C2_interior_row_diagonal (exampleOperator2 5) 0 4 exampleGrid2_increasing (by decide) hint rfl⟩

/-- C5, refuted as stated: on the grid `0, 1, 2, 4` with
`HJBQVIZeroDiffusionRightBoundary` on the right and controlled drift 5, the row
of the right boundary node stores `5/2 > 0` at column 2. -/
theorem C5_off_diagonal_counterexample :
    (exampleOperator 5 (some HJBQVIZeroDiffusionRightBoundary)).refined_spatial_grid.StrictlyIncreasing
      ∧ (⟨3, 2, 5 / 2⟩ : Entry) ∈ (exampleOperator 5 (some HJBQVIZeroDiffusionRightBoundary)).A 0
      ∧ ¬ (∀ e ∈ (exampleOperator 5 (some HJBQVIZeroDiffusionRightBoundary)).A 0,
            e.col ≠ e.row → e.val ≤ 0) := by
  have hmem : (⟨3, 2, 5 / 2⟩ : Entry)
      ∈ (exampleOperator 5 (some HJBQVIZeroDiffusionRightBoundary)).A 0 := by decide!
  refine ⟨exampleGrid_increasing, hmem, ?_⟩
  intro h
  have := h _ hmem (by decide)
  norm_num at this

/-- Instance of the amended C5: the same grid and routine with the inward
drift `-5`; the row of the right boundary node stores `-5/2` at column 2. -/
theorem C5_off_diagonal_nonpos_witness :
    (exampleOperator (-5) (some HJBQVIZeroDiffusionRightBoundary)).refined_spatial_grid.StrictlyIncreasing
      ∧ (⟨3, 2, -5 / 2⟩ : Entry) ∈ (exampleOperator (-5) (some HJBQVIZeroDiffusionRightBoundary)).A 0
      ∧ (⟨3, 2, -5 / 2⟩ : Entry).val ≤ 0 := by
  have hmem : (⟨3, 2, -5 / 2⟩ : Entry)
      ∈ (exampleOperator (-5) (some HJBQVIZeroDiffusionRightBoundary)).A 0 := by decide!
  exact ⟨exampleGrid_increasing, hmem,
    C5_off_diagonal_nonpos (exampleOperator (-5) (some HJBQVIZeroDiffusionRightBoundary)) 0
      exampleGrid_increasing (fun _ => Or.inl rfl) (fun _ => Or.inr (Or.inr rfl))
      (fun row d _ _ _ _ _ => by
        simp only [drift, exampleOperator, exampleProblem]
        split_ifs <;> norm_num)
      _ hmem (by decide)⟩


/-! ## The search loop of the explicit event -/

theorem recordControl_overwrite (dim row : Nat) (args : List ℚ) (rec : Option (List ℚ))
    (cv : ControlVectors) :
    recordControl dim row args (applyRecord dim row rec cv) = recordControl dim row args cv := by
  funext d r
  cases rec with
  | none => rfl
  | some args' =>
    simp only [applyRecord, recordControl]
    split_ifs <;> rfl

/-- The search loop writes into the control vectors what the loop without
control vectors last recorded. -/
theorem findOptimalControl_eq_scan (dim row : Nat) (value : List ℚ → Option ℚ)
    (nodes : List (List ℚ)) (a0 : WithBot ℚ) (rec : Option (List ℚ)) (cv : ControlVectors) :
    findOptimalControl dim row value nodes (a0, applyRecord dim row rec cv)
      = ((scanOptimalControl dim value nodes (a0, rec)).1,
          applyRecord dim row (scanOptimalControl dim value nodes (a0, rec)).2 cv) := by
  induction nodes generalizing a0 rec with
  | nil => rfl
  | cons n t ih =>
    unfold findOptimalControl scanOptimalControl
    simp only [List.foldl_cons]
    cases hv : value (controlArgs dim n) with
    | none => exact ih a0 rec
    | some y =>
      simp only
      by_cases hy : (y : WithBot ℚ) > a0
      · simp only [if_pos hy]
        rw [recordControl_overwrite]
        exact ih (y : WithBot ℚ) (some (controlArgs dim n))
      · simp only [if_neg hy]
        exact ih a0 rec

/-- The best value found by the search loop is the maximum of the initial value
and the values of the candidates not skipped. -/
theorem scanOptimalControl_fst (dim : Nat) (value : List ℚ → Option ℚ)
    (nodes : List (List ℚ)) (a0 : WithBot ℚ) (rec : Option (List ℚ)) :
    (scanOptimalControl dim value nodes (a0, rec)).1
      = a0 ⊔ (nodes.filterMap (fun node => value (controlArgs dim node))).maximum := by
  induction nodes generalizing a0 rec with
  | nil => simp [scanOptimalControl]
  | cons n t ih =>
    unfold scanOptimalControl
    simp only [List.foldl_cons]
    cases hv : value (controlArgs dim n) with
    | none =>
      have := ih a0 rec
      unfold scanOptimalControl at this
      rw [this, List.filterMap_cons, hv]
    | some y =>
      simp only
      rw [List.filterMap_cons, hv]
      simp only [List.maximum_cons]
      by_cases hy : (y : WithBot ℚ) > a0
      · simp only [if_pos hy]
        have := ih (y : WithBot ℚ) (some (controlArgs dim n))
        unfold scanOptimalControl at this
        rw [this, ← sup_assoc, sup_eq_right.mpr hy.le]
      · simp only [if_neg hy]
        have := ih a0 rec
        unfold scanOptimalControl at this
        rw [this, ← sup_assoc, sup_eq_left.mpr (not_lt.mp hy)]

/-- What the search loop records: nothing when no candidate beats the initial
value, otherwise the first candidate of greatest value. -/
theorem scanOptimalControl_snd (dim : Nat) (value : List ℚ → Option ℚ)
    (nodes : List (List ℚ)) (a0 : WithBot ℚ) (rec : Option (List ℚ)) :
    ((∀ n ∈ nodes, ∀ y, value (controlArgs dim n) = some y → (y : WithBot ℚ) ≤ a0)
        ∧ scanOptimalControl dim value nodes (a0, rec) = (a0, rec))
      ∨ ∃ l1 n l2 x, nodes = l1 ++ n :: l2 ∧ value (controlArgs dim n) = some x
          ∧ a0 < (x : WithBot ℚ)
          ∧ (∀ m ∈ l1, ∀ y, value (controlArgs dim m) = some y → y < x)
          ∧ (∀ m ∈ l2, ∀ y, value (controlArgs dim m) = some y → y ≤ x)
          ∧ scanOptimalControl dim value nodes (a0, rec)
              = ((x : WithBot ℚ), some (controlArgs dim n)) := by
  induction nodes generalizing a0 rec with
  | nil => left; exact ⟨by simp, rfl⟩
  | cons h t ih =>
    have hstep : scanOptimalControl dim value (h :: t) (a0, rec)
        = scanOptimalControl dim value t
            (match value (controlArgs dim h) with
              | none => (a0, rec)
              | some new_value =>
                  if (new_value : WithBot ℚ) > a0 then
                    ((new_value : WithBot ℚ), some (controlArgs dim h))
                  else (a0, rec)) := by
      unfold scanOptimalControl
      rw [List.foldl_cons]
    rw [hstep]
    have keep : ∀ (hle : ∀ y, value (controlArgs dim h) = some y → (y : WithBot ℚ) ≤ a0),
        ((∀ n ∈ h :: t, ∀ y, value (controlArgs dim n) = some y → (y : WithBot ℚ) ≤ a0)
            ∧ scanOptimalControl dim value t (a0, rec) = (a0, rec))
          ∨ ∃ l1 n l2 x, h :: t = l1 ++ n :: l2 ∧ value (controlArgs dim n) = some x
              ∧ a0 < (x : WithBot ℚ)
              ∧ (∀ m ∈ l1, ∀ y, value (controlArgs dim m) = some y → y < x)
              ∧ (∀ m ∈ l2, ∀ y, value (controlArgs dim m) = some y → y ≤ x)
              ∧ scanOptimalControl dim value t (a0, rec)
                  = ((x : WithBot ℚ), some (controlArgs dim n)) := by
      intro hle
      rcases ih a0 rec with ⟨hall, heq⟩ | ⟨l1, n, l2, x, hsplit, hval, hlt, hl1, hl2, heq⟩
      · left
        refine ⟨?_, heq⟩
        intro m hm y hy
        rcases List.mem_cons.mp hm with hm | hm
        · subst hm; exact hle y hy
        · exact hall m hm y hy
      · right
        refine ⟨h :: l1, n, l2, x, by rw [hsplit]; rfl, hval, hlt, ?_, hl2, heq⟩
        intro m hm y hy
        rcases List.mem_cons.mp hm with hm | hm
        · subst hm
          have := lt_of_le_of_lt (hle y hy) hlt
          exact WithBot.coe_lt_coe.mp this
        · exact hl1 m hm y hy
    cases hv : value (controlArgs dim h) with
    | none =>
      simp only
      exact keep (fun y hy => by rw [hv] at hy; cases hy)
    | some y0 =>
      simp only
      by_cases hy : (y0 : WithBot ℚ) > a0
      · simp only [if_pos hy]
        right
        rcases ih (y0 : WithBot ℚ) (some (controlArgs dim h)) with
          ⟨hall, heq⟩ | ⟨l1, n, l2, x, hsplit, hval, hlt, hl1, hl2, heq⟩
        · refine ⟨[], h, t, y0, rfl, hv, hy, by simp, ?_, heq⟩
          intro m hm y hym
          exact WithBot.coe_le_coe.mp (hall m hm y hym)
        · refine ⟨h :: l1, n, l2, x, by rw [hsplit]; rfl, hval, lt_trans hy hlt, ?_, hl2, heq⟩
          intro m hm y hym
          rcases List.mem_cons.mp hm with hm | hm
          · subst hm
            rw [hv] at hym
            cases hym
            exact WithBot.coe_lt_coe.mp hlt
          · exact hl1 m hm y hym
      · simp only [if_neg hy]
        apply keep
        intro y hyv
        rw [hv] at hyv
        cases hyv
        exact not_lt.mp hy


theorem applyRecord_apply (dim r : Nat) (rec : Option (List ℚ)) (cv : ControlVectors)
    (d row : Nat) :
    applyRecord dim r rec cv d row
      = if row = r ∧ d < dim then
          (match rec with
            | some args => some (args.getD d 0)
            | none => cv d row)
        else cv d row := by
  cases rec with
  | none => simp [applyRecord]
  | some args => simp [applyRecord, recordControl]

/-- Recording row by row: the entry of a row is written by the pass of that row
only. -/
theorem foldl_applyRecord (dim : Nat) (rec : Nat → Option (List ℚ)) (l : List Nat)
    (cv : ControlVectors) (d row : Nat) :
    (l.foldl (fun cv r => applyRecord dim r (rec r) cv) cv) d row
      = if row ∈ l then applyRecord dim row (rec row) cv d row else cv d row := by
  induction l generalizing cv with
  | nil => simp
  | cons h t ih =>
    rw [List.foldl_cons, ih]
    by_cases hrt : row ∈ t
    · rw [if_pos hrt, if_pos (List.mem_cons_of_mem h hrt)]
      simp only [applyRecord_apply]
      by_cases hrh : row = h
      · subst hrh
        cases rec row with
        | none => simp
        | some args =>
          simp only
          split_ifs <;> simp_all
      · simp [hrh]
    · rw [if_neg hrt]
      by_cases hrh : row = h
      · subst hrh
        simp
      · rw [if_neg (by simp [hrh, hrt])]
        simp [applyRecord_apply, hrh]

namespace ExplicitEvent

theorem continuation_eq (ev : ExplicitEvent) (vector : List ℚ) (row : Nat) (cv : ControlVectors) :
    ev.continuation vector row cv
      = (ev.a vector row,
          applyRecord ev.hjbqvi.StochasticControlDimension row (ev.stochasticRecord vector row) cv) := by
  unfold a stochasticRecord continuation
  by_cases h : ev.hjbqvi.semi_lagrangian = true
  · simp only [h, if_true]
    have h1 := findOptimalControl_eq_scan ev.hjbqvi.StochasticControlDimension row
      (ev.semiLagrangianValue vector (coordinates ev.refined_spatial_grid row))
      ev.refined_stochastic_control_grid.nodes ⊥ none cv
    have h2 := findOptimalControl_eq_scan ev.hjbqvi.StochasticControlDimension row
      (ev.semiLagrangianValue vector (coordinates ev.refined_spatial_grid row))
      ev.refined_stochastic_control_grid.nodes ⊥ none (fun _ _ => none)
    have e1 : ∀ c : ControlVectors, applyRecord ev.hjbqvi.StochasticControlDimension row none c = c :=
      fun _ => rfl
    rw [e1] at h1 h2
    rw [h1, h2]
  · simp only [h]
    rfl

theorem impulse_eq (ev : ExplicitEvent) (vector : List ℚ) (row : Nat) (cv : ControlVectors) :
    ev.impulse vector row cv
      = (ev.b vector row,
          applyRecord ev.hjbqvi.ImpulseControlDimension row (ev.impulseRecord vector row) cv) := by
  unfold b impulseRecord impulse
  by_cases h : ev.hjbqvi.explicit_impulse = true
  · simp only [h, if_true]
    have h1 := findOptimalControl_eq_scan ev.hjbqvi.ImpulseControlDimension row
      (ev.impulseValue vector (coordinates ev.refined_spatial_grid row))
      ev.refined_impulse_control_grid.nodes ⊥ none cv
    have h2 := findOptimalControl_eq_scan ev.hjbqvi.ImpulseControlDimension row
      (ev.impulseValue vector (coordinates ev.refined_spatial_grid row))
      ev.refined_impulse_control_grid.nodes ⊥ none (fun _ _ => none)
    have e1 : ∀ c : ControlVectors, applyRecord ev.hjbqvi.ImpulseControlDimension row none c = c :=
      fun _ => rfl
    rw [e1] at h1 h2
    rw [h1, h2]
  · simp only [h]
    rfl

/-- The row loop of `_doEvent` in closed form. -/
theorem foldl_rowStep (ev : ExplicitEvent) (vector : List ℚ) (l : List Nat)
    (acc : List (WithBot ℚ) × EventState) :
    l.foldl (ev.rowStep vector) acc
      = (acc.1 ++ l.map (fun r => if ev.a vector r ≥ ev.b vector r then ev.a vector r
                                    else ev.b vector r),
          ⟨acc.2.mask ++ l.map (fun r => !decide (ev.a vector r ≥ ev.b vector r)),
            l.foldl (fun cv r => applyRecord ev.hjbqvi.StochasticControlDimension r
              (ev.stochasticRecord vector r) cv) acc.2.stochastic_control_vector,
            l.foldl (fun cv r => applyRecord ev.hjbqvi.ImpulseControlDimension r
              (ev.impulseRecord vector r) cv) acc.2.impulse_control_vector⟩) := by
  induction l generalizing acc with
  | nil => simp
  | cons h t ih =>
    rw [List.foldl_cons, ih]
    unfold rowStep
    simp only [continuation_eq, impulse_eq]
    by_cases hab : ev.a vector h ≥ ev.b vector h
    · simp [hab]
    · simp [hab]

/-- The event in closed form. -/
theorem _doEvent_eq (ev : ExplicitEvent) (vector : List ℚ) (st : EventState) :
    ev._doEvent vector st
      = ((List.range ev.refined_spatial_grid.size).map
            (fun r => if ev.a vector r ≥ ev.b vector r then ev.a vector r else ev.b vector r),
          ⟨(List.range ev.refined_spatial_grid.size).map
              (fun r => !decide (ev.a vector r ≥ ev.b vector r)),
            (List.range ev.refined_spatial_grid.size).foldl
              (fun cv r => applyRecord ev.hjbqvi.StochasticControlDimension r
                (ev.stochasticRecord vector r) cv) st.stochastic_control_vector,
            (List.range ev.refined_spatial_grid.size).foldl
              (fun cv r => applyRecord ev.hjbqvi.ImpulseControlDimension r
                (ev.impulseRecord vector r) cv) st.impulse_control_vector⟩) := by
  unfold _doEvent
  rw [foldl_rowStep]
  simp

end ExplicitEvent


namespace ExplicitEvent

theorem a_eq (ev : ExplicitEvent) (vector : List ℚ) (row : Nat) :
    ev.a vector row
      = if ev.hjbqvi.semi_lagrangian then
          (scanOptimalControl ev.hjbqvi.StochasticControlDimension
            (ev.semiLagrangianValue vector (coordinates ev.refined_spatial_grid row))
            ev.refined_stochastic_control_grid.nodes (⊥, none)).1
        else ((vector.getD row 0 : ℚ) : WithBot ℚ) := by
  unfold a continuation
  by_cases h : ev.hjbqvi.semi_lagrangian = true
  · simp only [h, if_true]
    have h2 := findOptimalControl_eq_scan ev.hjbqvi.StochasticControlDimension row
      (ev.semiLagrangianValue vector (coordinates ev.refined_spatial_grid row))
      ev.refined_stochastic_control_grid.nodes ⊥ none (fun _ _ => none)
    have e1 : ∀ c : ControlVectors,
        applyRecord ev.hjbqvi.StochasticControlDimension row none c = c := fun _ => rfl
    rw [e1] at h2
    rw [h2]
  · simp only [h]
    rfl

theorem b_eq (ev : ExplicitEvent) (vector : List ℚ) (row : Nat) :
    ev.b vector row
      = if ev.hjbqvi.explicit_impulse then
          (scanOptimalControl ev.hjbqvi.ImpulseControlDimension
            (ev.impulseValue vector (coordinates ev.refined_spatial_grid row))
            ev.refined_impulse_control_grid.nodes (⊥, none)).1
        else ⊥ := by
  unfold b impulse
  by_cases h : ev.hjbqvi.explicit_impulse = true
  · simp only [h, if_true]
    have h2 := findOptimalControl_eq_scan ev.hjbqvi.ImpulseControlDimension row
      (ev.impulseValue vector (coordinates ev.refined_spatial_grid row))
      ev.refined_impulse_control_grid.nodes ⊥ none (fun _ _ => none)
    have e1 : ∀ c : ControlVectors,
        applyRecord ev.hjbqvi.ImpulseControlDimension row none c = c := fun _ => rfl
    rw [e1] at h2
    rw [h2]
  · simp only [h]
    rfl

/-- The mask entry of a row after the event. -/
theorem mask_getElem (ev : ExplicitEvent) (vector : List ℚ) (st : EventState) (row : Nat)
    (hrow : row < ev.refined_spatial_grid.size) :
    (ev._doEvent vector st).2.mask[row]? = some (!decide (ev.a vector row ≥ ev.b vector row)) := by
  rw [_doEvent_eq]
  simp [List.getElem?_map, List.getElem?_range hrow]

/-- The value of a row after the event. -/
theorem best_getElem (ev : ExplicitEvent) (vector : List ℚ) (st : EventState) (row : Nat)
    (hrow : row < ev.refined_spatial_grid.size) :
    (ev._doEvent vector st).1[row]?
      = some (if ev.a vector row ≥ ev.b vector row then ev.a vector row else ev.b vector row) := by
  rw [_doEvent_eq]
  simp [List.getElem?_map, List.getElem?_range hrow]

/-- The stochastic control entries of a row after the event. -/
theorem stochastic_entry (ev : ExplicitEvent) (vector : List ℚ) (st : EventState) (d row : Nat)
    (hrow : row < ev.refined_spatial_grid.size) :
    (ev._doEvent vector st).2.stochastic_control_vector d row
      = applyRecord ev.hjbqvi.StochasticControlDimension row (ev.stochasticRecord vector row)
          st.stochastic_control_vector d row := by
  rw [_doEvent_eq]
  simp only
  rw [foldl_applyRecord, if_pos (List.mem_range.mpr hrow)]

/-- The impulse control entries of a row after the event. -/
theorem impulse_entry (ev : ExplicitEvent) (vector : List ℚ) (st : EventState) (d row : Nat)
    (hrow : row < ev.refined_spatial_grid.size) :
    (ev._doEvent vector st).2.impulse_control_vector d row
      = applyRecord ev.hjbqvi.ImpulseControlDimension row (ev.impulseRecord vector row)
          st.impulse_control_vector d row := by
  rw [_doEvent_eq]
  simp only
  rw [foldl_applyRecord, if_pos (List.mem_range.mpr hrow)]

end ExplicitEvent

theorem controlArgs_getD (dim : Nat) (node : List ℚ) (d : Nat) (hd : d < dim) :
    (controlArgs dim node).getD d 0 = node.getD d 0 := by
  unfold controlArgs
  rw [List.getD_eq_getElem _ _ (by simpa using hd)]
  simp

/-- What a search from `-infinity` leaves in the control vectors of a row:
nothing when every candidate is skipped, otherwise the first candidate of
greatest value. -/
theorem scan_record_cases (dim row : Nat) (value : List ℚ → Option ℚ) (nodes : List (List ℚ))
    (cv : ControlVectors) :
    ((scanOptimalControl dim value nodes (⊥, none)).1 = ⊥
        ∧ (∀ n ∈ nodes, value (controlArgs dim n) = none)
        ∧ ∀ d, applyRecord dim row (scanOptimalControl dim value nodes (⊥, none)).2 cv d row
            = cv d row)
      ∨ ∃ l1 n l2 x, nodes = l1 ++ n :: l2 ∧ value (controlArgs dim n) = some x
          ∧ (scanOptimalControl dim value nodes (⊥, none)).1 = (x : WithBot ℚ)
          ∧ (∀ m ∈ l1, ∀ y, value (controlArgs dim m) = some y → y < x)
          ∧ (∀ m ∈ l2, ∀ y, value (controlArgs dim m) = some y → y ≤ x)
          ∧ ∀ d, d < dim →
              applyRecord dim row (scanOptimalControl dim value nodes (⊥, none)).2 cv d row
                = some (n.getD d 0) := by
  rcases scanOptimalControl_snd dim value nodes ⊥ none with
    ⟨hall, heq⟩ | ⟨l1, n, l2, x, hsplit, hval, _, hl1, hl2, heq⟩
  · left
    refine ⟨by rw [heq], ?_, ?_⟩
    · intro n hn
      cases hv : value (controlArgs dim n) with
      | none => rfl
      | some y =>
        have := hall n hn y hv
        simp at this
    · intro d
      rw [heq]
      rfl
  · right
    refine ⟨l1, n, l2, x, hsplit, hval, by rw [heq], hl1, hl2, ?_⟩
    intro d hd
    rw [heq]
    simp only [applyRecord, recordControl]
    rw [if_pos ⟨trivial, hd⟩, controlArgs_getD dim n d hd]


/-! ## The explicit event: the combination rule -/

/-- C6, refuted as stated: in the example with a free impulse (`c = 0`) and
previous solution `5, 7`, the node of row 1 has `a = b = 7`, so `b ≥ a`, and
the event leaves its mask false. -/
theorem C6_tie_counterexample :
    (exampleEvent 0).a [5, 7] 1 = ((7 : ℚ) : WithBot ℚ)
      ∧ (exampleEvent 0).b [5, 7] 1 = ((7 : ℚ) : WithBot ℚ)
      ∧ (exampleEvent 0).b [5, 7] 1 ≥ (exampleEvent 0).a [5, 7] 1
      ∧ ((exampleEvent 0)._doEvent [5, 7] exampleState).2.mask[1]? = some false := by
  decide!

/-- C6, amended: for every grid node `_doEvent` sets the mask to true if and
only if `b > a`, and to false if and only if `a ≥ b`; a tie `b = a` leaves the
mask false. -/
theorem C6_intervention_rule (ev : ExplicitEvent) (vector : List ℚ) (st : EventState)
    (row : Nat) (hrow : row < ev.refined_spatial_grid.size) :
    ((ev._doEvent vector st).2.mask[row]? = some true ↔ ev.a vector row < ev.b vector row)
      ∧ ((ev._doEvent vector st).2.mask[row]? = some false ↔ ev.b vector row ≤ ev.a vector row) := by
  rw [ExplicitEvent.mask_getElem ev vector st row hrow]
  by_cases h : ev.a vector row ≥ ev.b vector row
  · have hd : (!decide (ev.a vector row ≥ ev.b vector row)) = false := by simp [h]
    rw [hd]
    refine ⟨⟨fun h' => ?_, fun hlt => absurd h (not_le.mpr hlt)⟩, ⟨fun _ => h, fun _ => rfl⟩⟩
    cases h'
  · have hd : (!decide (ev.a vector row ≥ ev.b vector row)) = true := by simp [h]
    rw [hd]
    refine ⟨⟨fun _ => not_le.mp h, fun _ => rfl⟩, ⟨fun h' => ?_, fun hle => absurd hle h⟩⟩
    cases h'

/-- Instance of the amended C6: with the impulse flow `1/2` the node of row 1
has `a = 7 < b = 15/2` and its mask is true. -/
theorem C6_intervention_rule_witness :
    1 < (exampleEvent (1 / 2)).refined_spatial_grid.size
      ∧ ((exampleEvent (1 / 2))._doEvent [5, 7] exampleState).2.mask[1]? = some true
      ∧ (exampleEvent (1 / 2)).a [5, 7] 1 < (exampleEvent (1 / 2)).b [5, 7] 1 := by
  have hrow : 1 < (exampleEvent (1 / 2)).refined_spatial_grid.size := by decide
  have hlt : (exampleEvent (1 / 2)).a [5, 7] 1 < (exampleEvent (1 / 2)).b [5, 7] 1 := by decide!
  exact ⟨hrow,
    (C6_intervention_rule (exampleEvent (1 / 2)) [5, 7] exampleState 1 hrow).1.mpr hlt, hlt⟩

/-- C7: for every input vector and every grid node the value returned by
`_doEvent` is `max(a, b)`; when the impulse is not explicit `b` is
`-infinity`, the value is `a` and the mask is false; the mask and the returned
vector have one entry per grid node, in row order. -/
theorem C7_event_value (ev : ExplicitEvent) (vector : List ℚ) (st : EventState)
    (row : Nat) (hrow : row < ev.refined_spatial_grid.size) :
    (ev._doEvent vector st).1[row]? = some (max (ev.a vector row) (ev.b vector row))
      ∧ (ev.hjbqvi.explicit_impulse = false →
          ev.b vector row = ⊥ ∧ (ev._doEvent vector st).1[row]? = some (ev.a vector row)
            ∧ (ev._doEvent vector st).2.mask[row]? = some false)
      ∧ (ev._doEvent vector st).2.mask.length = ev.refined_spatial_grid.size
      ∧ (ev._doEvent vector st).1.length = ev.refined_spatial_grid.size
      ∧ (ev._doEvent vector st).2.mask
          = (List.range ev.refined_spatial_grid.size).map
              (fun r => decide (ev.a vector r < ev.b vector r)) := by
  have hbest := ExplicitEvent.best_getElem ev vector st row hrow
  have hmask := ExplicitEvent.mask_getElem ev vector st row hrow
  refine ⟨?_, ?_, ?_, ?_, ?_⟩
  · rw [hbest]
    by_cases h : ev.a vector row ≥ ev.b vector row
    · rw [if_pos h, max_eq_left h]
    · rw [if_neg h, max_eq_right (not_le.mp h).le]
  · intro himp
    have hb : ev.b vector row = ⊥ := by
      rw [ExplicitEvent.b_eq]
      simp [himp]
    refine ⟨hb, ?_, ?_⟩
    · rw [hbest, hb]
      simp
    · rw [hmask, hb]
      simp
  · rw [ExplicitEvent._doEvent_eq]
    simp
  · rw [ExplicitEvent._doEvent_eq]
    simp
  · rw [ExplicitEvent._doEvent_eq]
    simp only
    apply List.map_congr_left
    intro r _
    by_cases h : ev.a vector r ≥ ev.b vector r
    · simp [h]
    · simp [h, not_le.mp h]

/-- Instance of C7 on the example with the impulse flow `1/2`: the returned
vector is `8, 15/2`. -/
theorem C7_event_value_witness :
    0 < (exampleEvent (1 / 2)).refined_spatial_grid.size
      ∧ ((exampleEvent (1 / 2))._doEvent [5, 7] exampleState).1[0]?
          = some (max ((exampleEvent (1 / 2)).a [5, 7] 0) ((exampleEvent (1 / 2)).b [5, 7] 0))
      ∧ ((exampleEvent (1 / 2))._doEvent [5, 7] exampleState).1
          = [((8 : ℚ) : WithBot ℚ), (((15 : ℚ) / 2 : ℚ) : WithBot ℚ)] :=
  ⟨by decide,
    (C7_event_value (exampleEvent (1 / 2)) [5, 7] exampleState 0 (by decide)).1, by decide!⟩


/-! ## The explicit event: the two searches -/

theorem ExplicitEvent.skip_iff (ev : ExplicitEvent) (x args : List ℚ) :
    ev.skip x args = true ↔
      (ev.hjbqvi.drop_semi_lagrangian_off_grid = true
        ∧ ∃ d, d < ev.refined_spatial_grid.length
            ∧ (ev.foot x args d < (ev.refined_spatial_grid.axis d).tick 0
              ∨ (ev.refined_spatial_grid.axis d).tick ((ev.refined_spatial_grid.axis d).length - 1)
                  < ev.foot x args d)) := by
  unfold ExplicitEvent.skip
  simp only [List.any_eq_true, List.mem_range, Bool.and_eq_true, Bool.or_eq_true,
    decide_eq_true_eq, gt_iff_lt]
  constructor
  · rintro ⟨d, hd, hdrop, h⟩
    exact ⟨hdrop, d, hd, h⟩
  · rintro ⟨hdrop, d, hd, h⟩
    exact ⟨d, hd, hdrop, h⟩

/-- C8: under semi-Lagrangian handling, for every spatial node, `a` is the
maximum over the candidates not dropped of
`interpolate(previous solution, state + drift * dt) + flow * dt`, and
`-infinity` when every candidate is dropped; a candidate is dropped iff
`drop_semi_lagrangian_off_grid` is set and a coordinate of its foot point lies
strictly below the first or strictly above the last tick of its axis; the
control recorded for the node is the first candidate in grid order attaining
the maximum (nothing is recorded when every candidate is dropped). -/
theorem C8_semi_lagrangian_step (ev : ExplicitEvent) (vector : List ℚ) (st : EventState)
    (row : Nat) (hrow : row < ev.refined_spatial_grid.size)
    (hsl : ev.hjbqvi.semi_lagrangian = true) :
    ev.a vector row
        = (ev.refined_stochastic_control_grid.nodes.filterMap (fun node =>
            ev.semiLagrangianValue vector (coordinates ev.refined_spatial_grid row)
              (controlArgs ev.hjbqvi.StochasticControlDimension node))).maximum
      ∧ (∀ args,
          (ev.semiLagrangianValue vector (coordinates ev.refined_spatial_grid row) args = none ↔
            (ev.hjbqvi.drop_semi_lagrangian_off_grid = true
              ∧ ∃ d, d < ev.refined_spatial_grid.length
                ∧ (ev.foot (coordinates ev.refined_spatial_grid row) args d
                      < (ev.refined_spatial_grid.axis d).tick 0
                  ∨ (ev.refined_spatial_grid.axis d).tick
                        ((ev.refined_spatial_grid.axis d).length - 1)
                      < ev.foot (coordinates ev.refined_spatial_grid row) args d)))
          ∧ (∀ y, ev.semiLagrangianValue vector (coordinates ev.refined_spatial_grid row) args
                = some y →
              y = ev.interpolate ev.refined_spatial_grid vector
                    ((List.range ev.refined_spatial_grid.length).map
                      (fun d => (coordinates ev.refined_spatial_grid row).getD d 0
                        + ev.hjbqvi.controlled_drift d ev.time
                            (coordinates ev.refined_spatial_grid row) args * ev.dt))
                  + ev.hjbqvi.controlled_continuous_flow ev.time
                      (coordinates ev.refined_spatial_grid row) args * ev.dt))
      ∧ ((ev.a vector row = ⊥
            ∧ (∀ n ∈ ev.refined_stochastic_control_grid.nodes,
                ev.semiLagrangianValue vector (coordinates ev.refined_spatial_grid row)
                  (controlArgs ev.hjbqvi.StochasticControlDimension n) = none)
            ∧ ∀ d, (ev._doEvent vector st).2.stochastic_control_vector d row
                = st.stochastic_control_vector d row)
          ∨ ∃ l1 n l2 x, ev.refined_stochastic_control_grid.nodes = l1 ++ n :: l2
              ∧ ev.semiLagrangianValue vector (coordinates ev.refined_spatial_grid row)
                  (controlArgs ev.hjbqvi.StochasticControlDimension n) = some x
              ∧ ev.a vector row = (x : WithBot ℚ)
              ∧ (∀ m ∈ l1, ∀ y,
                  ev.semiLagrangianValue vector (coordinates ev.refined_spatial_grid row)
                    (controlArgs ev.hjbqvi.StochasticControlDimension m) = some y → y < x)
              ∧ (∀ m ∈ l2, ∀ y,
                  ev.semiLagrangianValue vector (coordinates ev.refined_spatial_grid row)
                    (controlArgs ev.hjbqvi.StochasticControlDimension m) = some y → y ≤ x)
              ∧ ∀ d, d < ev.hjbqvi.StochasticControlDimension →
                  (ev._doEvent vector st).2.stochastic_control_vector d row
                    = some (n.getD d 0)) := by
  have ha : ev.a vector row
      = (scanOptimalControl ev.hjbqvi.StochasticControlDimension
          (ev.semiLagrangianValue vector (coordinates ev.refined_spatial_grid row))
          ev.refined_stochastic_control_grid.nodes (⊥, none)).1 := by
    rw [ExplicitEvent.a_eq, if_pos hsl]
  have hrec : ev.stochasticRecord vector row
      = (scanOptimalControl ev.hjbqvi.StochasticControlDimension
          (ev.semiLagrangianValue vector (coordinates ev.refined_spatial_grid row))
          ev.refined_stochastic_control_grid.nodes (⊥, none)).2 := by
    unfold ExplicitEvent.stochasticRecord
    rw [if_pos hsl]
  refine ⟨?_, ?_, ?_⟩
  · rw [ha, scanOptimalControl_fst]
    simp
  · intro args
    constructor
    · rw [← ExplicitEvent.skip_iff]
      unfold ExplicitEvent.semiLagrangianValue
      by_cases hs : ev.skip (coordinates ev.refined_spatial_grid row) args = true
      · simp [hs]
      · simp [hs]
    · intro y hy
      unfold ExplicitEvent.semiLagrangianValue at hy
      by_cases hs : ev.skip (coordinates ev.refined_spatial_grid row) args = true
      · simp [hs] at hy
      · simp only [hs] at hy
        simp only [Bool.false_eq_true, if_false, Option.some.injEq] at hy
        rw [← hy]
        rfl
  · simp only [ExplicitEvent.stochastic_entry ev vector st _ row hrow, hrec, ha]
    exact scan_record_cases ev.hjbqvi.StochasticControlDimension row
      (ev.semiLagrangianValue vector (coordinates ev.refined_spatial_grid row))
      ev.refined_stochastic_control_grid.nodes st.stochastic_control_vector

/-- Instance of C8 on the example: at the node of row 1 (state 1) the
candidate with control 1 has its foot point at 2, off the grid, and is
dropped; `a = 7` is the value of the candidate with control 0, which is
recorded. -/
theorem C8_semi_lagrangian_step_witness :
    1 < (exampleEvent 0).refined_spatial_grid.size
      ∧ (exampleEvent 0).hjbqvi.semi_lagrangian = true
      ∧ (exampleEvent 0).a [5, 7] 1
          = ((exampleEvent 0).refined_stochastic_control_grid.nodes.filterMap (fun node =>
              (exampleEvent 0).semiLagrangianValue [5, 7]
                (coordinates (exampleEvent 0).refined_spatial_grid 1)
                (controlArgs (exampleEvent 0).hjbqvi.StochasticControlDimension node))).maximum
      ∧ (exampleEvent 0).a [5, 7] 1 = ((7 : ℚ) : WithBot ℚ)
      ∧ (exampleEvent 0).semiLagrangianValue [5, 7]
          (coordinates (exampleEvent 0).refined_spatial_grid 1) [1] = none
      ∧ ((exampleEvent 0)._doEvent [5, 7] exampleState).2.stochastic_control_vector 0 1
          = some 0 :=
  ⟨by decide, by decide,
    (C8_semi_lagrangian_step (exampleEvent 0) [5, 7] exampleState 1 (by decide) (by decide)).1,
    by decide!, by decide!, by decide!⟩


theorem ExplicitEvent.impulse_filterMap (ev : ExplicitEvent) (vector x : List ℚ)
    (nodes : List (List ℚ)) :
    nodes.filterMap (fun node =>
        ev.impulseValue vector x (controlArgs ev.hjbqvi.ImpulseControlDimension node))
      = nodes.map (fun node =>
          ev.interpolate ev.refined_spatial_grid vector
              ((List.range ev.refined_spatial_grid.length).map (fun d =>
                ev.hjbqvi.transition d ev.time x
                  (controlArgs ev.hjbqvi.ImpulseControlDimension node)))
            + ev.hjbqvi.impulse_flow ev.time x
                (controlArgs ev.hjbqvi.ImpulseControlDimension node)) := by
  induction nodes with
  | nil => rfl
  | cons h t ih =>
    rw [List.filterMap_cons, List.map_cons, ih]
    rfl

/-- C9: under explicit impulse handling, for every spatial node, `b` is the
maximum over all impulse-control candidates of
`interpolate(previous solution, transition(state, control)) + impulse_flow(state, control)`;
neither `b` nor the recorded impulse control depends on `dt`; the impulse
control recorded for the node is the first candidate in grid order attaining
the maximum. -/
theorem C9_explicit_impulse_step (ev : ExplicitEvent) (vector : List ℚ) (st : EventState)
    (row : Nat) (hrow : row < ev.refined_spatial_grid.size)
    (himp : ev.hjbqvi.explicit_impulse = true) :
    ev.b vector row
        = (ev.refined_impulse_control_grid.nodes.map (fun node =>
            ev.interpolate ev.refined_spatial_grid vector
                ((List.range ev.refined_spatial_grid.length).map (fun d =>
                  ev.hjbqvi.transition d ev.time (coordinates ev.refined_spatial_grid row)
                    (controlArgs ev.hjbqvi.ImpulseControlDimension node)))
              + ev.hjbqvi.impulse_flow ev.time (coordinates ev.refined_spatial_grid row)
                  (controlArgs ev.hjbqvi.ImpulseControlDimension node))).maximum
      ∧ (∀ dt' : ℚ,
          ({ ev with dt := dt' } : ExplicitEvent).b vector row = ev.b vector row
            ∧ ∀ d, (({ ev with dt := dt' } : ExplicitEvent)._doEvent vector st).2.impulse_control_vector
                      d row
                = (ev._doEvent vector st).2.impulse_control_vector d row)
      ∧ ((ev.refined_impulse_control_grid.nodes = [] ∧ ev.b vector row = ⊥
            ∧ ∀ d, (ev._doEvent vector st).2.impulse_control_vector d row
                = st.impulse_control_vector d row)
          ∨ ∃ l1 n l2 x, ev.refined_impulse_control_grid.nodes = l1 ++ n :: l2
              ∧ ev.impulseValue vector (coordinates ev.refined_spatial_grid row)
                  (controlArgs ev.hjbqvi.ImpulseControlDimension n) = some x
              ∧ ev.b vector row = (x : WithBot ℚ)
              ∧ (∀ m ∈ l1, ∀ y,
                  ev.impulseValue vector (coordinates ev.refined_spatial_grid row)
                    (controlArgs ev.hjbqvi.ImpulseControlDimension m) = some y → y < x)
              ∧ (∀ m ∈ l2, ∀ y,
                  ev.impulseValue vector (coordinates ev.refined_spatial_grid row)
                    (controlArgs ev.hjbqvi.ImpulseControlDimension m) = some y → y ≤ x)
              ∧ ∀ d, d < ev.hjbqvi.ImpulseControlDimension →
                  (ev._doEvent vector st).2.impulse_control_vector d row
                    = some (n.getD d 0)) := by
  have hb : ev.b vector row
      = (scanOptimalControl ev.hjbqvi.ImpulseControlDimension
          (ev.impulseValue vector (coordinates ev.refined_spatial_grid row))
          ev.refined_impulse_control_grid.nodes (⊥, none)).1 := by
    rw [ExplicitEvent.b_eq, if_pos himp]
  have hrec : ev.impulseRecord vector row
      = (scanOptimalControl ev.hjbqvi.ImpulseControlDimension
          (ev.impulseValue vector (coordinates ev.refined_spatial_grid row))
          ev.refined_impulse_control_grid.nodes (⊥, none)).2 := by
    unfold ExplicitEvent.impulseRecord
    rw [if_pos himp]
  refine ⟨?_, ?_, ?_⟩
  · rw [hb, scanOptimalControl_fst, ExplicitEvent.impulse_filterMap]
    simp
  · intro dt'
    refine ⟨rfl, ?_⟩
    intro d
    rw [ExplicitEvent.impulse_entry ev vector st d row hrow]
    exact ExplicitEvent.impulse_entry ({ ev with dt := dt' } : ExplicitEvent) vector st d row hrow
  · simp only [ExplicitEvent.impulse_entry ev vector st _ row hrow, hrec, hb]
    rcases scan_record_cases ev.hjbqvi.ImpulseControlDimension row
      (ev.impulseValue vector (coordinates ev.refined_spatial_grid row))
      ev.refined_impulse_control_grid.nodes st.impulse_control_vector with
      ⟨h1, h2, h3⟩ | h
    · left
      refine ⟨?_, h1, h3⟩
      cases hn : ev.refined_impulse_control_grid.nodes with
      | nil => rfl
      | cons n t =>
        have := h2 n (by rw [hn]; exact List.mem_cons_self n t)
        simp [ExplicitEvent.impulseValue] at this
    · right
      exact h

/-- Instance of C9 on the example with the impulse flow `1/2`: at the node of
row 0 the candidates have the values `11/2` and `15/2`; `b = 15/2` and the
impulse control 1 is recorded, whatever `dt`. -/
theorem C9_explicit_impulse_step_witness :
    0 < (exampleEvent (1 / 2)).refined_spatial_grid.size
      ∧ (exampleEvent (1 / 2)).hjbqvi.explicit_impulse = true
      ∧ ({ exampleEvent (1 / 2) with dt := 1 / 4 } : ExplicitEvent).b [5, 7] 0
          = (exampleEvent (1 / 2)).b [5, 7] 0
      ∧ (exampleEvent (1 / 2)).b [5, 7] 0 = (((15 : ℚ) / 2 : ℚ) : WithBot ℚ)
      ∧ ((exampleEvent (1 / 2))._doEvent [5, 7] exampleState).2.impulse_control_vector 0 0
          = some 1 :=
  ⟨by decide, by decide,
    ((C9_explicit_impulse_step (exampleEvent (1 / 2)) [5, 7] exampleState 0 (by decide)
      (by decide)).2.1 (1 / 4)).1,
    by decide!, by decide!⟩


/-! ## The control vectors of the result -/

/-- The loop `// Apply mask` in closed form. -/
theorem applyMask_apply (h : HJBQVIData) (mask : List Bool) (l : List Nat)
    (cv : ControlVectors × ControlVectors) (d i : Nat) :
    ((l.foldl
        (fun acc i =>
          if mask.getD i false then
            (setNaN h.StochasticControlDimension i acc.1, acc.2)
          else
            (acc.1, setNaN h.ImpulseControlDimension i acc.2))
        cv).1 d i
      = if i ∈ l ∧ mask.getD i false = true ∧ d < h.StochasticControlDimension then none
        else cv.1 d i)
    ∧ ((l.foldl
        (fun acc i =>
          if mask.getD i false then
            (setNaN h.StochasticControlDimension i acc.1, acc.2)
          else
            (acc.1, setNaN h.ImpulseControlDimension i acc.2))
        cv).2 d i
      = if i ∈ l ∧ mask.getD i false = false ∧ d < h.ImpulseControlDimension then none
        else cv.2 d i) := by
  induction l generalizing cv with
  | nil => simp
  | cons j t ih =>
    rw [List.foldl_cons]
    have := ih (if mask.getD j false then
            (setNaN h.StochasticControlDimension j cv.1, cv.2)
          else
            (cv.1, setNaN h.ImpulseControlDimension j cv.2))
    rw [this.1, this.2]
    by_cases hm : mask.getD j false = true
    · by_cases hij : i = j
      · subst hij
        constructor
        · simp only [hm, if_true, setNaN, List.mem_cons, true_or, true_and]
          split_ifs <;> simp_all
        · simp only [hm, if_true, List.mem_cons, true_or, true_and]
          split_ifs <;> simp_all
      · constructor <;>
          simp only [hm, if_true, setNaN, List.mem_cons, hij, false_or, false_and, if_false]
    · have hm' : mask.getD j false = false := by simpa using hm
      by_cases hij : i = j
      · subst hij
        constructor
        · simp only [hm', Bool.false_eq_true, if_false, List.mem_cons, true_or, true_and]
          split_ifs <;> simp_all
        · simp only [hm', Bool.false_eq_true, if_false, setNaN, List.mem_cons, true_or, true_and]
          split_ifs <;> simp_all
      · constructor <;>
          simp only [hm', Bool.false_eq_true, setNaN, List.mem_cons, hij, false_or, false_and,
            if_false]

/-- Under explicit handling with a non-empty impulse control grid, the event
leaves, at every node, numbers in the stochastic control entries where the
mask is false and in the impulse control entries where the mask is true. -/
theorem ExplicitEvent.active_entries (ev : ExplicitEvent) (vector : List ℚ) (st : EventState)
    (row : Nat) (hrow : row < ev.refined_spatial_grid.size)
    (hsl : ev.hjbqvi.semi_lagrangian = true) (himp : ev.hjbqvi.explicit_impulse = true)
    (hnodes : ev.refined_impulse_control_grid.nodes ≠ []) :
    ((ev._doEvent vector st).2.mask[row]? = some false →
        ∀ d, d < ev.hjbqvi.StochasticControlDimension →
          (ev._doEvent vector st).2.stochastic_control_vector d row ≠ none)
      ∧ ((ev._doEvent vector st).2.mask[row]? = some true →
        ∀ d, d < ev.hjbqvi.ImpulseControlDimension →
          (ev._doEvent vector st).2.impulse_control_vector d row ≠ none) := by
  have ha : ev.a vector row
      = (scanOptimalControl ev.hjbqvi.StochasticControlDimension
          (ev.semiLagrangianValue vector (coordinates ev.refined_spatial_grid row))
          ev.refined_stochastic_control_grid.nodes (⊥, none)).1 := by
    rw [ExplicitEvent.a_eq, if_pos hsl]
  have hb : ev.b vector row
      = (scanOptimalControl ev.hjbqvi.ImpulseControlDimension
          (ev.impulseValue vector (coordinates ev.refined_spatial_grid row))
          ev.refined_impulse_control_grid.nodes (⊥, none)).1 := by
    rw [ExplicitEvent.b_eq, if_pos himp]
  have hrecS : ev.stochasticRecord vector row
      = (scanOptimalControl ev.hjbqvi.StochasticControlDimension
          (ev.semiLagrangianValue vector (coordinates ev.refined_spatial_grid row))
          ev.refined_stochastic_control_grid.nodes (⊥, none)).2 := by
    unfold ExplicitEvent.stochasticRecord
    rw [if_pos hsl]
  have hrecI : ev.impulseRecord vector row
      = (scanOptimalControl ev.hjbqvi.ImpulseControlDimension
          (ev.impulseValue vector (coordinates ev.refined_spatial_grid row))
          ev.refined_impulse_control_grid.nodes (⊥, none)).2 := by
    unfold ExplicitEvent.impulseRecord
    rw [if_pos himp]
  -- the best impulse value is a number, and its control is recorded
  have hI := scan_record_cases ev.hjbqvi.ImpulseControlDimension row
    (ev.impulseValue vector (coordinates ev.refined_spatial_grid row))
    ev.refined_impulse_control_grid.nodes st.impulse_control_vector
  have hI' : ∃ (n : List ℚ) (x : ℚ), ev.b vector row = (x : WithBot ℚ)
      ∧ ∀ d, d < ev.hjbqvi.ImpulseControlDimension →
          (ev._doEvent vector st).2.impulse_control_vector d row = some (n.getD d 0) := by
    rcases hI with ⟨_, h2, _⟩ | ⟨l1, n, l2, x, _, _, h3, _, _, h6⟩
    · exfalso
      cases hn : ev.refined_impulse_control_grid.nodes with
      | nil => exact hnodes hn
      | cons n t =>
        have := h2 n (by rw [hn]; exact List.mem_cons_self n t)
        simp [ExplicitEvent.impulseValue] at this
    · refine ⟨n, x, by rw [hb, h3], ?_⟩
      intro d hd
      rw [ExplicitEvent.impulse_entry ev vector st d row hrow, hrecI]
      exact h6 d hd
  obtain ⟨n, x, hbx, hIrec⟩ := hI'
  rw [ExplicitEvent.mask_getElem ev vector st row hrow]
  constructor
  · intro hm d hd
    have hge : ev.a vector row ≥ ev.b vector row := by
      by_contra hcon
      simp [hcon] at hm
    have hS := scan_record_cases ev.hjbqvi.StochasticControlDimension row
      (ev.semiLagrangianValue vector (coordinates ev.refined_spatial_grid row))
      ev.refined_stochastic_control_grid.nodes st.stochastic_control_vector
    rcases hS with ⟨h1, _, _⟩ | ⟨l1, m, l2, y, _, _, _, _, _, h6⟩
    · exfalso
      rw [← ha] at h1
      rw [h1, hbx] at hge
      simp at hge
    · rw [ExplicitEvent.stochastic_entry ev vector st d row hrow, hrecS, h6 d hd]
      simp
  · intro _ d hd
    rw [hIrec d hd]
    simp

/-- C17: for every time, `ControlledOperator::b` has one entry per node; it is
the zero vector under semi-Lagrangian handling; otherwise its entry at every
node is `controlled_continuous_flow` at the time, the coordinates of the node
and the current control values of the node. -/
theorem C17_source_vector (op : ControlledOperator) (time : ℚ) :
    (op.b time).length = op.refined_spatial_grid.size
      ∧ (op.hjbqvi.semi_lagrangian = true →
          op.b time = List.replicate op.refined_spatial_grid.size 0)
      ∧ (op.hjbqvi.semi_lagrangian = false →
          ∀ row, row < op.refined_spatial_grid.size →
            (op.b time)[row]?
              = some (op.hjbqvi.controlled_continuous_flow time
                  (coordinates op.refined_spatial_grid row)
                  ((List.range op.hjbqvi.StochasticControlDimension).map
                    (fun d => op.control d row)))) := by
  refine ⟨by simp [ControlledOperator.b], ?_, ?_⟩
  · intro hsl
    unfold ControlledOperator.b
    simp only [hsl, if_true]
    apply List.ext_getElem
    · simp
    · intro n h1 h2
      simp
  · intro hsl row hrow
    unfold ControlledOperator.b ControlledOperator.q
    simp [hsl, List.getElem?_range hrow]

/-- Instance of C17: on the grid `0, 1, 2, 4` under the penalty method, with
the flow `x + 10 q` and the control `q = 3` everywhere, the entry of row 2 is
`2 + 30`. -/
theorem C17_source_vector_witness :
    ({ hjbqvi := { exampleProblem 0 HJBQVIControlMethod.PENALTY_METHOD none with
                    controlled_continuous_flow := fun _ x q => x.getD 0 0 + 10 * q.getD 0 0 }
       refined_spatial_grid := [[0, 1, 2, 4]]
       control := fun _ _ => 3 } : ControlledOperator).b 0 = [30, 31, 32, 34]
      ∧ (exampleOperator 0 none).b 0 = [0, 0, 0, 0]
      ∧ ((exampleOperator 0 none).b 0).length = (exampleOperator 0 none).refined_spatial_grid.size :=
  ⟨by decide!, by decide!, (C17_source_vector (exampleOperator 0 none) 0).1⟩

/-! ## The linear solvers -/

theorem BiCGSTABSolver.run_its (E : Eigen) (calls : List SolverCall) (s s' : LinearSolver)
    (rs : List (List ℚ)) (h : BiCGSTABSolver.run E calls s = some (s', rs)) :
    s'.its.length = s.its.length + SolverCall.solves calls
      ∧ rs.length = SolverCall.solves calls := by
  induction calls generalizing s s' rs with
  | nil =>
    simp only [BiCGSTABSolver.run, Option.some.injEq, Prod.mk.injEq] at h
    obtain ⟨h1, h2⟩ := h
    subst h1 h2
    simp [SolverCall.solves]
  | cons c rest ih =>
    cases c with
    | init A =>
      simp only [BiCGSTABSolver.run] at h
      cases hi : BiCGSTABSolver.init E s A with
      | none => rw [hi] at h; cases h
      | some s1 =>
        rw [hi] at h
        have := ih s1 s' rs h
        have hs1 : s1.its = s.its := by
          unfold BiCGSTABSolver.init at hi
          split_ifs at hi
          cases hi
          rfl
        rw [hs1] at this
        simpa [SolverCall.solves] using this
    | solve b guess =>
      simp only [BiCGSTABSolver.run] at h
      cases hi : BiCGSTABSolver.solve E s b guess with
      | none => rw [hi] at h; cases h
      | some vs =>
        obtain ⟨v, s1⟩ := vs
        rw [hi] at h
        simp only at h
        cases hr : BiCGSTABSolver.run E rest s1 with
        | none => rw [hr] at h; cases h
        | some sr =>
          obtain ⟨s2, rs2⟩ := sr
          rw [hr] at h
          simp only [Option.some.injEq, Prod.mk.injEq] at h
          obtain ⟨h1, h2⟩ := h
          subst h1 h2
          have := ih s1 s2 rs2 hr
          have hs1 : s1.its.length = s.its.length + 1 := by
            unfold BiCGSTABSolver.solve at hi
            simp only at hi
            split_ifs at hi
            cases hi
            simp
          have hcount : SolverCall.solves (SolverCall.solve b guess :: rest)
              = SolverCall.solves rest + 1 := by
            simp [SolverCall.solves]
          rw [hcount, List.length_cons]
          omega

theorem BiCGSTABSolver.run_isSome (E : Eigen) (calls : List SolverCall) (s : LinearSolver)
    (hc : ∀ A, E.bicgstab_compute_info A = true)
    (hs : ∀ A b guess, E.bicgstab_solve_info A b guess = true) :
    (BiCGSTABSolver.run E calls s).isSome = true := by
  induction calls generalizing s with
  | nil => rfl
  | cons c rest ih =>
    cases c with
    | init A =>
      simp only [BiCGSTABSolver.run, BiCGSTABSolver.init, hc, if_true]
      exact ih _
    | solve b guess =>
      simp only [BiCGSTABSolver.run, BiCGSTABSolver.solve, hs, if_true]
      have := ih { s with its := s.its ++ [(E.bicgstab_solveWithGuess s.A b guess).2] }
      cases hr : BiCGSTABSolver.run E rest
          { s with its := s.its ++ [(E.bicgstab_solveWithGuess s.A b guess).2] } with
      | none => rw [hr] at this; cases this
      | some sr => rfl

/-- C18: `SparseLUSolver::solve(b, guess)` returns the same result and leaves
the same solver for every guess; `BiCGSTABSolver::solve` (Eigen path) returns
`solveWithGuess(b, guess)` and appends the one count `solver.iterations()` to
`iterations()`; after any sequence of calls on a new `BiCGSTABSolver`,
`iterations()` has as many entries as there were `solve` calls, and as long as
Eigen reports success the sequence of calls does return. -/
theorem C18_solver_contract (E : Eigen) :
    (∀ s b guess1 guess2,
        SparseLUSolver.solve E s b guess1 = SparseLUSolver.solve E s b guess2)
      ∧ (∀ s b guess, E.bicgstab_solve_info s.A b guess = true →
          BiCGSTABSolver.solve E s b guess
            = some ((E.bicgstab_solveWithGuess s.A b guess).1,
                { s with its := s.its ++ [(E.bicgstab_solveWithGuess s.A b guess).2] }))
      ∧ (∀ calls s rs, BiCGSTABSolver.run E calls LinearSolver.new = some (s, rs) →
          s.iterations.length = SolverCall.solves calls ∧ rs.length = SolverCall.solves calls)
      ∧ ((∀ A, E.bicgstab_compute_info A = true) →
          (∀ A b guess, E.bicgstab_solve_info A b guess = true) →
          ∀ calls, (BiCGSTABSolver.run E calls LinearSolver.new).isSome = true) := by
  refine ⟨fun _ _ _ _ => rfl, ?_, ?_, ?_⟩
  · intro s b guess h
    simp [BiCGSTABSolver.solve, h]
  · intro calls s rs h
    have := BiCGSTABSolver.run_its E calls LinearSolver.new s rs h
    simpa [LinearSolver.new, LinearSolver.iterations] using this
  · intro hc hs calls
    exact BiCGSTABSolver.run_isSome E calls LinearSolver.new hc hs

/-- Instance of C18: three `solve` calls and one `initialize` on a new
`BiCGSTABSolver` leave three iteration counts; the direct solver ignores the
guess. -/
theorem C18_solver_contract_witness :
    (BiCGSTABSolver.run exampleEigen
        [SolverCall.init [], SolverCall.solve [1, 2] [0, 0], SolverCall.solve [1, 2] [3, 4],
          SolverCall.solve [5, 6] [1]] LinearSolver.new).map (fun r => (r.1.iterations, r.2))
      = some ([2, 2, 1], [[1, 2], [4, 6], [6]])
    ∧ SparseLUSolver.solve exampleEigen LinearSolver.new [1, 2] [0, 0]
      = SparseLUSolver.solve exampleEigen LinearSolver.new [1, 2] [7, 9] :=
  ⟨by decide!, (C18_solver_contract exampleEigen).1 LinearSolver.new [1, 2] [0, 0] [7, 9]⟩

/-! ## Construction and setters -/

theorem HJBQVIProblem.initial_fully_implicit (tolerance : ℚ) (args : ConstructorArguments) :
    (HJBQVIProblem.initial tolerance args).fully_implicit = true := by
  have h : (HJBQVIProblem.initial tolerance args).handling = HJBQVIControlMethod.PENALTY_METHOD :=
    rfl
  unfold HJBQVIData.fully_implicit
  rw [h]
  decide

theorem HJBQVIProblem.initial_not_iterated (tolerance : ℚ) (args : ConstructorArguments) :
    (HJBQVIProblem.initial tolerance args).iterated_optimal_stopping = false := by
  have h : (HJBQVIProblem.initial tolerance args).handling = HJBQVIControlMethod.PENALTY_METHOD :=
    rfl
  unfold HJBQVIData.iterated_optimal_stopping
  rw [h]
  decide

/-- The checks of the constructor on the freshly initialized members: only the
first and the third can fire. -/
theorem HJBQVIProblem.validate_initial (ios : Bool) (tolerance : ℚ)
    (args : ConstructorArguments) :
    HJBQVIProblem.validate ios (HJBQVIProblem.initial tolerance args)
      = if args.expiry ≤ 0 then Except.error "error: expiry must be positive"
        else if args.expiry < ⊤ ∧ args.timesteps ≤ 0 then
          Except.error "error: number of timesteps must be positive"
        else Except.ok () := by
  have hfi := HJBQVIProblem.initial_fully_implicit tolerance args
  have hios := HJBQVIProblem.initial_not_iterated tolerance args
  have hexp : (HJBQVIProblem.initial tolerance args).expiry = args.expiry := rfl
  have hts : (HJBQVIProblem.initial tolerance args).timesteps = args.timesteps := rfl
  have htarget : (HJBQVIProblem.initial tolerance args).target_timestep_relative_error = -1 := rfl
  unfold HJBQVIProblem.validate
  simp only [hfi, hios, hexp, hts, htarget]
  by_cases h1 : args.expiry ≤ 0
  · simp [h1]
  · by_cases h2 : args.expiry < ⊤
    · by_cases h3 : args.timesteps ≤ 0
      · simp [h1, h2, h3]
      · cases ios <;> simp [h1, h2, h3]
    · cases ios <;> simp [h1, h2]

/-- C11: the constructor throws if and only if `expiry ≤ 0`, or `expiry` is
finite and `timesteps ≤ 0`; every other pair is accepted and yields the
initialized object.  The outcome is a thrown text or the object, so a failure
leaves no object to compute with. -/
theorem C11_construction (ios : Bool) (tolerance : ℚ) (args : ConstructorArguments) :
    ((∃ e, HJBQVIProblem.construct ios tolerance args = Except.error e)
        ↔ (args.expiry ≤ 0 ∨ (args.expiry < ⊤ ∧ args.timesteps ≤ 0)))
      ∧ (¬ (args.expiry ≤ 0 ∨ (args.expiry < ⊤ ∧ args.timesteps ≤ 0)) →
          HJBQVIProblem.construct ios tolerance args
            = Except.ok (HJBQVIProblem.initial tolerance args))
      ∧ (args.expiry ≤ 0 →
          HJBQVIProblem.construct ios tolerance args
            = Except.error "error: expiry must be positive")
      ∧ (¬ args.expiry ≤ 0 → args.expiry < ⊤ ∧ args.timesteps ≤ 0 →
          HJBQVIProblem.construct ios tolerance args
            = Except.error "error: number of timesteps must be positive") := by
  have hv := HJBQVIProblem.validate_initial ios tolerance args
  unfold HJBQVIProblem.construct
  rw [hv]
  by_cases h1 : args.expiry ≤ 0
  · simp [h1]
  · by_cases h2 : args.expiry < ⊤ ∧ args.timesteps ≤ 0
    · simp [h1, h2]
    · simp only [h1, h2, if_false, false_or]
      simp

/-- Instance of C11: a finite expiry with zero timesteps is rejected, an
infinite expiry with zero timesteps is accepted. -/
theorem C11_construction_witness :
    (∃ e, HJBQVIProblem.construct false 0 (exampleArguments 0 1) = Except.error e)
      ∧ HJBQVIProblem.construct false 0 (exampleArguments 0 ⊤)
          = Except.ok (HJBQVIProblem.initial 0 (exampleArguments 0 ⊤)) :=
  ⟨(C11_construction false 0 (exampleArguments 0 1)).1.mpr (Or.inr (by decide!)),
    (C11_construction false 0 (exampleArguments 0 ⊤)).2.1 (by decide!)⟩

/-- What holds of every object that exists: the members that no setter changes
keep the values the constructor accepted or set, and the handling and the
solver are among the values the constructor and the setters assign. -/
theorem Reachable.invariants {ios : Bool} {tolerance : ℚ} {p : HJBQVIProblem}
    (h : Reachable ios tolerance p) :
    0 < p.expiry ∧ (p.expiry < ⊤ → 0 < p.timesteps)
      ∧ p.scaling_factor = 1 / 100 ∧ p.iteration_tolerance = tolerance
      ∧ p.target_timestep_relative_error = -1
      ∧ (p.handling = HJBQVIControlMethod.PENALTY_METHOD
          ∨ p.handling = HJBQVIControlMethod.DIRECT_CONTROL
          ∨ p.handling = HJBQVIControlMethod.EXPLICIT_CONTROL)
      ∧ (p.solver = HJBQVISolver.BICGSTAB ∨ p.solver = HJBQVISolver.SPARSE_LU) := by
  induction h with
  | construct args p hc =>
    have hv := HJBQVIProblem.validate_initial ios tolerance args
    unfold HJBQVIProblem.construct at hc
    rw [hv] at hc
    by_cases h1 : args.expiry ≤ 0
    · simp [h1] at hc
    · by_cases h2 : args.expiry < ⊤ ∧ args.timesteps ≤ 0
      · simp [h1, h2] at hc
      · simp only [h1, h2, if_false] at hc
        simp only [Except.ok.injEq] at hc
        subst hc
        refine ⟨not_le.mp h1, ?_, rfl, rfl, rfl, Or.inl rfl, Or.inl rfl⟩
        intro hfin
        by_contra hts
        exact h2 ⟨hfin, not_lt.mp hts⟩
  | setter s p _ ih =>
    obtain ⟨h1, h2, h3, h4, h5, h6, h7⟩ := ih
    cases s <;>
      first
        | exact ⟨h1, h2, h3, h4, h5, h6, h7⟩
        | exact ⟨h1, h2, h3, h4, h5, Or.inl rfl, h7⟩
        | exact ⟨h1, h2, h3, h4, h5, Or.inr (Or.inl rfl), h7⟩
        | exact ⟨h1, h2, h3, h4, h5, Or.inr (Or.inr rfl), h7⟩
        | exact ⟨h1, h2, h3, h4, h5, h6, Or.inl rfl⟩
        | exact ⟨h1, h2, h3, h4, h5, h6, Or.inr rfl⟩

/-- The object constructed with one timestep and an infinite expiry, after
`useSemiLagrangianScheme()`: it exists, its expiry is infinite and its handling
is not fully implicit; the second check of the constructor, run on it, throws;
`solve(0)` on it throws nothing and adds an event to the null stepper. -/
theorem C12_infinite_horizon_explicit :
    HJBQVIProblem.construct false 0 (exampleArguments 1 ⊤)
        = Except.ok (HJBQVIProblem.initial 0 (exampleArguments 1 ⊤))
      ∧ Reachable false 0
          (Setter.useSemiLagrangianScheme.apply (HJBQVIProblem.initial 0 (exampleArguments 1 ⊤)))
      ∧ (Setter.useSemiLagrangianScheme.apply
          (HJBQVIProblem.initial 0 (exampleArguments 1 ⊤))).expiry = ⊤
      ∧ (Setter.useSemiLagrangianScheme.apply
          (HJBQVIProblem.initial 0 (exampleArguments 1 ⊤))).fully_implicit = false
      ∧ HJBQVIProblem.validate false
          (Setter.useSemiLagrangianScheme.apply (HJBQVIProblem.initial 0 (exampleArguments 1 ⊤)))
        = Except.error
            "error: only an implicit method can be used for infinite-horizon problems"
      ∧ (Setter.useSemiLagrangianScheme.apply
          (HJBQVIProblem.initial 0 (exampleArguments 1 ⊤))).solve exampleLibrary 0
            (exampleRun none)
        = Except.error Undefined.null_stepper := by
  have hc : HJBQVIProblem.construct false 0 (exampleArguments 1 ⊤)
      = Except.ok (HJBQVIProblem.initial 0 (exampleArguments 1 ⊤)) := by
    unfold HJBQVIProblem.construct
    rw [HJBQVIProblem.validate_initial]
    have h1 : ¬ (exampleArguments 1 ⊤).expiry ≤ 0 := by decide!
    have h2 : ¬ ((exampleArguments 1 ⊤).expiry < ⊤ ∧ (exampleArguments 1 ⊤).timesteps ≤ 0) := by
      decide!
    simp only [h1, h2, if_false]
  refine ⟨hc, Reachable.setter _ _ (Reachable.construct _ _ hc), rfl, by decide, ?_, by decide!⟩
  unfold HJBQVIProblem.validate
  have h1 : ¬ (Setter.useSemiLagrangianScheme.apply
      (HJBQVIProblem.initial 0 (exampleArguments 1 ⊤))).expiry ≤ 0 := by decide!
  have h2 : ¬ (Setter.useSemiLagrangianScheme.apply
      (HJBQVIProblem.initial 0 (exampleArguments 1 ⊤))).expiry < ⊤ := by decide!
  have h3 : (Setter.useSemiLagrangianScheme.apply
      (HJBQVIProblem.initial 0 (exampleArguments 1 ⊤))).fully_implicit = false := by decide
  simp [h1, h2, h3]

/-! ## The method `solve`: refinement of the parameters -/

theorem fitsInt_double (t : Int) (n : Nat) (h : fitsInt (t * 2 ^ (n + 1)) = true) :
    fitsInt (t * 2) = true := by
  unfold fitsInt INT_MIN INT_MAX at *
  simp only [decide_eq_true_eq] at *
  have hp : (1 : Int) ≤ 2 ^ n := by
    have : (0 : Int) < 2 ^ n := by positivity
    omega
  have he : t * 2 ^ (n + 1) = (t * 2) * 2 ^ n := by ring
  rw [he] at h
  rcases le_or_lt 0 t with ht | ht
  · have : t * 2 ≤ (t * 2) * 2 ^ n := by nlinarith
    constructor <;> omega
  · have : (t * 2) * 2 ^ n ≤ t * 2 := by nlinarith
    constructor <;> omega

/-- The refinement loop without overflow: `n` doublings of the timesteps and
`n` halvings of the target. -/
theorem refineParameters_ok (n : Nat) (t : Int) (target : ℚ)
    (h : fitsInt (t * 2 ^ n) = true) :
    refineParameters n (t, target) = Except.ok (t * 2 ^ n, target / 2 ^ n) := by
  induction n generalizing t target with
  | zero => simp [refineParameters]
  | succ n ih =>
    have h2 := fitsInt_double t n h
    unfold refineParameters
    simp only [h2, if_true]
    have he : t * 2 ^ (n + 1) = (t * 2) * 2 ^ n := by ring
    rw [he] at h
    rw [ih (t * 2) (target / 2) h, he]
    congr 2
    rw [pow_succ]
    field_simp
    left
    ring

/-- The set-up of `solve` when no `int` overflows and no event is added to a
null stepper. -/
theorem HJBQVIProblem.solveSetup_ok (p : HJBQVIProblem) (lib : Library) (refinement : Int)
    (hfit : fitsInt (p.timesteps * 2 ^ refinement.toNat) = true)
    (hstep : p.fully_implicit = true ∨ p.expiry < ⊤ ∨ p.timesteps * 2 ^ refinement.toNat ≤ 0) :
    ∃ setup, p.solveSetup lib refinement = Except.ok setup
      ∧ setup.timesteps = p.timesteps * 2 ^ refinement.toNat
      ∧ setup.target = p.target_timestep_relative_error / 2 ^ refinement.toNat
      ∧ setup.dt = ExtendedReal.div (ExtendedReal.ofExpiry p.expiry)
          (ExtendedReal.ofInt (p.timesteps * 2 ^ refinement.toNat))
      ∧ setup.scaling_factor_dt = ExtendedReal.mul (ExtendedReal.finite p.scaling_factor)
          (ExtendedReal.div (ExtendedReal.ofExpiry p.expiry)
            (ExtendedReal.ofInt (p.timesteps * 2 ^ refinement.toNat)))
      ∧ setup.finite_horizon = decide (p.expiry < ⊤)
      ∧ setup.refined_spatial_grid = lib.refined p.spatial_grid refinement
      ∧ setup.solver
          = (if p.bicgstab then some SolverKind.BiCGSTABSolver
             else if p.sparse_lu then some SolverKind.SparseLUSolver else none)
      ∧ setup.events
          = (if p.fully_implicit = false ∧ 0 < p.timesteps * 2 ^ refinement.toNat then
              (List.range (p.timesteps * 2 ^ refinement.toNat).toNat).map (fun (e : Nat) =>
                (ExtendedReal.mul (ExtendedReal.ofInt (e : Int))
                  (ExtendedReal.div (ExtendedReal.ofExpiry p.expiry)
                    (ExtendedReal.ofInt (p.timesteps * 2 ^ refinement.toNat))),
                 ExtendedReal.div (ExtendedReal.ofExpiry p.expiry)
                    (ExtendedReal.ofInt (p.timesteps * 2 ^ refinement.toNat))))
             else []) := by
  have href := refineParameters_ok refinement.toNat p.timesteps
    p.target_timestep_relative_error hfit
  unfold HJBQVIProblem.solveSetup
  simp only [href]
  unfold HJBQVIProblem.addEvents
  by_cases hfi : p.fully_implicit = true
  · simp [hfi]
  · have hfi' : p.fully_implicit = false := by simpa using hfi
    by_cases hT : p.timesteps * 2 ^ refinement.toNat ≤ 0
    · simp [hfi', hT, not_lt.mpr hT]
    · have hfin : p.expiry < ⊤ := by
        rcases hstep with h | h | h
        · exact absurd h hfi
        · exact h
        · exact absurd h hT
      by_cases hv : p.target_timestep_relative_error > 0
      · simp [hfi', hT, hfin, hv, not_le.mp hT]
      · simp [hfi', hT, hfin, hv, not_le.mp hT]

/-- The method `solve` when no `int` overflows, no event is added to a null
stepper and the solver is one of the two. -/
theorem HJBQVIProblem.solve_ok (p : HJBQVIProblem) (lib : Library) (refinement : Int)
    (run : SolveRun) (setup : SolveSetup)
    (hsetup : p.solveSetup lib refinement = Except.ok setup)
    (hsolver : p.solver = HJBQVISolver.BICGSTAB ∨ p.solver = HJBQVISolver.SPARSE_LU)
    (hs : setup.solver
          = (if p.bicgstab then some SolverKind.BiCGSTABSolver
             else if p.sparse_lu then some SolverKind.SparseLUSolver else none)) :
    p.solve lib refinement run = Except.ok (p.result setup (lib.iterate p setup) run) := by
  unfold HJBQVIProblem.solve
  rw [hsetup]
  simp only
  have : ∃ k, setup.solver = some k := by
    rw [hs]
    rcases hsolver with h | h
    · refine ⟨SolverKind.BiCGSTABSolver, ?_⟩
      have hb : p.bicgstab = true := by
        unfold HJBQVIProblem.bicgstab
        rw [h]
        decide
      simp [hb]
    · have hb : p.bicgstab = false := by
        unfold HJBQVIProblem.bicgstab
        rw [h]
        decide
      have hl : p.sparse_lu = true := by
        unfold HJBQVIProblem.sparse_lu
        rw [h]
        decide
      exact ⟨SolverKind.SparseLUSolver, by simp [hb, hl]⟩
  obtain ⟨k, hk⟩ := this
  rw [hk]

theorem ExtendedReal.ofExpiry_coe (x : ℚ) :
    ExtendedReal.ofExpiry ((x : ℚ) : WithTop ℚ) = ExtendedReal.finite x := rfl

theorem ExtendedReal.ofExpiry_top : ExtendedReal.ofExpiry (⊤ : WithTop ℚ) = ExtendedReal.posInf :=
  rfl

/-- The step size of a finite horizon with a positive number of timesteps. -/
theorem ExtendedReal.div_finite_pos (x : ℚ) (T : Int) (hT : 0 < T) :
    ExtendedReal.div (ExtendedReal.finite x) (ExtendedReal.ofInt T)
      = ExtendedReal.finite (x / (T : ℚ)) := by
  have : ((T : ℚ)) ≠ 0 := by
    have : (0 : ℚ) < (T : ℚ) := by exact_mod_cast hT
    exact this.ne'
  simp [ExtendedReal.div, ExtendedReal.ofInt, this]

theorem refined_timesteps_pos (t : Int) (n : Nat) (h : 0 < t) : 0 < t * 2 ^ n := by
  positivity

/-- C13, refuted as stated: with one timestep and expiry 1, `solve(31)` doubles
the `int` timesteps 31 times; `2^31` is not an `int`, so the signed
multiplication overflows and no step count `timesteps * 2^31` is used or
returned. -/
theorem C13_refinement_overflow_counterexample :
    Reachable false 0 (HJBQVIProblem.initial 0 (exampleArguments 1 1))
      ∧ (HJBQVIProblem.initial 0 (exampleArguments 1 1)).expiry = ((1 : ℚ) : WithTop ℚ)
      ∧ INT_MAX < (HJBQVIProblem.initial 0 (exampleArguments 1 1)).timesteps * 2 ^ 31
      ∧ refineParameters 31 (1, -1) = Except.error Undefined.signed_overflow
      ∧ (HJBQVIProblem.initial 0 (exampleArguments 1 1)).solve exampleLibrary 31 (exampleRun none)
          = Except.error Undefined.signed_overflow := by
  refine ⟨Reachable.construct (exampleArguments 1 1) _ ?_, rfl, by decide, by decide!, by decide!⟩
  unfold HJBQVIProblem.construct
  rw [HJBQVIProblem.validate_initial]
  have h1 : ¬ (exampleArguments 1 1).expiry ≤ 0 := by decide!
  have h2 : ¬ ((exampleArguments 1 1).expiry < ⊤ ∧ (exampleArguments 1 1).timesteps ≤ 0) := by
    decide!
  simp only [h1, h2, if_false]

/-- C13, amended: for every object that exists and every refinement level
`r ≥ 0` for which `timesteps * 2^r` is an `int`: with a finite expiry `solve`
uses `timesteps * 2^r` timesteps, the step size `expiry / (timesteps * 2^r)`
and the target `target / 2^r`, and returns a `Result` whose `timesteps` is
`timesteps * 2^r`; with an infinite expiry and fully implicit handling it
returns a `Result` whose `timesteps` is 0. -/
theorem C13_refinement_scaling (ios : Bool) (tolerance : ℚ) (p : HJBQVIProblem) (lib : Library)
    (r : Int) (run : SolveRun) (hreach : Reachable ios tolerance p) (_hr : 0 ≤ r)
    (hfit : fitsInt (p.timesteps * 2 ^ r.toNat) = true) :
    (∀ x : ℚ, p.expiry = ((x : ℚ) : WithTop ℚ) →
        ∃ setup result, p.solveSetup lib r = Except.ok setup
          ∧ setup.timesteps = p.timesteps * 2 ^ r.toNat
          ∧ setup.dt = ExtendedReal.finite (x / ((p.timesteps * 2 ^ r.toNat : Int) : ℚ))
          ∧ setup.target = p.target_timestep_relative_error / 2 ^ r.toNat
          ∧ p.solve lib r run = Except.ok result
          ∧ result.timesteps = p.timesteps * 2 ^ r.toNat)
      ∧ (p.expiry = ⊤ → p.fully_implicit = true →
        ∃ result, p.solve lib r run = Except.ok result ∧ result.timesteps = 0) := by
  obtain ⟨_, hts, _, _, _, _, hsolver⟩ := hreach.invariants
  constructor
  · intro x hx
    have hfin : p.expiry < ⊤ := by
      rw [hx]
      exact WithTop.coe_lt_top x
    have hT := refined_timesteps_pos p.timesteps r.toNat (hts hfin)
    obtain ⟨setup, hsetup, h1, h2, h3, _, h5, _, h7, _⟩ :=
      p.solveSetup_ok lib r hfit (Or.inr (Or.inl hfin))
    refine ⟨setup, p.result setup (lib.iterate p setup) run, hsetup, h1, ?_, h2,
      p.solve_ok lib r run setup hsetup hsolver h7, ?_⟩
    · rw [h3, hx, ExtendedReal.ofExpiry_coe, ExtendedReal.div_finite_pos x _ hT]
    · show (if setup.finite_horizon then setup.timesteps else 0) = _
      rw [h5, h1]
      simp [hfin]
  · intro hx hfi
    have hnfin : ¬ p.expiry < ⊤ := by
      rw [hx]
      exact lt_irrefl _
    obtain ⟨setup, hsetup, _, _, _, _, h5, _, h7, _⟩ :=
      p.solveSetup_ok lib r hfit (Or.inl hfi)
    refine ⟨p.result setup (lib.iterate p setup) run,
      p.solve_ok lib r run setup hsetup hsolver h7, ?_⟩
    show (if setup.finite_horizon then setup.timesteps else 0) = _
    rw [h5]
    simp [hnfin]

/-- Instance of the amended C13: two timesteps, expiry 1, refinement level 3:
sixteen timesteps of size `1/16`, and the target `-1/8`. -/
theorem C13_refinement_scaling_witness :
    Reachable false 0 (HJBQVIProblem.initial 0 (exampleArguments 2 1))
      ∧ fitsInt ((HJBQVIProblem.initial 0 (exampleArguments 2 1)).timesteps * 2 ^ (3 : Int).toNat)
          = true
      ∧ (∃ setup result,
          (HJBQVIProblem.initial 0 (exampleArguments 2 1)).solveSetup exampleLibrary 3
              = Except.ok setup
            ∧ setup.timesteps
                = (HJBQVIProblem.initial 0 (exampleArguments 2 1)).timesteps * 2 ^ (3 : Int).toNat
            ∧ setup.dt = ExtendedReal.finite (1 / (((HJBQVIProblem.initial 0
                (exampleArguments 2 1)).timesteps * 2 ^ (3 : Int).toNat : Int) : ℚ))
            ∧ setup.target
                = (HJBQVIProblem.initial 0 (exampleArguments 2 1)).target_timestep_relative_error
                    / 2 ^ (3 : Int).toNat
            ∧ (HJBQVIProblem.initial 0 (exampleArguments 2 1)).solve exampleLibrary 3
                (exampleRun none) = Except.ok result
            ∧ result.timesteps
                = (HJBQVIProblem.initial 0 (exampleArguments 2 1)).timesteps * 2 ^ (3 : Int).toNat)
      ∧ ((HJBQVIProblem.initial 0 (exampleArguments 2 1)).solve exampleLibrary 3
            (exampleRun none)).toOption.map (fun result => result.timesteps) = some 16 := by
  have hreach : Reachable false 0 (HJBQVIProblem.initial 0 (exampleArguments 2 1)) := by
    refine Reachable.construct (exampleArguments 2 1) _ ?_
    unfold HJBQVIProblem.construct
    rw [HJBQVIProblem.validate_initial]
    have h1 : ¬ (exampleArguments 2 1).expiry ≤ 0 := by decide!
    have h2 : ¬ ((exampleArguments 2 1).expiry < ⊤ ∧ (exampleArguments 2 1).timesteps ≤ 0) := by
      decide!
    simp only [h1, h2, if_false]
  exact ⟨hreach, by decide,
    (C13_refinement_scaling false 0 _ exampleLibrary 3 (exampleRun none) hreach (by decide)
      (by decide)).1 1 rfl,
    by decide!⟩

/-! ## The method `solve`: the diagnostics of the result -/

theorem ExtendedReal.mean_ne_nan (its : List Nat) (h : its ≠ []) :
    ExtendedReal.mean its ≠ ExtendedReal.nan := by
  have hlen : ((its.length : Nat) : ℚ) ≠ 0 := by
    have : its.length ≠ 0 := fun h0 => h (List.length_eq_zero.mp h0)
    exact_mod_cast this
  simp [ExtendedReal.mean, ExtendedReal.div, hlen]

/-- The realized penalty scaling of an object that exists is never
not-a-number. -/
theorem ExtendedReal.scaling_ne_nan (sf : ℚ) (e : WithTop ℚ) (T : Int) (hsf : sf ≠ 0)
    (he : 0 < e) (hT : e < ⊤ → 0 < T) :
    ExtendedReal.mul (ExtendedReal.finite sf)
        (ExtendedReal.div (ExtendedReal.ofExpiry e) (ExtendedReal.ofInt T))
      ≠ ExtendedReal.nan := by
  induction e using WithTop.recTopCoe with
  | top =>
    rw [ExtendedReal.ofExpiry_top]
    unfold ExtendedReal.ofInt ExtendedReal.div
    by_cases h0 : (0 : ℚ) ≤ (T : ℚ)
    · simp only [h0, if_true]
      unfold ExtendedReal.mul
      simp only [hsf, if_false]
      split_ifs <;> simp
    · simp only [h0, if_false]
      unfold ExtendedReal.mul
      simp only [hsf, if_false]
      split_ifs <;> simp
  | coe x =>
    have hTpos := hT (WithTop.coe_lt_top x)
    rw [ExtendedReal.ofExpiry_coe, ExtendedReal.div_finite_pos x T hTpos]
    simp [ExtendedReal.mul]

/-- C14: in the `Result` that `solve` returns for an object that exists (with
fully implicit handling if the expiry is infinite, no `int` overflow, and a
tolerance iteration that has recorded a count), `scaling_factor`,
`iteration_tolerance` and `mean_inner_iterations` are not-a-number exactly
when `explicit_control()` holds; otherwise `iteration_tolerance` is the
configured tolerance and `scaling_factor` is the configured scaling factor
times `dt = expiry / (timesteps * 2^refinement)`. -/
theorem C14_result_diagnostics (ios : Bool) (tolerance : ℚ) (p : HJBQVIProblem) (lib : Library)
    (r : Int) (run : SolveRun) (hreach : Reachable ios tolerance p)
    (hfit : fitsInt (p.timesteps * 2 ^ r.toNat) = true)
    (hvalid : p.expiry = ⊤ → p.fully_implicit = true)
    (hits : ∀ setup, p.solveSetup lib r = Except.ok setup →
      (lib.iterate p setup).tolerance_iterations ≠ []) :
    ∃ result, p.solve lib r run = Except.ok result
      ∧ (result.scaling_factor = ExtendedReal.nan ↔ p.explicit_control = true)
      ∧ (result.iteration_tolerance = ExtendedReal.nan ↔ p.explicit_control = true)
      ∧ (result.mean_inner_iterations = ExtendedReal.nan ↔ p.explicit_control = true)
      ∧ (p.explicit_control = false →
          result.iteration_tolerance = ExtendedReal.finite tolerance
            ∧ result.scaling_factor
                = ExtendedReal.mul (ExtendedReal.finite p.scaling_factor)
                    (ExtendedReal.div (ExtendedReal.ofExpiry p.expiry)
                      (ExtendedReal.ofInt (p.timesteps * 2 ^ r.toNat)))
            ∧ ∀ x : ℚ, p.expiry = ((x : ℚ) : WithTop ℚ) →
                result.scaling_factor
                  = ExtendedReal.finite
                      (p.scaling_factor * (x / ((p.timesteps * 2 ^ r.toNat : Int) : ℚ)))) := by
  obtain ⟨hexp, hts, hsf, htol, _, _, hsolver⟩ := hreach.invariants
  have hstep : p.fully_implicit = true ∨ p.expiry < ⊤ ∨ p.timesteps * 2 ^ r.toNat ≤ 0 := by
    by_cases hfin : p.expiry < ⊤
    · exact Or.inr (Or.inl hfin)
    · exact Or.inl (hvalid (not_lt_top_iff.mp hfin))
  obtain ⟨setup, hsetup, _, _, _, h4, _, _, h7, _⟩ := p.solveSetup_ok lib r hfit hstep
  have hT : p.expiry < ⊤ → 0 < p.timesteps * 2 ^ r.toNat :=
    fun hfin => refined_timesteps_pos p.timesteps r.toNat (hts hfin)
  have hsf0 : p.scaling_factor ≠ 0 := by rw [hsf]; norm_num
  have hscal := ExtendedReal.scaling_ne_nan p.scaling_factor p.expiry
    (p.timesteps * 2 ^ r.toNat) hsf0 hexp hT
  have hmean := ExtendedReal.mean_ne_nan _ (hits setup hsetup)
  refine ⟨p.result setup (lib.iterate p setup) run,
    p.solve_ok lib r run setup hsetup hsolver h7, ?_, ?_, ?_, ?_⟩
  · show (if p.explicit_control then ExtendedReal.nan else setup.scaling_factor_dt) = _ ↔ _
    cases hec : p.explicit_control with
    | true => simp
    | false =>
      rw [h4]
      simp [hscal]
  · show (if p.explicit_control then ExtendedReal.nan
        else ExtendedReal.finite p.iteration_tolerance) = _ ↔ _
    cases hec : p.explicit_control <;> simp
  · show (if !p.explicit_control then ExtendedReal.mean (lib.iterate p setup).tolerance_iterations
        else ExtendedReal.nan) = _ ↔ _
    cases hec : p.explicit_control with
    | true => simp
    | false => simp [hmean]
  · intro hec
    refine ⟨?_, ?_, ?_⟩
    · show (if p.explicit_control then ExtendedReal.nan
          else ExtendedReal.finite p.iteration_tolerance) = _
      rw [hec, htol]
      rfl
    · show (if p.explicit_control then ExtendedReal.nan else setup.scaling_factor_dt) = _
      rw [hec, h4]
      rfl
    · intro x hx
      show (if p.explicit_control then ExtendedReal.nan else setup.scaling_factor_dt) = _
      have hfin : p.expiry < ⊤ := by
        rw [hx]
        exact WithTop.coe_lt_top x
      rw [hec, h4, hx, ExtendedReal.ofExpiry_coe, ExtendedReal.div_finite_pos x _ (hT hfin)]
      rfl

theorem exampleProblem_reachable (timesteps : Int) (x : ℚ) (hx : 0 < x) (ht : 0 < timesteps) :
    Reachable false (1 / 1000000)
      (HJBQVIProblem.initial (1 / 1000000) (exampleArguments timesteps ((x : ℚ) : WithTop ℚ))) := by
  refine Reachable.construct (exampleArguments timesteps ((x : ℚ) : WithTop ℚ)) _ ?_
  unfold HJBQVIProblem.construct
  rw [HJBQVIProblem.validate_initial]
  have h1 : ¬ (exampleArguments timesteps ((x : ℚ) : WithTop ℚ)).expiry ≤ 0 := by
    show ¬ ((x : ℚ) : WithTop ℚ) ≤ 0
    rw [not_le]
    exact_mod_cast hx
  have h2 : ¬ ((exampleArguments timesteps ((x : ℚ) : WithTop ℚ)).expiry < ⊤
      ∧ (exampleArguments timesteps ((x : ℚ) : WithTop ℚ)).timesteps ≤ 0) := by
    intro h
    have : timesteps ≤ 0 := h.2
    omega
  simp only [h1, h2, if_false]

/-- Instance of C14: two timesteps, expiry 1, refinement level 0.  Under the
penalty method the result carries the scaling `1/100 * 1/2`, the configured
tolerance and the mean of the recorded counts; after
`useSemiLagrangianScheme()` all three are not-a-number. -/
theorem C14_result_diagnostics_witness :
    (∃ result,
        (HJBQVIProblem.initial (1 / 1000000) (exampleArguments 2 ((1 : ℚ) : WithTop ℚ))).solve
            exampleLibrary 0 (exampleRun none) = Except.ok result
          ∧ (result.scaling_factor = ExtendedReal.nan
              ↔ (HJBQVIProblem.initial (1 / 1000000)
                  (exampleArguments 2 ((1 : ℚ) : WithTop ℚ))).explicit_control = true))
      ∧ ((HJBQVIProblem.initial (1 / 1000000) (exampleArguments 2 ((1 : ℚ) : WithTop ℚ))).solve
            exampleLibrary 0 (exampleRun none)).toOption.map
          (fun result =>
            (result.scaling_factor, result.iteration_tolerance, result.mean_inner_iterations))
        = some (ExtendedReal.finite (1 / 200), ExtendedReal.finite (1 / 1000000),
            ExtendedReal.finite 1)
      ∧ ((Setter.useSemiLagrangianScheme.apply
            (HJBQVIProblem.initial (1 / 1000000)
              (exampleArguments 2 ((1 : ℚ) : WithTop ℚ)))).solve
            exampleLibrary 0 (exampleRun none)).toOption.map
          (fun result =>
            (result.scaling_factor, result.iteration_tolerance, result.mean_inner_iterations))
        = some (ExtendedReal.nan, ExtendedReal.nan, ExtendedReal.nan) := by
  have hreach := exampleProblem_reachable 2 1 (by norm_num) (by norm_num)
  have hfit : fitsInt ((HJBQVIProblem.initial (1 / 1000000)
      (exampleArguments 2 ((1 : ℚ) : WithTop ℚ))).timesteps * 2 ^ (0 : Int).toNat) = true := by
    decide
  have hmain := C14_result_diagnostics false (1 / 1000000) _ exampleLibrary 0 (exampleRun none)
    hreach hfit (fun h => by cases h)
    (fun setup hsetup => by
      obtain ⟨s, hs, ht, _⟩ := HJBQVIProblem.solveSetup_ok
        (HJBQVIProblem.initial (1 / 1000000) (exampleArguments 2 ((1 : ℚ) : WithTop ℚ)))
        exampleLibrary 0 hfit (Or.inl rfl)
      rw [hs] at hsetup
      cases hsetup
      show List.replicate setup.timesteps.toNat 1 ≠ []
      rw [ht]
      decide)
  obtain ⟨result, h1, h2, _⟩ := hmain
  exact ⟨⟨result, h1, h2⟩, by decide!, by decide!⟩

/-! ## The method `solve`: the explicit events -/

namespace IteratedOptimalStopping

theorem timestepLoop_succ (S : IteratedOptimalStopping) (st : IOSState) (m : Nat) :
    S.timestepLoop st (m + 1)
      = S.timestep st.its st.first st.u_last (S.timestepLoop st m) (m + 1) := by
  simp [timestepLoop, List.range_succ, List.foldl_append]

/-- A later timestep leaves the slices before it as they are. -/
theorem timestepLoop_stable (S : IteratedOptimalStopping) (st : IOSState) (m n : Nat)
    (h : n ≤ m) : ∀ M, m ≤ M → (S.timestepLoop st M).1 n = (S.timestepLoop st m).1 n := by
  intro M hM
  induction M with
  | zero =>
      have : m = 0 := by omega
      subst this; rfl
  | succ M ih =>
      by_cases hm : m = M + 1
      · subst hm; rfl
      · have hle : m ≤ M := by omega
        rw [timestepLoop_succ, ← ih hle]
        have hne : n ≠ M + 1 := by omega
        simp [timestep, Function.update_noteq hne]

/-- After an outer iteration that is not the first, `converged` holds up to
timestep `m` exactly when every slice up to `m` is within the tolerance of the
slice of the iteration before. -/
theorem timestepLoop_converged (S : IteratedOptimalStopping) (st : IOSState)
    (hfirst : st.first = false) (m : Nat) :
    (S.timestepLoop st m).2 = true ↔
      ∀ n, 1 ≤ n → n ≤ m →
        S.relativeError ((S.timestepLoop st m).1 n) (st.u_last n) ≤ S.iteration_tolerance := by
  induction m with
  | zero =>
      constructor
      · intro _ n h1 h0; omega
      · intro _; rfl
  | succ m ih =>
      have hstable : ∀ n, n ≤ m →
          (S.timestepLoop st (m + 1)).1 n = (S.timestepLoop st m).1 n :=
        fun n hn => timestepLoop_stable S st m n hn (m + 1) (Nat.le_succ m)
      have hflag : (S.timestepLoop st (m + 1)).2 = true ↔
          ((S.timestepLoop st m).2 = true ∧
            S.relativeError ((S.timestepLoop st (m + 1)).1 (m + 1)) (st.u_last (m + 1))
              ≤ S.iteration_tolerance) := by
        rw [timestepLoop_succ]
        simp only [timestep, hfirst, Function.update_same]
        cases hc : (S.timestepLoop st m).2 <;> simp [not_lt]
      rw [hflag, ih]
      constructor
      · rintro ⟨hall, hlast⟩ n h1 hn
        by_cases hn' : n = m + 1
        · subst hn'; exact hlast
        · have hle : n ≤ m := by omega
          rw [hstable n hle]; exact hall n h1 hle
      · intro hall
        refine ⟨fun n h1 hn => ?_, hall (m + 1) (by omega) (Nat.le_refl _)⟩
        rw [← hstable n hn]; exact hall n h1 (by omega)

theorem sweep_first (S : IteratedOptimalStopping) (st : IOSState) (hfirst : st.first = true) :
    (S.sweep st).1 = false := by
  simp [sweep, hfirst]

theorem sweep_later (S : IteratedOptimalStopping) (st : IOSState) (hfirst : st.first = false) :
    (S.sweep st).1 = true ↔
      ∀ n, 1 ≤ n → n ≤ S.timesteps →
        S.relativeError ((S.sweep st).2.u_last n) (st.u_last n) ≤ S.iteration_tolerance := by
  have h := timestepLoop_converged S st hfirst S.timesteps
  simpa [sweep, hfirst] using h

theorem after_shift (S : IteratedOptimalStopping) (st : IOSState) (j : Nat) :
    S.after (S.sweep st).2 j = S.after st (j + 1) := by
  induction j with
  | zero => rfl
  | succ j ih => simp only [after, ih]

theorem after_first (S : IteratedOptimalStopping) (st : IOSState) (k : Nat) (hk : 1 ≤ k) :
    (S.after st k).first = false := by
  cases k with
  | zero => omega
  | succ k => rfl

theorem after_its (S : IteratedOptimalStopping) (st : IOSState) (k : Nat) :
    (S.after st k).its = st.its + k := by
  induction k with
  | zero => rfl
  | succ k ih => simp only [after, sweep, ih]; omega

/-- The loop ends after the first outer iteration whose `converged` is true. -/
theorem loop_eq_some (S : IteratedOptimalStopping) (fuel : Nat) (st st' : IOSState) :
    S.loop fuel st = some st' ↔
      ∃ k, k < fuel ∧ st' = S.after st (k + 1) ∧ (S.sweep (S.after st k)).1 = true ∧
        ∀ j, j < k → (S.sweep (S.after st j)).1 = false := by
  induction fuel generalizing st with
  | zero => simp [loop]
  | succ fuel ih =>
      rw [loop]
      by_cases hc : (S.sweep st).1 = true
      · rw [if_pos hc]
        constructor
        · intro h
          refine ⟨0, Nat.succ_pos _, ?_, hc, fun j hj => absurd hj (Nat.not_lt_zero j)⟩
          exact (Option.some.inj h).symm
        · rintro ⟨k, _, hst, _, hbefore⟩
          cases k with
          | zero => rw [hst]; rfl
          | succ k =>
              have := hbefore 0 (Nat.succ_pos _)
              rw [after] at this
              rw [this] at hc
              exact absurd hc (by decide)
      · rw [if_neg hc, ih]
        have hc' : (S.sweep st).1 = false := by simpa using hc
        constructor
        · rintro ⟨k, hk, hst, hflag, hbefore⟩
          refine ⟨k + 1, by omega, ?_, ?_, ?_⟩
          · rw [hst, after_shift]
          · rw [← after_shift]; exact hflag
          · intro j hj
            cases j with
            | zero => exact hc'
            | succ j => rw [← after_shift]; exact hbefore j (by omega)
        · rintro ⟨k, hk, hst, hflag, hbefore⟩
          cases k with
          | zero => rw [after] at hflag; exact absurd hflag hc
          | succ k =>
              refine ⟨k, by omega, ?_, ?_, ?_⟩
              · rw [hst, after_shift]
              · rw [after_shift]; exact hflag
              · intro j hj
                rw [after_shift]; exact hbefore (j + 1) (by omega)

end IteratedOptimalStopping

/-- **C16** (iterated optimal stopping, the loop of `solve` under the macro).
The flag `converged` that the loop condition tests after the first outer
iteration is false.  After `k ≥ 1` outer iterations, the flag of the next one
is true exactly when, for every slice `n = 1..timesteps`, the relative error
between its slice `n` and slice `n` of the iteration before is at most
`iteration_tolerance`.  The loop ends, with the variables `st`, exactly when
some outer iteration after the first is the first one whose flag is true, and
then at least two outer iterations were counted. -/
theorem C16_iterated_optimal_stopping (S : IteratedOptimalStopping) :
    (S.sweep IteratedOptimalStopping.initial).1 = false ∧
    (∀ k, 1 ≤ k →
      ((S.sweep (S.after IteratedOptimalStopping.initial k)).1 = true ↔
        ∀ n, 1 ≤ n → n ≤ S.timesteps →
          S.relativeError ((S.after IteratedOptimalStopping.initial (k + 1)).u_last n)
              ((S.after IteratedOptimalStopping.initial k).u_last n)
            ≤ S.iteration_tolerance)) ∧
    (∀ fuel st, S.loop fuel IteratedOptimalStopping.initial = some st ↔
      ∃ k, 1 ≤ k ∧ k < fuel ∧ st = S.after IteratedOptimalStopping.initial (k + 1) ∧
        (S.sweep (S.after IteratedOptimalStopping.initial k)).1 = true ∧
        ∀ j, j < k → (S.sweep (S.after IteratedOptimalStopping.initial j)).1 = false) ∧
    (∀ fuel st, S.loop fuel IteratedOptimalStopping.initial = some st →
      2 ≤ st.its ∧ st.its ≤ fuel) := by
  have hfirst : (S.sweep IteratedOptimalStopping.initial).1 = false :=
    IteratedOptimalStopping.sweep_first S _ rfl
  have hloop : ∀ fuel st, S.loop fuel IteratedOptimalStopping.initial = some st ↔
      ∃ k, 1 ≤ k ∧ k < fuel ∧ st = S.after IteratedOptimalStopping.initial (k + 1) ∧
        (S.sweep (S.after IteratedOptimalStopping.initial k)).1 = true ∧
        ∀ j, j < k → (S.sweep (S.after IteratedOptimalStopping.initial j)).1 = false := by
    intro fuel st
    rw [IteratedOptimalStopping.loop_eq_some]
    constructor
    · rintro ⟨k, hk, hst, hflag, hbefore⟩
      refine ⟨k, ?_, hk, hst, hflag, hbefore⟩
      cases k with
      | zero =>
          rw [IteratedOptimalStopping.after, hfirst] at hflag
          exact absurd hflag (by decide)
      | succ k => omega
    · rintro ⟨k, _, hk, hst, hflag, hbefore⟩
      exact ⟨k, hk, hst, hflag, hbefore⟩
  refine ⟨hfirst, ?_, hloop, ?_⟩
  · intro k hk
    exact IteratedOptimalStopping.sweep_later S _ (IteratedOptimalStopping.after_first S _ k hk)
  · intro fuel st h
    obtain ⟨k, hk1, hk, hst, _, _⟩ := (hloop fuel st).mp h
    have hits := IteratedOptimalStopping.after_its S IteratedOptimalStopping.initial (k + 1)
    rw [← hst] at hits
    have h0 : IteratedOptimalStopping.initial.its = 0 := rfl
    omega

/-- The loop of the example ends: with tolerance 1/10 after seven outer
iterations, with tolerance 1 after two. -/
theorem exampleStopping_loop :
    ((exampleStopping (1 / 10)).loop 10 IteratedOptimalStopping.initial).map (fun st => st.its)
        = some 7 ∧
    ((exampleStopping 1).loop 10 IteratedOptimalStopping.initial).map (fun st => st.its)
        = some 2 := by
  constructor <;> decide!

/-! ## The method `solve`: what a call depends on -/

/-- A search from `-infinity` that records nothing found no number. -/
theorem scan_none_bot (dim : Nat) (value : List ℚ → Option ℚ) (nodes : List (List ℚ))
    (h : (scanOptimalControl dim value nodes (⊥, none)).2 = none) :
    (scanOptimalControl dim value nodes (⊥, none)).1 = ⊥ := by
  rcases scanOptimalControl_snd dim value nodes ⊥ none with
    ⟨_, heq⟩ | ⟨l1, n, l2, x, _, _, _, _, _, heq⟩
  · rw [heq]
  · rw [heq] at h
    cases h

/-- A search over candidates, at least one, none of which is skipped, finds a
number. -/
theorem scan_ne_bot (dim : Nat) (value : List ℚ → Option ℚ) (nodes : List (List ℚ))
    (hnodes : nodes ≠ []) (hval : ∀ n ∈ nodes, value (controlArgs dim n) ≠ none) :
    (scanOptimalControl dim value nodes (⊥, none)).1 ≠ ⊥ := by
  rcases scanOptimalControl_snd dim value nodes ⊥ none with
    ⟨hall, _⟩ | ⟨l1, n, l2, x, _, _, _, _, _, heq⟩
  · exfalso
    cases hn : nodes with
    | nil => exact hnodes hn
    | cons n t =>
      have hmem : n ∈ nodes := by rw [hn]; exact List.mem_cons_self n t
      cases hv : value (controlArgs dim n) with
      | none => exact hval n hmem hv
      | some y =>
        have := hall n hmem y hv
        simp at this
  · rw [heq]
    simp

/-- The stochastic control entries of the result at a node. -/
theorem resultControls_fst (h : HJBQVIData) (size : Nat) (events : EventState)
    (controlled_operator_control impulse_control : ControlVectors) (constraintMask : List Bool)
    (d i : Nat) (hi : i < size) :
    (resultControls h size events controlled_operator_control impulse_control
        constraintMask).1 d i
      = if (solveMask h events constraintMask).getD i false = true
            ∧ d < h.StochasticControlDimension then none
        else (solveControls h events controlled_operator_control impulse_control).1 d i := by
  unfold resultControls applyMask
  rw [(applyMask_apply h _ (List.range size) _ d i).1]
  simp [List.mem_range.mpr hi]

/-- The impulse control entries of the result at a node. -/
theorem resultControls_snd (h : HJBQVIData) (size : Nat) (events : EventState)
    (controlled_operator_control impulse_control : ControlVectors) (constraintMask : List Bool)
    (d i : Nat) (hi : i < size) :
    (resultControls h size events controlled_operator_control impulse_control
        constraintMask).2 d i
      = if (solveMask h events constraintMask).getD i false = false
            ∧ d < h.ImpulseControlDimension then none
        else (solveControls h events controlled_operator_control impulse_control).2 d i := by
  unfold resultControls applyMask
  rw [(applyMask_apply h _ (List.range size) _ d i).2]
  simp [List.mem_range.mpr hi]

/-- Under explicit handling with a non-empty impulse control grid, what an
event leaves at a node does not depend on the state it found: the mask, the
impulse control entries, and the stochastic control entries where the mask is
false. -/
theorem ExplicitEvent.entries_independent (ev : ExplicitEvent) (vector : List ℚ)
    (st1 st2 : EventState) (row : Nat) (hrow : row < ev.refined_spatial_grid.size)
    (hsl : ev.hjbqvi.semi_lagrangian = true) (himp : ev.hjbqvi.explicit_impulse = true)
    (hnodes : ev.refined_impulse_control_grid.nodes ≠ []) :
    (ev._doEvent vector st1).2.mask = (ev._doEvent vector st2).2.mask
      ∧ (∀ d, d < ev.hjbqvi.StochasticControlDimension →
          (ev._doEvent vector st1).2.mask.getD row false = false →
          (ev._doEvent vector st1).2.stochastic_control_vector d row
            = (ev._doEvent vector st2).2.stochastic_control_vector d row)
      ∧ (∀ d, d < ev.hjbqvi.ImpulseControlDimension →
          (ev._doEvent vector st1).2.impulse_control_vector d row
            = (ev._doEvent vector st2).2.impulse_control_vector d row) := by
  have hb : ev.b vector row ≠ ⊥ := by
    rw [ExplicitEvent.b_eq, if_pos himp]
    apply scan_ne_bot _ _ _ hnodes
    intro n _
    simp [ExplicitEvent.impulseValue]
  refine ⟨?_, ?_, ?_⟩
  · rw [ExplicitEvent._doEvent_eq, ExplicitEvent._doEvent_eq]
  · intro d hd hmask
    have hm := ExplicitEvent.mask_getElem ev vector st1 row hrow
    have hge : ev.a vector row ≥ ev.b vector row := by
      by_contra hcon
      rw [List.getD_eq_getElem?_getD, hm] at hmask
      simp [hcon] at hmask
    have ha : ev.a vector row ≠ ⊥ := by
      intro h0
      rw [h0] at hge
      exact hb (le_bot_iff.mp hge)
    rw [ExplicitEvent.stochastic_entry ev vector st1 d row hrow,
      ExplicitEvent.stochastic_entry ev vector st2 d row hrow,
      applyRecord_apply, applyRecord_apply]
    cases hrec : ev.stochasticRecord vector row with
    | none =>
      exfalso
      apply ha
      rw [ExplicitEvent.a_eq, if_pos hsl]
      apply scan_none_bot
      unfold ExplicitEvent.stochasticRecord at hrec
      rw [if_pos hsl] at hrec
      exact hrec
    | some args => simp [hd]
  · intro d hd
    rw [ExplicitEvent.impulse_entry ev vector st1 d row hrow,
      ExplicitEvent.impulse_entry ev vector st2 d row hrow,
      applyRecord_apply, applyRecord_apply]
    cases hrec : ev.impulseRecord vector row with
    | none =>
      exfalso
      apply hb
      rw [ExplicitEvent.b_eq, if_pos himp]
      apply scan_none_bot
      unfold ExplicitEvent.impulseRecord at hrec
      rw [if_pos himp] at hrec
      exact hrec
    | some args => simp [hd]

/-- The state after the events is what the last event leaves. -/
theorem HJBQVIProblem.eventState_concat (run : SolveRun)
    (l : List (ExplicitEvent × List ℚ)) (a : ExplicitEvent × List ℚ) :
    HJBQVIProblem.eventState run (l ++ [a])
      = (a.1._doEvent a.2 (HJBQVIProblem.eventState run l)).2 := by
  simp [HJBQVIProblem.eventState, List.foldl_append]

theorem ControlVectors.toVectors_congr (cv1 cv2 : ControlVectors) (dim size : Nat)
    (h : ∀ d, d < dim → ∀ i, i < size → cv1 d i = cv2 d i) :
    cv1.toVectors dim size = cv2.toVectors dim size := by
  unfold ControlVectors.toVectors
  apply List.map_congr_left
  intro d hd
  apply List.map_congr_left
  intro i hi
  exact h d (List.mem_range.mp hd) i (List.mem_range.mp hi)

/-- The control vectors of the result do not depend on the run: under implicit
handling they are those of the implicit schemes; under explicit handling they
are left by the last event. -/
theorem HJBQVIProblem.controls_independent (p : HJBQVIProblem) (size : Nat)
    (it : Iterated) (run1 run2 : SolveRun)
    (hhandling : p.handling = HJBQVIControlMethod.PENALTY_METHOD
      ∨ p.handling = HJBQVIControlMethod.DIRECT_CONTROL
      ∨ p.handling = HJBQVIControlMethod.EXPLICIT_CONTROL)
    (hevents : p.explicit_control = true →
      ∃ ev vector, it.applications.getLast? = some (ev, vector)
        ∧ ev.hjbqvi.handling = p.handling
        ∧ ev.hjbqvi.StochasticControlDimension = p.StochasticControlDimension
        ∧ ev.hjbqvi.ImpulseControlDimension = p.ImpulseControlDimension
        ∧ ev.refined_spatial_grid.size = size
        ∧ ev.refined_impulse_control_grid.nodes ≠ []) :
    (resultControls p.toHJBQVIData size (HJBQVIProblem.eventState run1 it.applications)
          it.controlled_operator_control it.impulse_control it.constraintMask).1.toVectors
        p.StochasticControlDimension size
      = (resultControls p.toHJBQVIData size (HJBQVIProblem.eventState run2 it.applications)
          it.controlled_operator_control it.impulse_control it.constraintMask).1.toVectors
        p.StochasticControlDimension size
    ∧ (resultControls p.toHJBQVIData size (HJBQVIProblem.eventState run1 it.applications)
          it.controlled_operator_control it.impulse_control it.constraintMask).2.toVectors
        p.ImpulseControlDimension size
      = (resultControls p.toHJBQVIData size (HJBQVIProblem.eventState run2 it.applications)
          it.controlled_operator_control it.impulse_control it.constraintMask).2.toVectors
        p.ImpulseControlDimension size := by
  have himplicit : p.semi_lagrangian = false → p.explicit_impulse = false →
      ∀ e1 e2 : EventState,
        resultControls p.toHJBQVIData size e1 it.controlled_operator_control
            it.impulse_control it.constraintMask
          = resultControls p.toHJBQVIData size e2 it.controlled_operator_control
            it.impulse_control it.constraintMask := by
    intro h1 h2 e1 e2
    simp [resultControls, solveMask, solveControls, h1, h2]
  rcases hhandling with hh | hh | hh
  · have h1 : p.semi_lagrangian = false := by
      unfold HJBQVIData.semi_lagrangian; rw [hh]; decide
    have h2 : p.explicit_impulse = false := by
      unfold HJBQVIData.explicit_impulse; rw [hh]; decide
    rw [himplicit h1 h2 _ (HJBQVIProblem.eventState run2 it.applications)]
    exact ⟨rfl, rfl⟩
  · have h1 : p.semi_lagrangian = false := by
      unfold HJBQVIData.semi_lagrangian; rw [hh]; decide
    have h2 : p.explicit_impulse = false := by
      unfold HJBQVIData.explicit_impulse; rw [hh]; decide
    rw [himplicit h1 h2 _ (HJBQVIProblem.eventState run2 it.applications)]
    exact ⟨rfl, rfl⟩
  · have h1 : p.semi_lagrangian = true := by
      unfold HJBQVIData.semi_lagrangian; rw [hh]; decide
    have h2 : p.explicit_impulse = true := by
      unfold HJBQVIData.explicit_impulse; rw [hh]; decide
    have h3 : p.explicit_control = true := by
      unfold HJBQVIData.explicit_control; rw [hh]; decide
    obtain ⟨ev, vector, hlast, hev, hS, hI, hsize, hnodes⟩ := hevents h3
    obtain ⟨l, hl⟩ : ∃ l, it.applications = l ++ [(ev, vector)] := by
      rcases List.eq_nil_or_concat it.applications with hnil | ⟨l, b, hlb⟩
      · rw [hnil] at hlast
        cases hlast
      · refine ⟨l, ?_⟩
        rw [hlb, List.concat_eq_append, List.getLast?_append, List.getLast?_singleton] at hlast
        have hb : b = (ev, vector) := by simpa [Option.or] using hlast
        rw [hlb, List.concat_eq_append, hb]
    have hsl : ev.hjbqvi.semi_lagrangian = true := by
      unfold HJBQVIData.semi_lagrangian; rw [hev, hh]; decide
    have himp : ev.hjbqvi.explicit_impulse = true := by
      unfold HJBQVIData.explicit_impulse; rw [hev, hh]; decide
    rw [hl, HJBQVIProblem.eventState_concat, HJBQVIProblem.eventState_concat]
    constructor
    · apply ControlVectors.toVectors_congr
      intro d hd i hi
      have hrow : i < ev.refined_spatial_grid.size := by rw [hsize]; exact hi
      obtain ⟨hmask, hst, _⟩ := ExplicitEvent.entries_independent ev vector
        (HJBQVIProblem.eventState run1 l) (HJBQVIProblem.eventState run2 l) i hrow hsl himp hnodes
      rw [resultControls_fst _ _ _ _ _ _ d i hi, resultControls_fst _ _ _ _ _ _ d i hi]
      simp only [solveMask, solveControls, h1, h2, Bool.not_true, Bool.false_eq_true, if_false]
      rw [← hmask]
      by_cases hm : (ev._doEvent vector (HJBQVIProblem.eventState run1 l)).2.mask.getD i false
          = true
      · rw [if_pos ⟨hm, hd⟩, if_pos ⟨hm, hd⟩]
      · rw [if_neg (fun hc => hm hc.1), if_neg (fun hc => hm hc.1)]
        exact hst d (by rw [hS]; exact hd) (by simpa using hm)
    · apply ControlVectors.toVectors_congr
      intro d hd i hi
      have hrow : i < ev.refined_spatial_grid.size := by rw [hsize]; exact hi
      obtain ⟨hmask, _, him⟩ := ExplicitEvent.entries_independent ev vector
        (HJBQVIProblem.eventState run1 l) (HJBQVIProblem.eventState run2 l) i hrow hsl himp hnodes
      rw [resultControls_snd _ _ _ _ _ _ d i hi, resultControls_snd _ _ _ _ _ _ d i hi]
      simp only [solveMask, solveControls, h1, h2, Bool.not_true, Bool.false_eq_true, if_false]
      rw [← hmask, him d (by rw [hI]; exact hd)]

/-- C26: the handling flags share bits.  After each of `usePenalizedScheme()`,
`useDirectControlScheme()` and `useSemiLagrangianScheme()` exactly one of
`fully_implicit()` and `explicit_control()` holds, and `semi_lagrangian()`,
`explicit_impulse()` and `explicit_control()` agree.  For the handling
`ITERATED_OPTIMAL_STOPPING`, `iterated_optimal_stopping()`, `direct_control()`
and `fully_implicit()` hold while `penalty_method()` and `explicit_control()`
do not.  For every handling value `fully_implicit()` holds iff
`penalty_method()` or `direct_control()` does. -/
theorem C26_handling_flags :
    (∀ (p : HJBQVIProblem) (s : Setter),
        s = Setter.usePenalizedScheme ∨ s = Setter.useDirectControlScheme
            ∨ s = Setter.useSemiLagrangianScheme →
          ((s.apply p).fully_implicit = true ↔ (s.apply p).explicit_control = false)
            ∧ (s.apply p).semi_lagrangian = (s.apply p).explicit_control
            ∧ (s.apply p).explicit_impulse = (s.apply p).explicit_control)
      ∧ (∀ p : HJBQVIProblem,
          (Setter.usePenalizedScheme.apply p).handling = HJBQVIControlMethod.PENALTY_METHOD
            ∧ (Setter.useDirectControlScheme.apply p).handling
                = HJBQVIControlMethod.DIRECT_CONTROL
            ∧ (Setter.useSemiLagrangianScheme.apply p).handling
                = HJBQVIControlMethod.EXPLICIT_CONTROL)
      ∧ (∀ h : HJBQVIData, h.handling = HJBQVIControlMethod.ITERATED_OPTIMAL_STOPPING →
          h.iterated_optimal_stopping = true ∧ h.direct_control = true
            ∧ h.fully_implicit = true ∧ h.penalty_method = false
            ∧ h.explicit_control = false)
      ∧ (∀ h : HJBQVIData,
          h.fully_implicit = true ↔ (h.penalty_method = true ∨ h.direct_control = true)) := by
  refine ⟨?_, fun _ => ⟨rfl, rfl, rfl⟩, ?_, ?_⟩
  · intro p s hs
    have key : ∀ q : HJBQVIProblem,
        (q.handling = HJBQVIControlMethod.PENALTY_METHOD
          ∨ q.handling = HJBQVIControlMethod.DIRECT_CONTROL
          ∨ q.handling = HJBQVIControlMethod.EXPLICIT_CONTROL) →
        (q.fully_implicit = true ↔ q.explicit_control = false)
          ∧ q.semi_lagrangian = q.explicit_control
          ∧ q.explicit_impulse = q.explicit_control := by
      intro q hq
      unfold HJBQVIData.fully_implicit HJBQVIData.explicit_control HJBQVIData.semi_lagrangian
        HJBQVIData.explicit_impulse
      rcases hq with hq | hq | hq <;> rw [hq] <;> decide
    rcases hs with hs | hs | hs
    · subst hs; exact key _ (Or.inl rfl)
    · subst hs; exact key _ (Or.inr (Or.inl rfl))
    · subst hs; exact key _ (Or.inr (Or.inr rfl))
  · intro h hh
    unfold HJBQVIData.iterated_optimal_stopping HJBQVIData.direct_control
      HJBQVIData.fully_implicit HJBQVIData.penalty_method HJBQVIData.explicit_control
    rw [hh]
    decide
  · intro h
    unfold HJBQVIData.fully_implicit HJBQVIData.penalty_method HJBQVIData.direct_control
    rw [Bool.or_eq_true]

/-! ## Adaptive time stepping -/

/-- What `solve` decides from the target of the adaptive time stepping: the
flag `variable_timesteps`, and the stepper when the flag is false. -/
theorem HJBQVIProblem.solveSetup_stepper (p : HJBQVIProblem) (lib : Library) (r : Int)
    (setup : SolveSetup) (h : p.solveSetup lib r = Except.ok setup) :
    setup.variable_timesteps = decide (p.target_timestep_relative_error > 0)
      ∧ (¬ p.target_timestep_relative_error > 0 →
          setup.stepper
            = if p.expiry < ⊤ then some (Stepper.ReverseConstantStepper 0 p.expiry setup.dt)
              else none) := by
  unfold HJBQVIProblem.solveSetup at h
  cases hr : refineParameters r.toNat (p.timesteps, p.target_timestep_relative_error) with
  | error u => rw [hr] at h; cases h
  | ok tt =>
    obtain ⟨timesteps, target⟩ := tt
    rw [hr] at h
    simp only at h
    split at h
    · cases h
    · simp only [Except.ok.injEq] at h
      subst h
      refine ⟨rfl, ?_⟩
      intro hneg
      simp [hneg]

/-- C30: adaptive time stepping is unreachable.  For every object that exists
(constructed without a throw, then changed by any setter calls)
`target_timestep_relative_error` is `-1`, so `variable_timesteps` is false in
the constructor and in every call of `solve`; the constructor never throws the
text of its check of the adaptive time stepping; and whenever `solve` gets as
far as its stepper, on a finite horizon that is the constant stepper, which it
does for every refinement level at which the number of timesteps is an
`int`. -/
theorem C30_adaptive_unreachable (ios : Bool) (tolerance : ℚ) (p : HJBQVIProblem)
    (lib : Library) (r : Int) (hreach : Reachable ios tolerance p) :
    p.target_timestep_relative_error = -1
      ∧ decide (p.target_timestep_relative_error > 0) = false
      ∧ (∀ args : ConstructorArguments,
          decide ((HJBQVIProblem.initial tolerance args).target_timestep_relative_error > 0)
              = false
            ∧ HJBQVIProblem.construct ios tolerance args
              ≠ Except.error
                  "error: variable timestepping can only be used on finite horizon problems with fully implicit discretizations")
      ∧ (∀ setup, p.solveSetup lib r = Except.ok setup →
          setup.variable_timesteps = false
            ∧ (p.expiry < ⊤ →
                setup.stepper = some (Stepper.ReverseConstantStepper 0 p.expiry setup.dt)))
      ∧ (p.expiry < ⊤ → fitsInt (p.timesteps * 2 ^ r.toNat) = true →
          ∃ setup, p.solveSetup lib r = Except.ok setup
            ∧ setup.stepper = some (Stepper.ReverseConstantStepper 0 p.expiry setup.dt)) := by
  obtain ⟨_, _, _, _, htarget, _, _⟩ := hreach.invariants
  have hneg : ¬ p.target_timestep_relative_error > 0 := by
    rw [htarget]
    norm_num
  have hsetup : ∀ setup, p.solveSetup lib r = Except.ok setup →
      setup.variable_timesteps = false
        ∧ (p.expiry < ⊤ →
            setup.stepper = some (Stepper.ReverseConstantStepper 0 p.expiry setup.dt)) := by
    intro setup hs
    obtain ⟨h1, h2⟩ := p.solveSetup_stepper lib r setup hs
    refine ⟨by rw [h1]; exact decide_eq_false hneg, fun hfin => ?_⟩
    rw [h2 hneg, if_pos hfin]
  refine ⟨htarget, decide_eq_false hneg, ?_, hsetup, ?_⟩
  · intro args
    refine ⟨decide_eq_false (by show ¬ ((-1 : ℚ) > 0); norm_num), ?_⟩
    unfold HJBQVIProblem.construct
    rw [HJBQVIProblem.validate_initial]
    by_cases h1 : args.expiry ≤ 0
    · rw [if_pos h1]
      intro hc
      injection hc with hc
      revert hc
      decide
    · rw [if_neg h1]
      by_cases h2 : args.expiry < ⊤ ∧ args.timesteps ≤ 0
      · rw [if_pos h2]
        intro hc
        injection hc with hc
        revert hc
        decide
      · rw [if_neg h2]
        intro hc
        cases hc
  · intro hfin hfit
    obtain ⟨setup, hs, _⟩ := p.solveSetup_ok lib r hfit (Or.inr (Or.inl hfin))
    exact ⟨setup, hs, (hsetup setup hs).2 hfin⟩

/-- Instance of C30: two timesteps, expiry 1, refinement level 1: the target
is `-1` and `solve` creates the constant stepper from 0 to 1 with the step
`1/4`. -/
theorem C30_adaptive_unreachable_witness :
    (HJBQVIProblem.initial (1 / 1000000)
        (exampleArguments 2 ((1 : ℚ) : WithTop ℚ))).target_timestep_relative_error = -1
      ∧ ((HJBQVIProblem.initial (1 / 1000000)
            (exampleArguments 2 ((1 : ℚ) : WithTop ℚ))).solveSetup exampleLibrary
            1).toOption.map (fun setup => (setup.variable_timesteps, setup.stepper))
        = some (false,
            some (Stepper.ReverseConstantStepper 0 ((1 : ℚ) : WithTop ℚ)
              (ExtendedReal.finite (1 / 4)))) := by
  have hmain := C30_adaptive_unreachable false (1 / 1000000) _ exampleLibrary 1
    (exampleProblem_reachable 2 1 (by norm_num) (by norm_num))
  exact ⟨hmain.1, by decide!⟩

/-! ## Row indexing -/

theorem offsets_eq_take (g : RectilinearGrid) (d : Nat) (hd : d ≤ g.length) :
    offsets g d = ((g.map List.length).take d).prod := by
  induction d with
  | zero => simp [offsets]
  | succ n ih =>
    have hn : n < g.length := by omega
    have hax : g.axis n = g[n] := by
      unfold RectilinearGrid.axis
      exact List.getD_eq_getElem g [] hn
    have hn' : n < (g.map List.length).length := by simpa using hn
    rw [offsets, ih (by omega), hax, List.take_succ, List.getElem?_eq_getElem hn',
      List.prod_append]
    simp

/-- The last offset is the number of nodes. -/
theorem offsets_length (g : RectilinearGrid) : offsets g g.length = g.size := by
  rw [offsets_eq_take g g.length (Nat.le_refl _)]
  have : (g.map List.length).take g.length = g.map List.length := by
    apply List.take_of_length_le
    simp
  rw [this]
  rfl

theorem offsets_dvd (g : RectilinearGrid) (a b : Nat) (hab : a ≤ b) :
    offsets g a ∣ offsets g b := by
  induction b with
  | zero =>
    have : a = 0 := by omega
    subst this
    exact dvd_refl _
  | succ n ih =>
    by_cases h : a = n + 1
    · subst h
      exact dvd_refl _
    · exact Dvd.dvd.mul_right (ih (by omega)) _

/-- The multi-index up to a dimension is the remainder of the row by the
offset of that dimension. -/
theorem index_sum_mod (g : RectilinearGrid) (row k : Nat) :
    ((List.range k).map (fun d => index g row d * offsets g d)).sum = row % offsets g k := by
  induction k with
  | zero => simp [offsets, Nat.mod_one]
  | succ n ih =>
    rw [List.range_succ, List.map_append, List.sum_append, ih]
    simp only [List.map_cons, List.map_nil, List.sum_cons, List.sum_nil, Nat.add_zero]
    rw [offsets, Nat.mod_mul]
    unfold index
    rw [Nat.mul_comm]

/-- The neighbours of a node in a dimension in which it is interior are
nodes. -/
theorem neighbour_rows (g : RectilinearGrid) (row d : Nat) (hrow : row < g.size)
    (hd : d < g.length) (hlo : 0 < index g row d)
    (hhi : index g row d < (g.axis d).length - 1) :
    offsets g d ≤ row ∧ row + offsets g d < g.size := by
  have hg : 0 < g.size := by omega
  have hpos := offsets_pos g hg d (by omega)
  constructor
  · unfold index at hlo
    have h1 : 0 < row / offsets g d := by
      apply Nat.pos_of_ne_zero
      intro h0
      rw [h0] at hlo
      simp at hlo
    exact (Nat.div_pos_iff (by omega)).mp h1
  · have hmod : row % offsets g (d + 1)
        = row % offsets g d + offsets g d * index g row d := by
      rw [offsets, Nat.mod_mul]
      rfl
    have hlt : row % offsets g d < offsets g d := Nat.mod_lt _ hpos
    have hstep : offsets g d * (index g row d + 1) ≤ offsets g d * ((g.axis d).length - 1) :=
      Nat.mul_le_mul_left _ (by omega)
    have hnext : offsets g (d + 1) = offsets g d * ((g.axis d).length - 1) + offsets g d := by
      rw [offsets]
      have hn : (g.axis d).length = ((g.axis d).length - 1) + 1 := by omega
      nth_rewrite 1 [hn]
      rw [Nat.mul_add, Nat.mul_one]
    have hrem : row % offsets g (d + 1) + offsets g d < offsets g (d + 1) := by
      rw [hmod, hnext]
      have : offsets g d * (index g row d + 1)
          = offsets g d * index g row d + offsets g d := by
        rw [Nat.mul_add, Nat.mul_one]
      omega
    obtain ⟨m, hm⟩ := offsets_dvd g (d + 1) g.length (by omega)
    rw [offsets_length] at hm
    have hpos1 := offsets_pos g hg (d + 1) (by omega)
    have hq : row / offsets g (d + 1) < m := by
      apply (Nat.div_lt_iff_lt_mul hpos1).mpr
      rw [Nat.mul_comm, ← hm]
      exact hrow
    have hdecomp := Nat.div_add_mod row (offsets g (d + 1))
    have hle : offsets g (d + 1) * (row / offsets g (d + 1) + 1) ≤ offsets g (d + 1) * m :=
      Nat.mul_le_mul_left _ (by omega)
    rw [Nat.mul_add, Nat.mul_one] at hle
    rw [hm]
    omega

/-- The offsets of two dimensions differ when the axis of the lower one has
at least two ticks. -/
theorem offsets_lt (g : RectilinearGrid) (hg : 0 < g.size) (a b : Nat) (hab : a < b)
    (hb : b ≤ g.length) (ha : 2 ≤ (g.axis a).length) : offsets g a < offsets g b := by
  have hpos := offsets_pos g hg a (by omega)
  have h1 : offsets g a < offsets g (a + 1) := by
    rw [offsets]
    have : offsets g a * 2 ≤ offsets g a * (g.axis a).length := Nat.mul_le_mul_left _ ha
    omega
  have h2 : offsets g (a + 1) ≤ offsets g b :=
    Nat.le_of_dvd (offsets_pos g hg b hb) (offsets_dvd g (a + 1) b hab)
  omega

/-- C28: row indexing is a mixed-radix decomposition.  For every grid and
every row below its number of nodes (so every axis has at least one tick), with
`offsets[0] = 1` and `offsets[d] = offsets[d-1] * n_{d-1}`: the multi-index
`i[d] = (row / offsets[d]) mod n_d` is below `n_d` and the sum of
`i[d] * offsets[d]` over the dimensions is the row.  Whenever
`0 < i[d] < n_d - 1`, the columns `row - offsets[d]` and `row + offsets[d]`
that `ControlledOperator::A` writes are row numbers, differ from the row and
differ from the column of every neighbour that the node has in another
dimension. -/
theorem C28_row_indexing (g : RectilinearGrid) (row : Nat) (hrow : row < g.size) :
    offsets g 0 = 1
      ∧ (∀ d, offsets g (d + 1) = offsets g d * (g.axis d).length)
      ∧ (∀ d, d < g.length → 1 ≤ (g.axis d).length ∧ index g row d < (g.axis d).length)
      ∧ ((List.range g.length).map (fun d => index g row d * offsets g d)).sum = row
      ∧ (∀ d, d < g.length → 0 < index g row d → index g row d < (g.axis d).length - 1 →
          (0 ≤ (row : Int) - (offsets g d : Int)
            ∧ (row : Int) + (offsets g d : Int) < (g.size : Int)
            ∧ (row : Int) - (offsets g d : Int) ≠ (row : Int)
            ∧ (row : Int) + (offsets g d : Int) ≠ (row : Int)
            ∧ (row : Int) - (offsets g d : Int) ≠ (row : Int) + (offsets g d : Int))
          ∧ ∀ d', d' < g.length → d' ≠ d →
              (0 < index g row d' →
                (row : Int) - (offsets g d' : Int) ≠ (row : Int) - (offsets g d : Int)
                  ∧ (row : Int) - (offsets g d' : Int) ≠ (row : Int) + (offsets g d : Int))
              ∧ (index g row d' < (g.axis d').length - 1 →
                (row : Int) + (offsets g d' : Int) ≠ (row : Int) - (offsets g d : Int)
                  ∧ (row : Int) + (offsets g d' : Int) ≠ (row : Int) + (offsets g d : Int))) := by
  have hg : 0 < g.size := by omega
  refine ⟨rfl, fun _ => rfl, ?_, ?_, ?_⟩
  · intro d hd
    exact ⟨axis_length_pos g hg d hd, index_lt g hg row d hd⟩
  · rw [index_sum_mod, offsets_length]
    exact Nat.mod_eq_of_lt hrow
  · intro d hd hlo hhi
    obtain ⟨h1, h2⟩ := neighbour_rows g row d hrow hd hlo hhi
    have hpos := offsets_pos g hg d (by omega)
    refine ⟨⟨by omega, by omega, by omega, by omega, by omega⟩, ?_⟩
    intro d' hd' hne
    have hpos' := offsets_pos g hg d' (by omega)
    have hdiff : 2 ≤ (g.axis d').length → offsets g d' ≠ offsets g d := by
      intro h2'
      rcases Nat.lt_or_gt_of_ne hne with hlt | hgt
      · exact Nat.ne_of_lt (offsets_lt g hg d' d hlt (by omega) h2')
      · exact Nat.ne_of_gt (offsets_lt g hg d d' hgt (by omega) (by omega))
    have hidx := index_lt g hg row d' hd'
    constructor
    · intro hlo'
      have := hdiff (by omega)
      constructor <;> omega
    · intro hhi'
      have := hdiff (by omega)
      constructor <;> omega

/-- Instance of C28: on the grid with ticks `0, 1, 3` and `0, 2, 3` the row 4
has the multi-index `(1, 1)`, the offsets are 1 and 3, and
`1 * 1 + 1 * 3 = 4`. -/
theorem C28_row_indexing_witness :
    (4 : Nat) < RectilinearGrid.size [[0, 1, 3], [0, 2, 3]]
      ∧ index [[0, 1, 3], [0, 2, 3]] 4 0 = 1 ∧ index [[0, 1, 3], [0, 2, 3]] 4 1 = 1
      ∧ offsets [[0, 1, 3], [0, 2, 3]] 0 = 1 ∧ offsets [[0, 1, 3], [0, 2, 3]] 1 = 3
      ∧ ((List.range (List.length ([[0, 1, 3], [0, 2, 3]] : RectilinearGrid))).map
          (fun d => index [[0, 1, 3], [0, 2, 3]] 4 d * offsets [[0, 1, 3], [0, 2, 3]] d)).sum
        = 4 := by
  have hmain := C28_row_indexing [[0, 1, 3], [0, 2, 3]] 4 (by decide)
  exact ⟨by decide, by decide, by decide, by decide, by decide, hmain.2.2.2.1⟩

/-! ## The drift under semi-Lagrangian handling -/

/-- Without drift the three pairs coincide: the pair is the diffusion pair. -/
theorem ControlledOperator.stencil_zero_drift (v dxb dxc dxf : ℚ) :
    ControlledOperator.stencil v 0 dxb dxc dxf
      = (ControlledOperator.alpha_common v dxb dxc, ControlledOperator.beta_common v dxf dxc) := by
  unfold ControlledOperator.stencil
  simp only [zero_div, sub_zero, add_zero]
  split_ifs <;> rfl

/-- Under semi-Lagrangian handling the drift of the discretization is zero. -/
theorem drift_semi_lagrangian (h : HJBQVIData) (hsl : h.semi_lagrangian = true) (d : Nat)
    (time : ℚ) (x q : List ℚ) : drift h d time x q = 0 := by
  unfold drift
  simp [hsl]

/-- Otherwise it is the controlled drift. -/
theorem drift_not_semi_lagrangian (h : HJBQVIData) (hsl : h.semi_lagrangian = false) (d : Nat)
    (time : ℚ) (x q : List ℚ) : drift h d time x q = h.controlled_drift d time x q := by
  unfold drift
  simp [hsl]

/-- The pair of an interior node under semi-Lagrangian handling. -/
theorem ControlledOperator.coefficients_semi_lagrangian (op : ControlledOperator) (time : ℚ)
    (row d : Nat) (hsl : op.hjbqvi.semi_lagrangian = true) :
    op.coefficients time row d
      = (ControlledOperator.alpha_common
            (op.hjbqvi.volatility d time (coordinates op.refined_spatial_grid row))
            ((op.refined_spatial_grid.axis d).tick (index op.refined_spatial_grid row d)
              - (op.refined_spatial_grid.axis d).tick (index op.refined_spatial_grid row d - 1))
            ((op.refined_spatial_grid.axis d).tick (index op.refined_spatial_grid row d + 1)
              - (op.refined_spatial_grid.axis d).tick (index op.refined_spatial_grid row d - 1)),
          ControlledOperator.beta_common
            (op.hjbqvi.volatility d time (coordinates op.refined_spatial_grid row))
            ((op.refined_spatial_grid.axis d).tick (index op.refined_spatial_grid row d + 1)
              - (op.refined_spatial_grid.axis d).tick (index op.refined_spatial_grid row d))
            ((op.refined_spatial_grid.axis d).tick (index op.refined_spatial_grid row d + 1)
              - (op.refined_spatial_grid.axis d).tick
                  (index op.refined_spatial_grid row d - 1))) := by
  unfold ControlledOperator.coefficients
  simp only
  rw [drift_semi_lagrangian _ hsl, ControlledOperator.stencil_zero_drift]

/-- C24, refuted as stated: on the grid `0, 1, 2, 4` with unit volatility and
the controlled drift 5, under semi-Lagrangian handling the pair of the node of
row 1 is the diffusion pair `(1/2, 1/2)`; it is the pair for the drift 0, not
the pair `(1/2, 11/2)` that the drift term gives under the penalty method; the
matrix is the one for the drift 0. -/
theorem C24_semi_lagrangian_drift_counterexample :
    (exampleOperatorSL 5).hjbqvi.semi_lagrangian = true
      ∧ (exampleOperatorSL 5).hjbqvi.controlled_drift 0 0
          (coordinates (exampleOperatorSL 5).refined_spatial_grid 1)
          ((exampleOperatorSL 5).q 1) = 5
      ∧ (exampleOperatorSL 5).coefficients 0 1 0 = (1 / 2, 1 / 2)
      ∧ (exampleOperatorSL 0).coefficients 0 1 0 = (1 / 2, 1 / 2)
      ∧ (exampleOperator 5 none).coefficients 0 1 0 = (1 / 2, 11 / 2)
      ∧ (exampleOperatorSL 5).A 0 = (exampleOperatorSL 0).A 0
      ∧ (exampleOperator 5 none).A 0 ≠ (exampleOperator 0 none).A 0 := by
  refine ⟨by decide, rfl, by decide!, by decide!, by decide!, by decide!, by decide!⟩

/-- C24, amended: under semi-Lagrangian handling `ControlledOperator::A` leaves
the controlled drift out: the drift `mu` is zero, the pair of an interior node
is the diffusion pair `(alpha_common, beta_common)`, and neither the pair nor
the row of a node that is interior in every dimension changes when the
controlled drift and the control are replaced by any others. -/
theorem C24_semi_lagrangian_drift (op : ControlledOperator) (time : ℚ) (row d : Nat)
    (hsl : op.hjbqvi.semi_lagrangian = true) :
    drift op.hjbqvi.toHJBQVIData d time (coordinates op.refined_spatial_grid row) (op.q row) = 0
      ∧ op.coefficients time row d
        = (ControlledOperator.alpha_common
              (op.hjbqvi.volatility d time (coordinates op.refined_spatial_grid row))
              ((op.refined_spatial_grid.axis d).tick (index op.refined_spatial_grid row d)
                - (op.refined_spatial_grid.axis d).tick (index op.refined_spatial_grid row d - 1))
              ((op.refined_spatial_grid.axis d).tick (index op.refined_spatial_grid row d + 1)
                - (op.refined_spatial_grid.axis d).tick
                    (index op.refined_spatial_grid row d - 1)),
            ControlledOperator.beta_common
              (op.hjbqvi.volatility d time (coordinates op.refined_spatial_grid row))
              ((op.refined_spatial_grid.axis d).tick (index op.refined_spatial_grid row d + 1)
                - (op.refined_spatial_grid.axis d).tick (index op.refined_spatial_grid row d))
              ((op.refined_spatial_grid.axis d).tick (index op.refined_spatial_grid row d + 1)
                - (op.refined_spatial_grid.axis d).tick
                    (index op.refined_spatial_grid row d - 1)))
      ∧ ∀ (controlled_drift : Nat → ℚ → List ℚ → List ℚ → ℚ) (control : Nat → Nat → ℚ),
          (op.withDrift controlled_drift control).coefficients time row d
            = op.coefficients time row d
          ∧ (interiorRow op.refined_spatial_grid row →
              (op.withDrift controlled_drift control).A_row time row = op.A_row time row) := by
  refine ⟨drift_semi_lagrangian _ hsl _ _ _ _,
    ControlledOperator.coefficients_semi_lagrangian op time row d hsl, ?_⟩
  intro controlled_drift control
  have hsl' : (op.withDrift controlled_drift control).hjbqvi.semi_lagrangian = true := hsl
  have hcoef : ∀ e, (op.withDrift controlled_drift control).coefficients time row e
      = op.coefficients time row e := by
    intro e
    rw [ControlledOperator.coefficients_semi_lagrangian op time row e hsl,
      ControlledOperator.coefficients_semi_lagrangian (op.withDrift controlled_drift control)
        time row e hsl']
    rfl
  refine ⟨hcoef d, ?_⟩
  intro hint
  have hdim : ∀ e, e ∈ List.range op.refined_spatial_grid.length →
      (op.withDrift controlled_drift control).A_dim time row e = op.A_dim time row e := by
    intro e he
    obtain ⟨h0, h1⟩ := hint e (List.mem_range.mp he)
    rw [ControlledOperator.A_dim_interior op time row e h0 h1,
      ControlledOperator.A_dim_interior (op.withDrift controlled_drift control) time row e
        h0 h1, hcoef e]
    rfl
  unfold ControlledOperator.A_row
  rw [ControlledOperator.A_dims_eq, ControlledOperator.A_dims_eq]
  have hlen : (op.withDrift controlled_drift control).refined_spatial_grid
      = op.refined_spatial_grid := rfl
  have hdisc : (op.withDrift controlled_drift control).hjbqvi.discount = op.hjbqvi.discount :=
    rfl
  simp only [hlen, hdisc]
  have hsum : (List.range op.refined_spatial_grid.length).map
        (fun e => ((op.withDrift controlled_drift control).A_dim time row e).1)
      = (List.range op.refined_spatial_grid.length).map (fun e => (op.A_dim time row e).1) :=
    List.map_congr_left (fun e he => by rw [hdim e he])
  have hflat : (List.range op.refined_spatial_grid.length).flatMap
        (fun e => ((op.withDrift controlled_drift control).A_dim time row e).2)
      = (List.range op.refined_spatial_grid.length).flatMap (fun e => (op.A_dim time row e).2) :=
    List.flatMap_congr (fun e he => by rw [hdim e he])
  rw [hsum, hflat]

/-- Instance of the amended C24: the example operator under semi-Lagrangian
handling with the drift 5: the drift of the discretization at row 1 is zero
and the pair is `(1/2, 1/2)`. -/
theorem C24_semi_lagrangian_drift_witness :
    (exampleOperatorSL 5).hjbqvi.semi_lagrangian = true
      ∧ drift (exampleOperatorSL 5).hjbqvi.toHJBQVIData 0 0
          (coordinates (exampleOperatorSL 5).refined_spatial_grid 1)
          ((exampleOperatorSL 5).q 1) = 0
      ∧ (exampleOperatorSL 5).coefficients 0 1 0 = (1 / 2, 1 / 2) := by
  have hmain := C24_semi_lagrangian_drift (exampleOperatorSL 5) 0 1 0 (by decide)
  exact ⟨by decide, hmain.1, by decide!⟩

/-! ## The mean of the solver iterations -/

/-- No call changes the counts of a `SparseLUSolver`. -/
theorem SparseLUSolver.run_its_unchanged (E : Eigen) (calls : List SolverCall) (s s' : LinearSolver)
    (outs : List (List ℚ)) (h : SparseLUSolver.run E calls s = some (s', outs)) :
    s'.its = s.its := by
  induction calls generalizing s outs with
  | nil =>
    simp only [SparseLUSolver.run, Option.some.injEq, Prod.mk.injEq] at h
    rw [← h.1]
  | cons c rest ih =>
    cases c with
    | init A =>
      simp only [SparseLUSolver.run] at h
      cases hi : SparseLUSolver.init E s A with
      | none => rw [hi] at h; cases h
      | some s1 =>
        rw [hi] at h
        have h1 := ih s1 outs h
        unfold SparseLUSolver.init at hi
        split at hi
        · cases hi
          exact h1
        · cases hi
    | solve b guess =>
      simp only [SparseLUSolver.run] at h
      cases hr : SparseLUSolver.run E rest (SparseLUSolver.solve E s b guess).2 with
      | none => rw [hr] at h; cases h
      | some res =>
        obtain ⟨s2, rs⟩ := res
        rw [hr] at h
        simp only [Option.some.injEq, Prod.mk.injEq] at h
        rw [h.1] at hr
        rw [ih _ rs hr]
        rfl

/-- C29: `Result.mean_solver_iterations` is the sum of the recorded counts of
the solver divided by their number.  A `SparseLUSolver` never records a count:
after any sequence of `initialize` and `solve` calls `iterations()` is empty.
So whenever `solve` selects the sparse-LU solver (as it does after
`useSparseLUSolver()`), for an iteration that reports the counts of that
solver, the mean is the quotient `0/0`, which is not a number. -/
theorem C29_mean_solver_iterations (p : HJBQVIProblem) (lib : Library) (r : Int)
    (run : SolveRun) (E : Eigen)
    (hsolver : p.solver = HJBQVISolver.SPARSE_LU)
    (hits : ∀ setup, p.solveSetup lib r = Except.ok setup →
      ∃ calls s outs, SparseLUSolver.run E calls LinearSolver.new = some (s, outs)
        ∧ (lib.iterate p setup).solver_iterations = s.iterations) :
    (∀ (setup : SolveSetup) (it : Iterated) (run' : SolveRun),
        (p.result setup it run').mean_solver_iterations
          = ExtendedReal.div (ExtendedReal.finite ((it.solver_iterations.sum : Nat) : ℚ))
              (ExtendedReal.finite ((it.solver_iterations.length : Nat) : ℚ)))
      ∧ (∀ (calls : List SolverCall) (s : LinearSolver) (outs : List (List ℚ)),
          SparseLUSolver.run E calls LinearSolver.new = some (s, outs) → s.iterations = [])
      ∧ (∀ setup, p.solveSetup lib r = Except.ok setup →
          setup.solver = some SolverKind.SparseLUSolver
            ∧ (lib.iterate p setup).solver_iterations = [])
      ∧ ∀ result, p.solve lib r run = Except.ok result →
          result.mean_solver_iterations
              = ExtendedReal.div (ExtendedReal.finite 0) (ExtendedReal.finite 0)
            ∧ result.mean_solver_iterations = ExtendedReal.nan := by
  have hempty : ∀ (calls : List SolverCall) (s : LinearSolver) (outs : List (List ℚ)),
      SparseLUSolver.run E calls LinearSolver.new = some (s, outs) → s.iterations = [] := by
    intro calls s outs h
    exact SparseLUSolver.run_its_unchanged E calls LinearSolver.new s outs h
  have hsel : ∀ setup, p.solveSetup lib r = Except.ok setup →
      setup.solver = some SolverKind.SparseLUSolver
        ∧ (lib.iterate p setup).solver_iterations = [] := by
    intro setup hs
    constructor
    · unfold HJBQVIProblem.solveSetup at hs
      cases hr : refineParameters r.toNat (p.timesteps, p.target_timestep_relative_error) with
      | error u => rw [hr] at hs; cases hs
      | ok tt =>
        rw [hr] at hs
        simp only at hs
        split at hs
        · cases hs
        · simp only [Except.ok.injEq] at hs
          subst hs
          have h1 : p.bicgstab = false := by
            unfold HJBQVIProblem.bicgstab; rw [hsolver]; decide
          have h2 : p.sparse_lu = true := by
            unfold HJBQVIProblem.sparse_lu; rw [hsolver]; decide
          simp [h1, h2]
    · obtain ⟨calls, s, outs, hrun, heq⟩ := hits setup hs
      rw [heq]
      exact hempty calls s outs hrun
  refine ⟨fun _ _ _ => rfl, hempty, hsel, ?_⟩
  intro result hres
  unfold HJBQVIProblem.solve at hres
  cases hs : p.solveSetup lib r with
  | error u => rw [hs] at hres; cases hres
  | ok setup =>
    rw [hs] at hres
    simp only at hres
    obtain ⟨hk, hnil⟩ := hsel setup hs
    rw [hk] at hres
    simp only [Except.ok.injEq] at hres
    have hmean : result.mean_solver_iterations
        = ExtendedReal.mean (lib.iterate p setup).solver_iterations := by
      rw [← hres]
      rfl
    rw [hmean, hnil]
    constructor
    · simp [ExtendedReal.mean]
    · simp [ExtendedReal.mean, ExtendedReal.div]

/-- Instance of C29: two timesteps, expiry 1, after `useSparseLUSolver()`, with
an iteration that reports the counts of a `SparseLUSolver` after one
`initialize` and one `solve`: `solve(0)` returns a result whose
`mean_solver_iterations` is not a number. -/
theorem C29_mean_solver_iterations_witness :
    (Setter.useSparseLUSolver.apply
        (HJBQVIProblem.initial (1 / 1000000)
          (exampleArguments 2 ((1 : ℚ) : WithTop ℚ)))).solver = HJBQVISolver.SPARSE_LU
      ∧ ((Setter.useSparseLUSolver.apply
            (HJBQVIProblem.initial (1 / 1000000)
              (exampleArguments 2 ((1 : ℚ) : WithTop ℚ)))).solve exampleLibraryLU 0
            (exampleRun none)).toOption.map (fun result => result.mean_solver_iterations)
        = some ExtendedReal.nan
      ∧ (∀ (calls : List SolverCall) (s : LinearSolver) (outs : List (List ℚ)),
          SparseLUSolver.run exampleEigen calls LinearSolver.new = some (s, outs) →
            s.iterations = []) := by
  have hmain := C29_mean_solver_iterations
    (Setter.useSparseLUSolver.apply
      (HJBQVIProblem.initial (1 / 1000000) (exampleArguments 2 ((1 : ℚ) : WithTop ℚ))))
    exampleLibraryLU 0 (exampleRun none) exampleEigen rfl
    (fun _ _ => ⟨[SolverCall.init [], SolverCall.solve [1] [0]],
      { A := [], its := [] }, [[1]], rfl, rfl⟩)
  exact ⟨rfl, by decide!, hmain.2.1⟩

/-! ## Integer powers -/

theorem fitsIntmax_iff (z : Int) :
    fitsIntmax z = true ↔ (-9223372036854775808 ≤ z ∧ z ≤ 9223372036854775807) := by
  unfold fitsIntmax INTMAX_MIN INTMAX_MAX
  exact decide_eq_true_iff

/-- A number whose square is a `std::intmax_t` is one. -/
theorem fitsIntmax_of_sq (t : Int) (h : fitsIntmax (t * t) = true) : fitsIntmax t = true := by
  rw [fitsIntmax_iff] at h ⊢
  constructor <;> nlinarith [h.1, h.2, mul_self_nonneg (t - 1), mul_self_nonneg (t + 1)]

/-- The square of the half power is a `std::intmax_t` when the power is. -/
theorem fitsIntmax_half_sq (Base : Int) (k : Nat) (f : Int)
    (hf : f = 1 ∨ f = Base) (h : fitsIntmax (Base ^ k * Base ^ k * f) = true) :
    fitsIntmax (Base ^ k * Base ^ k) = true := by
  rcases hf with hf | hf
  · rw [hf, mul_one] at h
    exact h
  · rw [hf] at h
    rw [fitsIntmax_iff] at h ⊢
    have hs : 0 ≤ Base ^ k * Base ^ k := mul_self_nonneg _
    rcases lt_trichotomy Base 0 with hneg | hzero | hpos
    · by_cases h1 : Base = -1
      · subst h1
        have : (-1 : Int) ^ k * (-1) ^ k = 1 := by
          rw [← pow_add, ← two_mul, pow_mul]
          simp
        rw [this]
        constructor <;> norm_num
      · have h2 : 0 ≤ -Base - 2 := by omega
        have h3 := mul_nonneg hs h2
        constructor
        · linarith
        · nlinarith [h.1, h.2]
    · subst hzero
      cases k with
      | zero => simp
      | succ k => simp
    · by_cases h1 : Base = 1
      · subst h1
        simp
      · have h2 : 0 ≤ Base - 2 := by omega
        have h3 := mul_nonneg hs h2
        constructor
        · linarith
        · nlinarith [h.1, h.2]

/-- The power as the square of the half power times the factor. -/
theorem pow_half (Base : Int) (n : Nat) :
    Base ^ n = Base ^ (n / 2) * Base ^ (n / 2) * (if (n : Int).tmod 2 = 1 then Base else 1) := by
  have hmod : (n : Int).tmod 2 = ((n % 2 : Nat) : Int) := by
    rw [Int.tmod_eq_emod (by omega) (by omega)]
    rfl
  rw [hmod]
  rcases Nat.mod_two_eq_zero_or_one n with h | h
  · rw [h]
    have hn : n = n / 2 + n / 2 := by omega
    simp only [Nat.cast_zero, zero_ne_one, if_false, mul_one]
    rw [← pow_add, ← hn]
  · rw [h]
    have hn : n = n / 2 + n / 2 + 1 := by omega
    simp only [Nat.cast_one, if_true]
    rw [← pow_add, ← pow_succ, ← hn]

/-- The value of `IntegerPower` for an exponent that is not negative: the
power when it is a `std::intmax_t`, none otherwise. -/
theorem IntegerPower.value_nat (Base : Int) (n : Nat) :
    IntegerPower.value Base (n : Int)
      = if fitsIntmax (Base ^ n) then some (Base ^ n) else none := by
  induction n using Nat.strong_induction_on with
  | _ n ih =>
    rw [IntegerPower.value]
    by_cases hn : n = 0
    · subst hn
      simp only [Nat.cast_zero, if_true, pow_zero]
      have : fitsIntmax 1 = true := by decide
      rw [this]
      rfl
    · have hne : ¬ (n : Int) = 0 := by exact_mod_cast hn
      rw [if_neg hne]
      have hdiv : (n : Int).tdiv 2 = ((n / 2 : Nat) : Int) := by
        rw [Int.tdiv_eq_ediv (by omega) (by omega)]
        rfl
      rw [hdiv, ih (n / 2) (by omega)]
      have hpow := pow_half Base n
      have hfactor : (if (n : Int).tmod 2 = 1 then Base else 1) = 1
          ∨ (if (n : Int).tmod 2 = 1 then Base else 1) = Base := by
        split_ifs
        · exact Or.inr rfl
        · exact Or.inl rfl
      by_cases hfit : fitsIntmax (Base ^ n) = true
      · have hfit' := hfit
        rw [hpow] at hfit'
        have hsq := fitsIntmax_half_sq Base (n / 2) _ hfactor hfit'
        have hhalf := fitsIntmax_of_sq _ hsq
        rw [if_pos hhalf]
        simp only
        rw [hsq, hfit', Bool.and_self, if_pos rfl, if_pos hfit, ← hpow]
      · rw [if_neg hfit]
        by_cases hhalf : fitsIntmax (Base ^ (n / 2)) = true
        · rw [if_pos hhalf]
          simp only
          rw [← hpow]
          have : fitsIntmax (Base ^ n) = false := by simpa using hfit
          rw [this, Bool.and_false]
          rfl
        · rw [if_neg hhalf]

/-- C23, refuted as stated: `2^63` is not a `std::intmax_t`.  For the base 2
and the exponent 63 the half power `IntegerPower<2, 31>::value` is `2^31`, and
the product `2^31 * 2^31 * 2` overflows: `IntegerPower<2, 63>::value` is not a
constant expression, so it has no value. -/
theorem C23_integer_power_counterexample :
    (0 : Int) ≤ 63
      ∧ fitsIntmax (2 : Int) = true
      ∧ fitsIntmax ((2 : Int) ^ 63) = false
      ∧ IntegerPower.value 2 (Int.tdiv 63 2) = some 2147483648
      ∧ fitsIntmax ((2147483648 : Int) * 2147483648 * 2) = false
      ∧ IntegerPower.value 2 63 = none := by
  refine ⟨by decide, by decide, by decide, by decide!, by decide, by decide!⟩

/-- C23, amended: for every base and every exponent `≥ 0` for which the power
is a `std::intmax_t`, `IntegerPower<Base, Exponent>::value` is the base raised
to the exponent, computed by squaring the value for `Exponent/2`; for the
exponent 0 it is 1; when the power is not a `std::intmax_t` there is no
value. -/
theorem C23_integer_power (Base Exponent : Int) (hE : 0 ≤ Exponent) :
    IntegerPower.value Base 0 = some 1
      ∧ (fitsIntmax (Base ^ Exponent.toNat) = true →
          IntegerPower.value Base Exponent = some (Base ^ Exponent.toNat))
      ∧ (fitsIntmax (Base ^ Exponent.toNat) = false → IntegerPower.value Base Exponent = none)
      ∧ (Exponent ≠ 0 → fitsIntmax (Base ^ Exponent.toNat) = true →
          ∃ temporary, IntegerPower.value Base (Exponent.tdiv 2) = some temporary
            ∧ temporary = Base ^ (Exponent.toNat / 2)
            ∧ IntegerPower.value Base Exponent
              = some (temporary * temporary * (if Exponent.tmod 2 = 1 then Base else 1))) := by
  have hcast : ((Exponent.toNat : Nat) : Int) = Exponent := Int.toNat_of_nonneg hE
  have hval : IntegerPower.value Base Exponent
      = if fitsIntmax (Base ^ Exponent.toNat) then some (Base ^ Exponent.toNat) else none := by
    have := IntegerPower.value_nat Base Exponent.toNat
    rw [hcast] at this
    exact this
  refine ⟨?_, ?_, ?_, ?_⟩
  · rw [IntegerPower.value, if_pos rfl]
  · intro hfit
    rw [hval, if_pos hfit]
  · intro hfit
    rw [hval, hfit]
    rfl
  · intro _ hfit
    have hpow := pow_half Base Exponent.toNat
    rw [hcast] at hpow
    have hfit' := hfit
    rw [hpow] at hfit'
    have hfactor : (if Exponent.tmod 2 = 1 then Base else 1) = 1
        ∨ (if Exponent.tmod 2 = 1 then Base else 1) = Base := by
      split_ifs
      · exact Or.inr rfl
      · exact Or.inl rfl
    have hsq := fitsIntmax_half_sq Base (Exponent.toNat / 2) _ hfactor hfit'
    have hhalf := fitsIntmax_of_sq _ hsq
    have hdiv : Exponent.tdiv 2 = ((Exponent.toNat / 2 : Nat) : Int) := by
      rw [Int.tdiv_eq_ediv hE (by omega)]
      omega
    refine ⟨Base ^ (Exponent.toNat / 2), ?_, rfl, ?_⟩
    · rw [hdiv, IntegerPower.value_nat, if_pos hhalf]
    · rw [hval, if_pos hfit, ← hpow]

/-- Instance of the amended C23: `(-2)^63` is the smallest `std::intmax_t`, and
`IntegerPower<-2, 63>::value` is that number; `IntegerPower<3, 5>::value` is
243. -/
theorem C23_integer_power_witness :
    (0 : Int) ≤ 63
      ∧ fitsIntmax ((-2 : Int) ^ (63 : Int).toNat) = true
      ∧ IntegerPower.value (-2) 63 = some ((-2) ^ (63 : Int).toNat)
      ∧ IntegerPower.value (-2) 63 = some (-9223372036854775808)
      ∧ IntegerPower.value 3 5 = some 243 := by
  have hmain := C23_integer_power (-2) 63 (by decide)
  exact ⟨by decide, by decide, hmain.2.1 (by decide), by decide!, by decide!⟩

/-! ## The number of points in the frequency domain -/

/-- The loop of `initializeGrid` from a power of two: for at most `2^30` nodes
it ends, at the first power of two that is not below the number of nodes. -/
theorem BlackScholesJumpDiffusion.doubling_spec (n : Int) (hn : n ≤ 2 ^ 30) :
    ∀ (fuel k : Nat), k ≤ 29 → 29 - k ≤ fuel → (k = 0 ∨ (2 : Int) ^ k < n) →
      ∃ j : Nat, BlackScholesJumpDiffusion.doubling n fuel (2 ^ (k + 1))
          = some (Except.ok (2 ^ (j + 1)))
        ∧ n ≤ 2 ^ (j + 1) ∧ (j = 0 ∨ (2 : Int) ^ j < n) := by
  intro fuel
  induction fuel with
  | zero =>
    intro k hk hfuel hinv
    have hk29 : k = 29 := by omega
    subst hk29
    refine ⟨29, ?_, by simpa using hn, hinv⟩
    unfold BlackScholesJumpDiffusion.doubling
    rw [if_neg (by simpa using hn)]
  | succ fuel ih =>
    intro k hk hfuel hinv
    unfold BlackScholesJumpDiffusion.doubling
    by_cases hlt : (2 : Int) ^ (k + 1) < n
    · rw [if_pos hlt]
      have hk28 : k ≤ 28 := by
        by_contra hcon
        have hk29 : k = 29 := by omega
        subst hk29
        have : (2 : Int) ^ (29 + 1) < 2 ^ 30 := lt_of_lt_of_le hlt hn
        simp at this
      have hpow : (2 : Int) ^ (k + 1) * 2 = 2 ^ (k + 1 + 1) := (pow_succ 2 (k + 1)).symm
      have hle : (2 : Int) ^ (k + 1 + 1) ≤ 2 ^ 30 :=
        pow_le_pow_right₀ (by norm_num) (by omega)
      have hpos : (0 : Int) < 2 ^ (k + 1 + 1) := by positivity
      have hfit : fitsInt ((2 : Int) ^ (k + 1) * 2) = true := by
        rw [hpow]
        unfold fitsInt INT_MIN INT_MAX
        rw [decide_eq_true_iff]
        constructor
        · linarith
        · have : (2 : Int) ^ 30 ≤ 2147483647 := by norm_num
          linarith
      rw [if_pos hfit, hpow]
      exact ih (k + 1) (by omega) (by omega) (Or.inr hlt)
    · rw [if_neg hlt]
      exact ⟨k, rfl, not_lt.mp hlt, hinv⟩

/-- C25: what `initializeGrid` sets.  For 4 spatial nodes the loop ends at
once with `N = 4`, which is not larger than 4; the smallest power of two larger
than 4 is 8.  For every number of nodes from 1 to `2^30` the loop ends with the
smallest power of two, at least 2, that is not below the number of nodes: `N`
is larger than `n` except when `n` is itself such a power of two. -/
theorem C25_frequency_points :
    BlackScholesJumpDiffusion.frequencyPoints 4 31 = some (Except.ok 4)
      ∧ ¬ ((4 : Int) < 4)
      ∧ ((4 : Int) < 2 ^ 3 ∧ ∀ k : Nat, (4 : Int) < 2 ^ k → (2 : Int) ^ 3 ≤ 2 ^ k)
      ∧ BlackScholesJumpDiffusion.frequencyPoints 1 31 = some (Except.ok 2)
      ∧ BlackScholesJumpDiffusion.frequencyPoints 2 31 = some (Except.ok 2)
      ∧ BlackScholesJumpDiffusion.frequencyPoints 3 31 = some (Except.ok 4)
      ∧ BlackScholesJumpDiffusion.frequencyPoints 5 31 = some (Except.ok 8)
      ∧ (∀ n : Int, 1 ≤ n → n ≤ 2 ^ 30 →
          ∃ j : Nat, BlackScholesJumpDiffusion.frequencyPoints n 31
              = some (Except.ok (2 ^ (j + 1)))
            ∧ n ≤ 2 ^ (j + 1) ∧ (j = 0 ∨ (2 : Int) ^ j < n)) := by
  refine ⟨by decide, by decide, ⟨by decide, ?_⟩, by decide, by decide, by decide, by decide, ?_⟩
  · intro k hk
    have h3 : 3 ≤ k := by
      by_contra hcon
      have hk2 : k ≤ 2 := by omega
      have : (2 : Int) ^ k ≤ 2 ^ 2 := pow_le_pow_right₀ (by norm_num) hk2
      norm_num at this
      omega
    exact pow_le_pow_right₀ (by norm_num) h3
  · intro n _ hn
    have := BlackScholesJumpDiffusion.doubling_spec n hn 31 0 (by omega) (by omega) (Or.inl rfl)
    simpa [BlackScholesJumpDiffusion.frequencyPoints] using this

/-! ## The Black-Scholes operator -/

namespace BlackScholes

/-- The pair of `BlackScholes::A` is the pair of `ControlledOperator::A` for
the volatility `v * S` and the drift `(r - q - l * kappa) * S`. -/
theorem stencil_eq (r_i v_i q_i l_i kappa S_i dSb dSc dSf : ℚ) :
    stencil r_i v_i q_i l_i kappa S_i dSb dSc dSf
      = ControlledOperator.stencil (v_i * S_i) ((r_i - q_i - l_i * kappa) * S_i) dSb dSc dSf := by
  have ha : alpha_common v_i S_i dSb dSc = ControlledOperator.alpha_common (v_i * S_i) dSb dSc := by
    unfold alpha_common ControlledOperator.alpha_common
    ring
  have hb : beta_common v_i S_i dSf dSc = ControlledOperator.beta_common (v_i * S_i) dSf dSc := by
    unfold beta_common ControlledOperator.beta_common
    ring
  unfold stencil ControlledOperator.stencil
  rw [ha, hb]

theorem row_of_A_row (bs : BlackScholes) (t : ℚ) (r : Nat) :
    ∀ e ∈ bs.A_row t r, e.row = (r : Int) := by
  intro e he
  unfold A_row at he
  simp only at he
  split_ifs at he <;> simp only [List.mem_cons, List.mem_singleton, List.not_mem_nil,
    or_false] at he
  · rw [he]
  · rw [he]
  · rcases he with he | he | he <;> rw [he]

/-- The entries stored in a row of `A` are those inserted for its node. -/
theorem rowEntries_A (bs : BlackScholes) (t : ℚ) (idx : Nat) (hidx : idx < bs.G.size) :
    rowEntries (bs.A t) idx = bs.A_row t idx := by
  unfold rowEntries A
  have h := filter_flatMap_row (bs.A_row t) (fun _ => true) bs.G.size idx hidx (bs.row_of_A_row t)
  simp only [Bool.and_true, List.filter_true] at h
  exact h

end BlackScholes

/-- C22, refuted as stated: on an asset axis with the single tick 100 the row 0
has the asset index 0, which is also the last one; its only stored entry is the
interest rate `4/100`, not the dividend rate 0. -/
theorem C22_black_scholes_rows_counterexample :
    (exampleBlackScholes [100]).assetIndex 0 = 0
      ∧ (exampleBlackScholes [100]).assetIndex 0
          = ((exampleBlackScholes [100]).G.axis (exampleBlackScholes [100]).SIndex).length - 1
      ∧ BlackScholes.rowEntries ((exampleBlackScholes [100]).A 0) 0 = [⟨0, 0, 4 / 100⟩]
      ∧ (exampleBlackScholes [100]).q 0 (coordinates (exampleBlackScholes [100]).G 0) = 0
      ∧ BlackScholes.rowEntries ((exampleBlackScholes [100]).A 0) 0
          ≠ [⟨0, 0, (exampleBlackScholes [100]).q 0
              (coordinates (exampleBlackScholes [100]).G 0)⟩] := by
  refine ⟨by decide, by decide, by decide!, rfl, by decide!⟩

/-- C22, amended: in the matrix `BlackScholes::A(t)`, every row whose asset
index is 0 has exactly one stored entry, the diagonal, equal to the interest
rate at the node; every row whose asset index is the last one and not 0 has
exactly one stored entry, the diagonal, equal to the dividend rate at the
node; every other row has the diagonal `alpha + beta + r + l` and the two
off-diagonal entries `-alpha` and `-beta`, with `alpha, beta ≥ 0` on a strictly
increasing asset axis. -/
theorem C22_black_scholes_rows (bs : BlackScholes) (t : ℚ) (idx : Nat)
    (hS : bs.SIndex < bs.G.length) (hidx : idx < bs.G.size) :
    (bs.assetIndex idx = 0 →
        BlackScholes.rowEntries (bs.A t) idx
          = [⟨(idx : Int), (idx : Int), bs.r t (coordinates bs.G idx)⟩])
      ∧ (bs.assetIndex idx ≠ 0 → bs.assetIndex idx = (bs.G.axis bs.SIndex).length - 1 →
        BlackScholes.rowEntries (bs.A t) idx
          = [⟨(idx : Int), (idx : Int), bs.q t (coordinates bs.G idx)⟩])
      ∧ (bs.assetIndex idx ≠ 0 → bs.assetIndex idx ≠ (bs.G.axis bs.SIndex).length - 1 →
        BlackScholes.rowEntries (bs.A t) idx
            = [⟨(idx : Int), (idx : Int) - (bs.offset : Int), -(bs.coefficients t idx).1⟩,
               ⟨(idx : Int), (idx : Int),
                 (bs.coefficients t idx).1 + (bs.coefficients t idx).2
                   + bs.r t (coordinates bs.G idx) + bs.l t (coordinates bs.G idx)⟩,
               ⟨(idx : Int), (idx : Int) + (bs.offset : Int), -(bs.coefficients t idx).2⟩]
          ∧ (idx : Int) - (bs.offset : Int) ≠ (idx : Int)
          ∧ (idx : Int) + (bs.offset : Int) ≠ (idx : Int)
          ∧ (Axis.StrictlyIncreasing (bs.G.axis bs.SIndex) →
              0 ≤ (bs.coefficients t idx).1 ∧ 0 ≤ (bs.coefficients t idx).2)) := by
  have hg : 0 < bs.G.size := by omega
  rw [BlackScholes.rowEntries_A bs t idx hidx]
  refine ⟨?_, ?_, ?_⟩
  · intro h0
    unfold BlackScholes.A_row
    simp only [h0, if_true]
  · intro h0 h1
    unfold BlackScholes.A_row
    simp only [if_neg h0, if_pos h1]
  · intro h0 h1
    have hoff : 0 < bs.offset := offsets_pos bs.G hg bs.SIndex (by omega)
    refine ⟨?_, by omega, by omega, ?_⟩
    · unfold BlackScholes.A_row
      simp only [if_neg h0, if_neg h1]
    · intro hinc
      have hn := axis_length_pos bs.G hg bs.SIndex hS
      have hi : bs.assetIndex idx < (bs.G.axis bs.SIndex).length := Nat.mod_lt _ hn
      unfold BlackScholes.coefficients
      simp only
      rw [BlackScholes.stencil_eq]
      have hb := tick_lt_tick _ hinc (bs.assetIndex idx - 1) (bs.assetIndex idx)
        (by omega) hi
      have hf := tick_lt_tick _ hinc (bs.assetIndex idx) (bs.assetIndex idx + 1)
        (by omega) (by omega)
      exact stencil_nonneg _ _ _ _ _ (by linarith) (by linarith) (by linarith)

/-- Instance of the amended C22: interest `4/100`, volatility `2/10`, no
dividends, on the axis `0, 50, 100, 200`: the four rows of the matrix. -/
theorem C22_black_scholes_rows_witness :
    (exampleBlackScholes [0, 50, 100, 200]).SIndex
        < (exampleBlackScholes [0, 50, 100, 200]).G.length
      ∧ (2 : Nat) < (exampleBlackScholes [0, 50, 100, 200]).G.size
      ∧ (0 ≤ ((exampleBlackScholes [0, 50, 100, 200]).coefficients 0 2).1
          ∧ 0 ≤ ((exampleBlackScholes [0, 50, 100, 200]).coefficients 0 2).2)
      ∧ (exampleBlackScholes [0, 50, 100, 200]).A 0
        = [⟨0, 0, 1 / 25⟩,
           ⟨1, 0, 0⟩, ⟨1, 1, 2 / 25⟩, ⟨1, 2, -1 / 25⟩,
           ⟨2, 1, -2 / 75⟩, ⟨2, 2, 3 / 25⟩, ⟨2, 3, -4 / 75⟩,
           ⟨3, 3, 0⟩] := by
  have hmain := C22_black_scholes_rows (exampleBlackScholes [0, 50, 100, 200]) 0 2
    (by decide) (by decide)
  exact ⟨by decide, by decide,
    (hmain.2.2 (by decide) (by decide)).2.2.2 (by decide!), by decide!⟩

/-! ## The HJBQVI discretization of the Black-Scholes operator -/

theorem coordinates_getD (g : RectilinearGrid) (row d : Nat) (hd : d < g.length) :
    (coordinates g row).getD d 0 = (g.axis d).tick (index g row d) := by
  unfold coordinates
  rw [List.getD_eq_getElem _ _ (by simpa using hd)]
  simp

/-- The entries stored in a row of `ControlledOperator::A` are those inserted
for its node. -/
theorem ControlledOperator.rowEntries_eq_A_row (op : ControlledOperator) (t : ℚ) (idx : Nat)
    (hidx : idx < op.refined_spatial_grid.size) :
    BlackScholes.rowEntries (op.A t) idx = op.A_row t idx := by
  unfold BlackScholes.rowEntries ControlledOperator.A
  have h := filter_flatMap_row (op.A_row t) (fun _ => true) op.refined_spatial_grid.size idx
    hidx (op.A_row_row t)
  simp only [Bool.and_true, List.filter_true] at h
  exact h

/-- The pair that the HJBQVI discretization computes in the dimension of the
asset is the pair of `BlackScholes::A`. -/
theorem BlackScholes.asControlledOperator_coefficients (bs : BlackScholes) (t : ℚ) (idx : Nat)
    (hS : bs.SIndex < bs.G.length) :
    bs.asControlledOperator.coefficients t idx bs.SIndex = bs.coefficients t idx := by
  have hx : (coordinates bs.G idx).getD bs.SIndex 0
      = (bs.G.axis bs.SIndex).tick (bs.assetIndex idx) := coordinates_getD bs.G idx bs.SIndex hS
  unfold BlackScholes.coefficients ControlledOperator.coefficients
  simp only
  have hsl : bs.asControlledOperator.hjbqvi.semi_lagrangian = false := by
    have h : bs.asControlledOperator.hjbqvi.handling = HJBQVIControlMethod.PENALTY_METHOD := rfl
    unfold HJBQVIData.semi_lagrangian
    rw [h]
    decide
  rw [BlackScholes.stencil_eq,
    drift_not_semi_lagrangian bs.asControlledOperator.hjbqvi.toHJBQVIData hsl]
  show ControlledOperator.stencil
      (bs.v t (coordinates bs.G idx) * (coordinates bs.G idx).getD bs.SIndex 0)
      ((bs.r t (coordinates bs.G idx) - bs.q t (coordinates bs.G idx)
          - bs.l t (coordinates bs.G idx) * bs.kappa t)
        * (coordinates bs.G idx).getD bs.SIndex 0) _ _ _ = _
  rw [hx]
  rfl

namespace HJBQVI_main

theorem exists_results {α : Type} (f : α → Except Undefined Result) (l : List α)
    (h : ∀ x ∈ l, ∃ r, f x = Except.ok r) :
    ∃ rs : List Result, l.map f = rs.map Except.ok := by
  induction l with
  | nil => exact ⟨[], rfl⟩
  | cons a t ih =>
    obtain ⟨r, hr⟩ := h a (List.mem_cons_self a t)
    obtain ⟨rs, hrs⟩ := ih (fun x hx => h x (List.mem_cons_of_mem a hx))
    exact ⟨r :: rs, by rw [List.map_cons, List.map_cons, hr, hrs]⟩

/-- The loop from any of its states: when `solve` returns at every level from
the current one to `max_refinement`, the loop ends at `max_refinement`, having
called `solve` once at each of these levels, in order, and printed the rows of
their results. -/
theorem loop_spec (p : HJBQVIProblem) (lib : Library) (test_point : List ℚ)
    (max_refinement : Int) (verbose : Bool) (runs : Nat → SolveRun)
    (hmax : max_refinement < INT_MAX) :
    ∀ (n fuel : Nat) (st : MainState) (results : List Result),
      n + 1 ≤ fuel → st.refinement + (n : Int) = max_refinement →
      (List.range (n + 1)).map
          (fun (k : Nat) => p.solve lib (st.refinement + (k : Int)) (runs (st.calls.length + k)))
        = results.map Except.ok →
      ∃ ret, loop p lib test_point max_refinement verbose runs fuel st = some (Except.ok ret)
        ∧ ret.calls
          = st.calls ++ (List.range (n + 1)).map (fun (k : Nat) => st.refinement + (k : Int))
        ∧ ret.rows = st.rows ++ table lib test_point st.previousValue st.previousChange results
        ∧ results.getLast? = some ret.result
        ∧ ret.nodes = (if verbose then nodeRows ret.result else []) := by
  intro n
  induction n with
  | zero =>
    intro fuel st results hfuel hlevel hres
    cases fuel with
    | zero => omega
    | succ fuel =>
      have hr1 : List.range (0 + 1) = [0] := rfl
      rw [hr1] at hres
      cases results with
      | nil => simp at hres
      | cons res rest =>
        cases rest with
        | cons _ _ => simp at hres
        | nil =>
          simp only [List.map_cons, List.map_nil, Nat.cast_zero, add_zero, List.cons.injEq,
            and_true] at hres
          have heq : st.refinement = max_refinement := by simpa using hlevel
          have hne : ¬ st.refinement = INT_MAX := by omega
          refine ⟨{ result := res
                    rows := st.rows ++ [row lib test_point res st.previousValue st.previousChange]
                    nodes := if verbose then nodeRows res else []
                    calls := st.calls ++ [st.refinement] }, ?_, ?_, ?_, ?_, ?_⟩
          · rw [loop, hres]
            simp only [if_neg hne, if_pos heq]
          · rw [hr1]
            simp
          · rfl
          · rfl
          · rfl
  | succ n ih =>
    intro fuel st results hfuel hlevel hres
    cases fuel with
    | zero => omega
    | succ fuel =>
      rw [List.range_succ_eq_map] at hres
      cases results with
      | nil => simp at hres
      | cons res rest =>
        simp only [List.map_cons, List.map_map, Nat.cast_zero, add_zero, List.cons.injEq] at hres
        obtain ⟨hfirst, hrest⟩ := hres
        have hne : ¬ st.refinement = INT_MAX := by
          push_cast at hlevel
          omega
        have hne' : ¬ st.refinement = max_refinement := by
          push_cast at hlevel
          omega
        have hstep := ih fuel
          { refinement := st.refinement + 1
            previousValue := (row lib test_point res st.previousValue st.previousChange).value
            previousChange := (row lib test_point res st.previousValue st.previousChange).change
            rows := st.rows ++ [row lib test_point res st.previousValue st.previousChange]
            calls := st.calls ++ [st.refinement] }
          rest (by omega) (by push_cast at hlevel ⊢; omega)
          (by
            rw [← hrest]
            apply List.map_congr_left
            intro k _
            simp only [Function.comp, List.length_append, List.length_singleton]
            have h1 : st.refinement + 1 + (k : Int) = st.refinement + ((k.succ : Nat) : Int) := by
              push_cast
              ring
            have h2 : st.calls.length + 1 + k = st.calls.length + k.succ := by omega
            rw [h1, h2])
        obtain ⟨ret, hloop, hcalls, hrows, hlast, hnodes⟩ := hstep
        refine ⟨ret, ?_, ?_, ?_, ?_, hnodes⟩
        · rw [loop, hfirst]
          simp only [if_neg hne, if_neg hne']
          exact hloop
        · rw [hcalls, List.range_succ_eq_map (n + 1)]
          simp only [List.append_assoc, List.singleton_append, List.map_cons, List.map_map,
            Nat.cast_zero, add_zero]
          congr 2
          apply List.map_congr_left
          intro k _
          simp only [Function.comp]
          push_cast
          ring
        · rw [hrows]
          simp only [List.append_assoc, List.singleton_append, table]
        · rw [← hlast]
          cases rest with
          | nil => simp at hrest
          | cons a t => simp [List.getLast?_cons_cons]

end HJBQVI_main

theorem HJBQVI_main.exists_ok (e : Except Undefined Result) (h : e.toOption.isSome = true) :
    ∃ r, e = Except.ok r := by
  cases e with
  | error u => cases h
  | ok r => exact ⟨r, rfl⟩

end QuantPDE
